import Mathlib

/-!
# TRAMS stepper driver (Marlin/TRAMS.cpp): shallow embedding

The file embeds the motion ring buffer, the segment calculator
`Trams::calculate`, the dispatch interrupt `Trams::isr`, the byte framing of
the bus transport and the homing procedure `Trams::TMC5130_homing` of
`Marlin/TRAMS.cpp` as pure functions on an explicit machine state, and
proves properties of them.

Conventions.
* `unsigned long` and `uint32_t` values are naturals reduced modulo `2^32`
  at every arithmetic step that can overflow; `unsigned char` values are
  naturals reduced modulo `2^8`.
* `long` position counters are integers; signed overflow is undefined in C
  and is not wrapped here.
* `double` values are exact rationals; a conversion of a `double` to an
  integer type truncates toward zero.
* Integer division by zero is undefined in C; here it yields `0` (the value
  of `/` on naturals), and statements about rescaled values assume a nonzero
  divisor explicitly.
* Every `spi_writeRegister` call is recorded, in program order, at the end
  of the bus log `State.bus`.
* The homing procedure talks to the bus directly; its calls are recorded in
  a trace of its own, and the values its status reads return are an input
  list. A poll loop that does not end within that list has no result.
-/

namespace Trams

/-! ## Data model -/

/-- Axis indices of `AxisEnum`: `X_AXIS = 0`, `Y_AXIS = 1`, `Z_AXIS = 2`,
`E_AXIS = 3`. -/
inductive AxisEnum where
  | X_AXIS
  | Y_AXIS
  | Z_AXIS
  | E_AXIS
deriving DecidableEq, Repr

open AxisEnum

/-- Numeric value of an axis index, as used in `1 << X_AXIS`. -/
def AxisEnum.toNat : AxisEnum → Nat
  | X_AXIS => 0
  | Y_AXIS => 1
  | Z_AXIS => 2
  | E_AXIS => 3

/-- An array `T v[NUM_AXIS]` with `NUM_AXIS = 4`. -/
structure PerAxis (α : Type) where
  x : α
  y : α
  z : α
  e : α
deriving DecidableEq, Repr

/-- Array read `v[a]`. -/
def PerAxis.get {α : Type} (v : PerAxis α) : AxisEnum → α
  | X_AXIS => v.x
  | Y_AXIS => v.y
  | Z_AXIS => v.z
  | E_AXIS => v.e

/-- Array write `v[a] = val`. -/
def PerAxis.set {α : Type} (v : PerAxis α) (a : AxisEnum) (val : α) : PerAxis α :=
  match a with
  | X_AXIS => { v with x := val }
  | Y_AXIS => { v with y := val }
  | Z_AXIS => { v with z := val }
  | E_AXIS => { v with e := val }

/-- An array with the same value in every cell. -/
def PerAxis.const {α : Type} (val : α) : PerAxis α := ⟨val, val, val, val⟩

/-- Modelled from the spec: the field types of `Trams::motion_block_t`, which
is declared in `TRAMS.h` (not part of the sources at hand). The fields are the
ones `TRAMS.cpp` reads and writes: per-axis acceleration and speeds in device
units (32-bit unsigned), per-axis absolute target position (`long`), the
vertical-axis flag, the duration in timer ticks and the readiness flag. -/
structure motion_block_t where
  accel : PerAxis Nat
  initial_speed : PerAxis Nat
  nominal_speed : PerAxis Nat
  final_speed : PerAxis Nat
  pos : PerAxis Int
  pos_change_z : Bool
  nextTimerClk : Int
  calcready : Bool
deriving DecidableEq, Repr

/-- A zero-initialised segment, the content of static storage at start-up. -/
def motion_block_t.zero : motion_block_t :=
  { accel := PerAxis.const 0, initial_speed := PerAxis.const 0,
    nominal_speed := PerAxis.const 0, final_speed := PerAxis.const 0,
    pos := PerAxis.const 0, pos_change_z := false, nextTimerClk := 0,
    calcready := false }

instance : Inhabited motion_block_t := ⟨motion_block_t.zero⟩

/-- Modelled from the spec: the planner block `block_t`, declared in
`planner.h` (not part of the sources at hand), with the fields `calculate`
reads: per-axis signed step counts, the step-event count, the three rates and
the acceleration (32-bit unsigned), the direction bits (one byte) and the two
phase boundaries (32-bit signed). -/
structure block_t where
  steps : PerAxis Int
  step_event_count : Nat
  acceleration_steps_per_s2 : Nat
  initial_rate : Nat
  nominal_rate : Nat
  final_rate : Nat
  direction_bits : Nat
  accelerate_until : Int
  decelerate_after : Int
deriving DecidableEq, Repr

/-- Modelled from the spec: the register names passed to `spi_writeRegister`
and `spi_readRegister`; the address macros are defined in `TRAMS.h` (not part
of the sources at hand), so registers are kept symbolic. -/
inductive Register where
  | GCONF
  | IHOLD_IRUN
  | TCOOLTHRS
  | RAMPMODE
  | XACTUAL
  | VSTART
  | V_1
  | AMAX
  | VMAX
  | DMAX
  | D_1
  | VSTOP
  | XTARGET
  | SW_MODE
  | RAMP_STAT
  | CHOPCONF
  | COOLCONF
deriving DecidableEq, Repr

open Register

/-- One `spi_writeRegister(address, data, axis)` call; `data` is the 32-bit
word put on the bus. -/
structure SpiWrite where
  address : Register
  data : Nat
  axis : AxisEnum
deriving DecidableEq, Repr

/-- Capacity of the ring buffer: `#define MOTION_BUFFER_SIZE 16`. -/
def MOTION_BUFFER_SIZE : Nat := 16

/-- The static variables of `TRAMS.cpp`, the hardware counter `TCNT1`, the
member `current_block`, the bus log, and the planner queue.

Modelled from the spec: the planner (declared in `planner.h`, not part of the
sources at hand) is its queue of blocks; `planner.get_current_block()` is a
non-destructive peek at the first block and `planner.discard_current_block()`
drops it. -/
structure State where
  motion_buffer : List motion_block_t
  motion_buffer_block_old : motion_block_t
  motion_buffer_head : Nat
  motion_buffer_tail : Nat
  motion_buffer_full : Bool
  out_bits : Nat
  pos : PerAxis Int
  timerClk : Int
  nextTimerClk : Int
  TEMPtimerClk : ℚ
  TCNT1 : Nat
  current_block : Option block_t
  planner : List block_t
  bus : List SpiWrite
deriving DecidableEq, Repr

/-- The state after static initialisation: everything zero, nothing queued. -/
def State.init : State :=
  { motion_buffer := List.replicate MOTION_BUFFER_SIZE motion_block_t.zero,
    motion_buffer_block_old := motion_block_t.zero,
    motion_buffer_head := 0, motion_buffer_tail := 0, motion_buffer_full := false,
    out_bits := 0, pos := PerAxis.const 0, timerClk := 0, nextTimerClk := 0,
    TEMPtimerClk := 0, TCNT1 := 0, current_block := none, planner := [], bus := [] }

/-- Array read `motion_buffer[i]`. -/
def State.slot (s : State) (i : Nat) : motion_block_t :=
  s.motion_buffer.getD i motion_block_t.zero

/-- Store through a slot pointer: `motion_buffer[i] = seg`. -/
def State.writeSlot (s : State) (i : Nat) (seg : motion_block_t) : State :=
  { s with motion_buffer := s.motion_buffer.set i seg }

/-! ## Ring buffer (TRAMS.cpp lines 362-426) -/

/-- Function `Trams::discard_current_motion_block`. -/
def discard_current_motion_block (s : State) : State :=
  { s with
    motion_buffer_tail := (s.motion_buffer_tail + 1) &&& (MOTION_BUFFER_SIZE - 1),
    motion_buffer_full := false }

/-- Function `Trams::get_current_motion_block`: the index of the returned slot,
`none` for `NULL`. -/
def get_current_motion_block (s : State) : Option Nat :=
  if s.motion_buffer_head = s.motion_buffer_tail ∧ s.motion_buffer_full = false then
    none
  else
    some s.motion_buffer_tail

/-- Function `Trams::motion_blocks_queued`. -/
def motion_blocks_queued (s : State) : Bool :=
  decide (s.motion_buffer_head ≠ s.motion_buffer_tail) || s.motion_buffer_full

/-- Function `Trams::get_next_free_motion_block`: the index of the returned
slot, `none` for `NULL`. -/
def get_next_free_motion_block (s : State) : Option Nat :=
  if s.motion_buffer_full then none else some s.motion_buffer_head

/-- Function `Trams::append_motion_block`; the head is an `unsigned char`. -/
def append_motion_block (s : State) : State :=
  let head := (s.motion_buffer_head + 1) % 256
  let head := if head = MOTION_BUFFER_SIZE then 0 else head
  let full := if head = s.motion_buffer_tail then true else s.motion_buffer_full
  { s with motion_buffer_head := head, motion_buffer_full := full }

/-- Function `Trams::blocks_in_motion_queue`: `char temp = head - tail`
(a signed byte), `if (temp < 0) temp += MOTION_BUFFER_SIZE`, returned as an
`unsigned char`. -/
def blocks_in_motion_queue (s : State) : Nat :=
  let temp : Int := ((s.motion_buffer_head : Int) - s.motion_buffer_tail + 128) % 256 - 128
  let temp : Int := if temp < 0 then (temp + MOTION_BUFFER_SIZE + 128) % 256 - 128 else temp
  (temp % 256).toNat

/-! ## Machine arithmetic -/

/-- Conversion of an integer value to `unsigned long` / `uint32_t`. -/
def toU32 (n : Int) : Nat := (n % 2 ^ 32).toNat

/-- Conversion of a 32-bit word to `long` (two's complement). -/
def toLong (n : Int) : Int := (n + 2 ^ 31) % 2 ^ 32 - 2 ^ 31

/-- Conversion of a `double` to `long`: truncation toward zero. A value
outside the range of `long` has no defined conversion in C; it is left
unwrapped here, so the result is that of the code only while it fits 32
bits. -/
def truncToLong (q : ℚ) : Int := if 0 ≤ q then ⌊q⌋ else ⌈q⌉

/-- Constant `TMC5130_t_factor`: `(double)1.048576`. -/
def TMC5130_t_factor : ℚ := 1048576 / 1000000

/-- Function `TramsSPI::spi_writeRegister`, seen from the bus: the call is
appended to the log. -/
def spi_writeRegister (address : Register) (data : Nat) (axis : AxisEnum) (s : State) : State :=
  { s with bus := s.bus ++ [{ address := address, data := data, axis := axis }] }

/-! ## Segment calculator (TRAMS.cpp lines 433-697) -/

/-- The scale factor of one axis:
`scale_axis = (((unsigned long)current_block->steps[a]) << 16) / current_block->step_event_count`. -/
def scale_axis (blk : block_t) (a : AxisEnum) : Nat :=
  (toU32 (blk.steps.get a) <<< 16) % 2 ^ 32 / blk.step_event_count

/-- Rescaled acceleration of a moving axis:
`accel = (scale_axis >> 7) * acceleration_steps_per_s2; accel = accel >> 16;
if (accel == 0) accel = 1000;`. -/
def ramp_accel (blk : block_t) (a : AxisEnum) : Nat :=
  let accel := ((scale_axis blk a >>> 7) * blk.acceleration_steps_per_s2) % 2 ^ 32
  let accel := accel >>> 16
  if accel = 0 then 1000 else accel

/-- Rescaled nominal speed of a moving axis:
`nominal_speed = scale_axis * nominal_rate; nominal_speed = nominal_speed >> 16;`. -/
def ramp_nominal_speed (blk : block_t) (a : AxisEnum) : Nat :=
  ((scale_axis blk a * blk.nominal_rate) % 2 ^ 32) >>> 16

/-- Rescaled initial speed of a moving axis, lowered to the nominal speed:
`initial_speed = scale_axis * initial_rate; initial_speed = initial_speed >> 16;
if (nominal_speed < initial_speed) initial_speed = nominal_speed;`. -/
def ramp_initial_speed (blk : block_t) (a : AxisEnum) : Nat :=
  let initial_speed := ((scale_axis blk a * blk.initial_rate) % 2 ^ 32) >>> 16
  if ramp_nominal_speed blk a < initial_speed then ramp_nominal_speed blk a else initial_speed

/-- Rescaled final speed of a moving axis with its floor, and the ceiling of
800 when `ceiling` is set (the Z and E blocks of the source have it, the X and
Y blocks do not):
`final_speed = scale_axis * final_rate; final_speed = final_speed >> 16;
if (final_speed < 10) final_speed = 10; if (final_speed > 800) final_speed = 800;`. -/
def ramp_final_speed (blk : block_t) (a : AxisEnum) (ceiling : Bool) : Nat :=
  let final_speed := ((scale_axis blk a * blk.final_rate) % 2 ^ 32) >>> 16
  let final_speed := if final_speed < 10 then 10 else final_speed
  if ceiling && decide (final_speed > 800) then 800 else final_speed

/-- The working set of `calculate` while it fills a slot: the slot
`*current_motion_block`, the snapshot `motion_buffer_block_old` and the
position counters `pos[]`. -/
structure CalcCtx where
  cur : motion_block_t
  old : motion_block_t
  pos : PerAxis Int
deriving DecidableEq, Repr

/-- The moving branch of one axis up to and including the position update:
acceleration, initial, nominal and final speed are written into the slot, then
`pos[a]` is decreased by the step count if the direction bit of the axis is
set in `out_bits` and increased otherwise, and stored as the target. -/
def calc_axis_move (blk : block_t) (out_bits : Nat) (a : AxisEnum) (ceiling : Bool)
    (c : CalcCtx) : CalcCtx :=
  let cur := { c.cur with
    accel := c.cur.accel.set a (ramp_accel blk a),
    initial_speed := c.cur.initial_speed.set a (ramp_initial_speed blk a),
    nominal_speed := c.cur.nominal_speed.set a (ramp_nominal_speed blk a),
    final_speed := c.cur.final_speed.set a (ramp_final_speed blk a ceiling) }
  let pos :=
    if out_bits &&& (1 <<< a.toNat) ≠ 0 then c.pos.set a (c.pos.get a - blk.steps.get a)
    else c.pos.set a (c.pos.get a + blk.steps.get a)
  { c with cur := { cur with pos := cur.pos.set a (pos.get a) }, pos := pos }

/-- The lines under `//store the calculate values in motion_buffer_block_old`:
the five values of axis `a` are copied from the slot to the snapshot. -/
def calc_store_old (a : AxisEnum) (c : CalcCtx) : CalcCtx :=
  { c with old := { c.old with
      accel := c.old.accel.set a (c.cur.accel.get a),
      initial_speed := c.old.initial_speed.set a (c.cur.initial_speed.get a),
      nominal_speed := c.old.nominal_speed.set a (c.cur.nominal_speed.get a),
      final_speed := c.old.final_speed.set a (c.cur.final_speed.get a),
      pos := c.old.pos.set a (c.cur.pos.get a) } }

/-- The lines under `//If there is no movement in the ...-axis use the last
calculate values`: the five values of axis `a` are copied from the snapshot to
the slot. -/
def calc_carry_old (a : AxisEnum) (c : CalcCtx) : CalcCtx :=
  { c with cur := { c.cur with
      accel := c.cur.accel.set a (c.old.accel.get a),
      initial_speed := c.cur.initial_speed.set a (c.old.initial_speed.get a),
      nominal_speed := c.cur.nominal_speed.set a (c.old.nominal_speed.get a),
      final_speed := c.cur.final_speed.set a (c.old.final_speed.get a),
      pos := c.cur.pos.set a (c.old.pos.get a) } }

/-- The common shape of the X, Y and E blocks of `calculate`: a moving axis
is rescaled, its position updated and its values stored in the snapshot; an
axis without steps takes the values of the snapshot. -/
def calculate_axis_block (blk : block_t) (out_bits : Nat) (a : AxisEnum) (ceiling : Bool)
    (c : CalcCtx) : CalcCtx :=
  if blk.steps.get a ≠ 0 then
    calc_store_old a (calc_axis_move blk out_bits a ceiling c)
  else
    calc_carry_old a c

/-- The X block of `calculate` (lines 451-502): no ceiling on the final
speed. -/
def calculate_x (blk : block_t) (out_bits : Nat) (c : CalcCtx) : CalcCtx :=
  calculate_axis_block blk out_bits X_AXIS false c

/-- The Y block of `calculate` (lines 506-557): no ceiling on the final
speed. -/
def calculate_y (blk : block_t) (out_bits : Nat) (c : CalcCtx) : CalcCtx :=
  calculate_axis_block blk out_bits Y_AXIS false c

/-- The Z block of `calculate` (lines 560-603): the final speed has the
ceiling, nothing is stored in the snapshot, and the other branch only clears
the flag `pos_change_z`. -/
def calculate_z (blk : block_t) (out_bits : Nat) (c : CalcCtx) : CalcCtx :=
  if blk.steps.get Z_AXIS ≠ 0 then
    let c := calc_axis_move blk out_bits Z_AXIS true c
    { c with cur := { c.cur with pos_change_z := true } }
  else
    { c with cur := { c.cur with pos_change_z := false } }

/-- The E block of `calculate` (lines 606-658): the final speed has the
ceiling. -/
def calculate_e (blk : block_t) (out_bits : Nat) (c : CalcCtx) : CalcCtx :=
  calculate_axis_block blk out_bits E_AXIS true c

/-- The four axis blocks of `calculate` in program order. -/
def calculate_axes (blk : block_t) (out_bits : Nat) (c : CalcCtx) : CalcCtx :=
  calculate_e blk out_bits (calculate_z blk out_bits (calculate_y blk out_bits
    (calculate_x blk out_bits c)))

/-- The duration computation of `calculate` (lines 660-686). The result is the
final value of `nextTimerClk` and of `TEMPtimerClk`; `TEMPold` is the value
`TEMPtimerClk` had on entry. The `double` arithmetic is carried out on exact
rationals. On the AVR a `double` has 32 bits and every operation rounds to a
24-bit significand, so the duration the code stores can differ from this
value in its last places; a division by a zero acceleration, infinite in the
code, is 0 here. -/
def calc_duration (blk : block_t) (TEMPold : ℚ) : Int × ℚ :=
  -- I - Acceleration phase
  let nextTimerClk : Int := toLong (((blk.nominal_rate : Int) - blk.initial_rate) % 2 ^ 32)
  let temp : ℚ := (nextTimerClk : ℚ) / (blk.acceleration_steps_per_s2 : ℚ)
  let nextTimerClk : Int := truncToLong (temp * 2000000)
  -- II - Plateau / Constant speed phase (if applies)
  let phase2 : Int × ℚ :=
    if blk.decelerate_after > blk.accelerate_until then
      let TEMPtimerClk : ℚ := ((blk.decelerate_after - blk.accelerate_until : Int) : ℚ)
      let TEMPtimerClk : ℚ := TEMPtimerClk / (blk.nominal_rate : ℚ)
      let TEMPtimerClk : ℚ := TEMPtimerClk * 2000000
      (truncToLong ((nextTimerClk : ℚ) + TEMPtimerClk), TEMPtimerClk)
    else (nextTimerClk, TEMPold)
  let nextTimerClk : Int := phase2.1
  -- III - Deceleration phase
  let TEMPtimerClk : ℚ := ((toU32 ((blk.nominal_rate : Int) - blk.final_rate) : Nat) : ℚ)
  let TEMPtimerClk : ℚ := TEMPtimerClk / (blk.acceleration_steps_per_s2 : ℚ)
  let TEMPtimerClk : ℚ := TEMPtimerClk * 2000000
  let TEMPtimerClk : ℚ := (nextTimerClk : ℚ) + TEMPtimerClk
  (truncToLong (TEMPtimerClk * TMC5130_t_factor), TEMPtimerClk)

/-- Function `Trams::calculate`. The slot `*current_motion_block` is read once,
filled, and written back before `append_motion_block`. The busy bit set in the
planner block is not kept: the block is discarded at the end of the call. -/
def calculate (s : State) : State :=
  match get_next_free_motion_block s with
  | none => s
  | some i =>
    match s.planner.head? with
    | none => { s with current_block := none }
    | some blk =>
      let out_bits := blk.direction_bits % 256
      let c := calculate_axes blk out_bits
        { cur := s.slot i, old := s.motion_buffer_block_old, pos := s.pos }
      let d := calc_duration blk s.TEMPtimerClk
      let cur := { c.cur with nextTimerClk := d.1 }
      let old := { c.old with nextTimerClk := cur.nextTimerClk }
      let cur := { cur with calcready := true }
      let old := { old with calcready := cur.calcready }
      let s := { s with
        out_bits := out_bits, pos := c.pos, motion_buffer_block_old := old,
        nextTimerClk := d.1, TEMPtimerClk := d.2 }
      let s := append_motion_block (s.writeSlot i cur)
      { s with current_block := none, planner := s.planner.tail }

/-- The segment `calculate` writes into the free slot when it consumes the
block `blk`, as a function of the previous content of the slot, the snapshot
and the position counters. -/
def emitted_segment (blk : block_t) (slot old : motion_block_t) (pos : PerAxis Int)
    (TEMPold : ℚ) : motion_block_t :=
  let c := calculate_axes blk (blk.direction_bits % 256) { cur := slot, old := old, pos := pos }
  { c.cur with nextTimerClk := (calc_duration blk TEMPold).1, calcready := true }

/-! ## Dispatch interrupt (TRAMS.cpp lines 706-786) -/

/-- The register writes of `isr` for the segment `b` (lines 714-760), in
program order. -/
def isr_send (b : motion_block_t) (s : State) : State :=
  -- Send accel and nominal speed SPI datagrams
  let s := spi_writeRegister VMAX (b.nominal_speed.get X_AXIS) X_AXIS s
  let s := spi_writeRegister AMAX (b.accel.get X_AXIS) X_AXIS s
  let s := spi_writeRegister DMAX (b.accel.get X_AXIS) X_AXIS s
  let s := spi_writeRegister VMAX (b.nominal_speed.get Y_AXIS) Y_AXIS s
  let s := spi_writeRegister AMAX (b.accel.get Y_AXIS) Y_AXIS s
  let s := spi_writeRegister DMAX (b.accel.get Y_AXIS) Y_AXIS s
  -- only send if there is any movement in the z-axis
  let s :=
    if b.pos_change_z = true then
      let s := spi_writeRegister VMAX (b.nominal_speed.get Z_AXIS) Z_AXIS s
      let s := spi_writeRegister AMAX (b.accel.get Z_AXIS) Z_AXIS s
      spi_writeRegister DMAX (b.accel.get Z_AXIS) Z_AXIS s
    else s
  let s := spi_writeRegister VMAX (b.nominal_speed.get E_AXIS) E_AXIS s
  let s := spi_writeRegister AMAX (b.accel.get E_AXIS) E_AXIS s
  let s := spi_writeRegister DMAX (b.accel.get E_AXIS) E_AXIS s
  -- Send initial and final speeed SPI datagrams
  let s := spi_writeRegister VSTART (b.initial_speed.get X_AXIS) X_AXIS s
  let s := spi_writeRegister VSTOP (b.final_speed.get X_AXIS) X_AXIS s
  let s := spi_writeRegister VSTART (b.initial_speed.get Y_AXIS) Y_AXIS s
  let s := spi_writeRegister VSTOP (b.final_speed.get Y_AXIS) Y_AXIS s
  -- only send if there is any movement in the z-axis
  let s :=
    if b.pos_change_z = true then
      let s := spi_writeRegister VSTART (b.initial_speed.get Z_AXIS) Z_AXIS s
      spi_writeRegister VSTOP (b.final_speed.get Z_AXIS) Z_AXIS s
    else s
  let s := spi_writeRegister VSTART (b.initial_speed.get E_AXIS) E_AXIS s
  let s := spi_writeRegister VSTOP (b.final_speed.get E_AXIS) E_AXIS s
  -- Send target positions, movement starts immediately
  let s :=
    if b.pos_change_z = true then
      spi_writeRegister XTARGET (toU32 (b.pos.get Z_AXIS)) Z_AXIS s
    else s
  let s := spi_writeRegister XTARGET (toU32 (b.pos.get X_AXIS)) X_AXIS s
  let s := spi_writeRegister XTARGET (toU32 (b.pos.get Y_AXIS)) Y_AXIS s
  spi_writeRegister XTARGET (toU32 (b.pos.get E_AXIS)) E_AXIS s

/-- The first part of `isr` (lines 710-771), up to the comment
`// Update 32-bit software-extended timer`. The source tests
`(current_motion_block->calcready == true) && (current_motion_block != NULL)`
in this order, so with an empty buffer the flag is read through the null
pointer; `nullread` is the value that read yields. -/
def isr_dispatch (nullread : Bool) (s : State) : State :=
  if s.timerClk = 0 then
    let current_motion_block := get_current_motion_block s
    let calcready : Bool :=
      match current_motion_block with
      | some i => (s.slot i).calcready
      | none => nullread
    match calcready, current_motion_block with
    | true, some i =>
      let s := isr_send (s.slot i) s
      -- Let's wake up back when this movement is over
      let s := { s with timerClk := (s.slot i).nextTimerClk }
      -- Discard the current_block and let st_calculate start with the next one
      let s := s.writeSlot i { s.slot i with calcready := false }
      discard_current_motion_block s
    | _, _ => { s with timerClk := 2000 }
  else s

/-- The second part of `isr` (lines 773-785): the software-extended timer.
`temp_timer` is an `unsigned long`, so the comparison and the sum are done on
32-bit unsigned values; `TCNT1` is a 16-bit register. -/
def isr_rearm (s : State) : State :=
  if s.timerClk ≥ 65535 then
    { s with timerClk := s.timerClk - 65535, TCNT1 := 1 }
  else
    let temp_timer := s.TCNT1
    if toU32 s.timerClk > (temp_timer + 100) % 2 ^ 32 then
      { s with TCNT1 := toU32 (65535 - s.timerClk + temp_timer) % 2 ^ 16, timerClk := 0 }
    else
      { s with TCNT1 := 65436, timerClk := 0 }

/-- Function `Trams::isr`. -/
def isr (nullread : Bool) (s : State) : State :=
  isr_rearm (isr_dispatch nullread s)

/-! ## Runs of the ring buffer and of the two pipeline stages -/

/-- The ring buffer is well formed: sixteen slots, both indices inside the
array, and the full flag only with `head == tail`. -/
def RingWf (s : State) : Prop :=
  s.motion_buffer.length = MOTION_BUFFER_SIZE ∧
  s.motion_buffer_head < MOTION_BUFFER_SIZE ∧
  s.motion_buffer_tail < MOTION_BUFFER_SIZE ∧
  (s.motion_buffer_full = true → s.motion_buffer_head = s.motion_buffer_tail)

instance (s : State) : Decidable (RingWf s) := by
  unfold RingWf; infer_instance

/-- The ring buffer is empty and well formed. -/
def RingEmpty (s : State) : Prop :=
  s.motion_buffer.length = MOTION_BUFFER_SIZE ∧
  s.motion_buffer_head < MOTION_BUFFER_SIZE ∧
  s.motion_buffer_tail = s.motion_buffer_head ∧
  s.motion_buffer_full = false

instance (s : State) : Decidable (RingEmpty s) := by
  unfold RingEmpty; infer_instance

/-- Number of segments between tail and head, the full flag taken into
account. -/
def queued_count (s : State) : Nat :=
  if s.motion_buffer_full then MOTION_BUFFER_SIZE
  else (s.motion_buffer_head + MOTION_BUFFER_SIZE - s.motion_buffer_tail) % MOTION_BUFFER_SIZE

/-- The queued segments, oldest first: the slots from tail up to head in ring
order. -/
def queued_segments (s : State) : List motion_block_t :=
  (List.range (queued_count s)).map
    (fun k => s.slot ((s.motion_buffer_tail + k) % MOTION_BUFFER_SIZE))

/-- Slot `i` is occupied: it lies between tail (included) and head (excluded)
in ring order, or the buffer is full. -/
def occupied (s : State) (i : Nat) : Prop :=
  s.motion_buffer_full = true ∨
  (i + MOTION_BUFFER_SIZE - s.motion_buffer_tail) % MOTION_BUFFER_SIZE <
    (s.motion_buffer_head + MOTION_BUFFER_SIZE - s.motion_buffer_tail) % MOTION_BUFFER_SIZE

instance (s : State) (i : Nat) : Decidable (occupied s i) := by
  unfold occupied; infer_instance

/-- Guarded enqueue, the producer protocol of `calculate`: ask for a free slot
with `get_next_free_motion_block`; if one is returned, store `seg` in it and
commit with `append_motion_block`; otherwise do nothing. -/
def try_enqueue (seg : motion_block_t) (s : State) : State :=
  match get_next_free_motion_block s with
  | none => s
  | some i => append_motion_block (s.writeSlot i seg)

/-- Guarded dequeue, the consumer protocol of `isr`: peek with
`get_current_motion_block`; if a slot is returned, read the segment in it and
release it with `discard_current_motion_block`; otherwise do nothing. -/
def try_dequeue (s : State) : Option motion_block_t × State :=
  match get_current_motion_block s with
  | none => (none, s)
  | some i => (some (s.slot i), discard_current_motion_block s)

/-- One guarded ring-buffer operation. -/
inductive RingOp where
  | enqueue (seg : motion_block_t)
  | dequeue
deriving DecidableEq, Repr

/-- A ring-buffer run: the state, the segments committed so far and the
segments handed out before each discard so far, both oldest first. -/
structure RingRun where
  state : State
  committed : List motion_block_t
  dequeued : List motion_block_t
deriving DecidableEq, Repr

/-- One guarded operation of a run. An enqueue that finds no free slot commits
nothing; a dequeue that finds no segment discards nothing. -/
def RingRun.step (r : RingRun) : RingOp → RingRun
  | RingOp.enqueue seg =>
    match get_next_free_motion_block r.state with
    | none => r
    | some _ => { r with state := try_enqueue seg r.state, committed := r.committed ++ [seg] }
  | RingOp.dequeue =>
    match try_dequeue r.state with
    | (none, _) => r
    | (some seg, s) => { r with state := s, dequeued := r.dequeued ++ [seg] }

/-- The run of a list of guarded operations from the state `s`. -/
def ring_run (s : State) (ops : List RingOp) : RingRun :=
  ops.foldl RingRun.step { state := s, committed := [], dequeued := [] }

/-- One event of the pipeline: the planner queues a block, the foreground
calls `calculate`, or the timer interrupt runs `isr` (with the value a read
through the null pointer yields). -/
inductive Call where
  | plan (blk : block_t)
  | calculate
  | isr (nullread : Bool)
deriving DecidableEq, Repr

/-- Effect of one event on the state. -/
def Call.run : Call → State → State
  | Call.plan blk, s => { s with planner := s.planner ++ [blk] }
  | Call.calculate, s => Trams.calculate s
  | Call.isr nullread, s => Trams.isr nullread s

/-- The state after a sequence of complete calls. -/
def run_calls (s : State) (calls : List Call) : State :=
  calls.foldl (fun st c => c.run st) s

/-- The block `calculate` consumes in state `s` together with the segment it
leaves in the slot it commits; `none` when `calculate` returns early. -/
def emitted (s : State) : Option (block_t × motion_block_t) :=
  match get_next_free_motion_block s, s.planner.head? with
  | some i, some blk => some (blk, (calculate s).slot i)
  | _, _ => none

/-- The blocks consumed and segments emitted by the `calculate` calls of a
sequence of calls, oldest first. -/
def emitted_trace : State → List Call → List (block_t × motion_block_t)
  | _, [] => []
  | s, Call.calculate :: cs => (emitted s).toList ++ emitted_trace (calculate s) cs
  | s, c :: cs => emitted_trace (c.run s) cs

/-- The five per-axis values of a segment: acceleration, initial, nominal and
final speed, and target position. -/
def axis_values (b : motion_block_t) (a : AxisEnum) : Nat × Nat × Nat × Nat × Int :=
  (b.accel.get a, b.initial_speed.get a, b.nominal_speed.get a, b.final_speed.get a,
    b.pos.get a)

/-! ## Concrete inputs -/

/-- The state after sixteen guarded enqueues of the zero segment from the
initial state: the ring buffer holds sixteen segments. -/
def full_ring : State :=
  (ring_run State.init (List.replicate 16 (RingOp.enqueue motion_block_t.zero))).state

/-- A segment used to tell slots apart in examples: only its duration is set. -/
def mark_segment (n : Int) : motion_block_t :=
  { motion_block_t.zero with nextTimerClk := n }

/-- The block of the end-to-end scenario: 1600 steps on X only, acceleration
1000, rates 0 / 4000 / 0, X direction bit clear. -/
def scenario_block : block_t :=
  { steps := { x := 1600, y := 0, z := 0, e := 0 }, step_event_count := 1600,
    acceleration_steps_per_s2 := 1000, initial_rate := 0, nominal_rate := 4000,
    final_rate := 0, direction_bits := 0, accelerate_until := 400, decelerate_after := 1200 }

/-- A block that moves the Z axis only, 400 steps. -/
def z_block : block_t :=
  { steps := { x := 0, y := 0, z := 400, e := 0 }, step_event_count := 400,
    acceleration_steps_per_s2 := 1000, initial_rate := 0, nominal_rate := 4000,
    final_rate := 0, direction_bits := 0, accelerate_until := 100, decelerate_after := 300 }

/-- The initial state with the given blocks waiting in the planner. -/
def planned (blks : List block_t) : State :=
  { State.init with planner := blks }

/-! ## Bus transport: byte framing (TRAMS.cpp lines 53-125) -/

/-- The bytes `spi_writeRegister(address, data, axis)` hands to `SPI.transfer`,
in wire order: `address | READ_ACCESS`, then `buf[3]`, `buf[2]`, `buf[1]`,
`buf[0]`, where `buf[0] = data & 0xFF`, `buf[1] = (data & 0xFF00) >> 8`,
`buf[2] = (data & 0xFF0000) >> 16`, `buf[3] = (data & 0xFF000000) >> 24` are
stored in `uint8_t` cells. The macro `READ_ACCESS` is defined in `TRAMS.h`
(not part of the sources at hand) and is a parameter. -/
def spi_writeRegister_bytes (READ_ACCESS : Nat) (address : Nat) (data : Nat) : List Nat :=
  let buf0 := (data &&& 0xFF) % 256
  let buf1 := ((data &&& 0xFF00) >>> 8) % 256
  let buf2 := ((data &&& 0xFF0000) >>> 16) % 256
  let buf3 := ((data &&& 0xFF000000) >>> 24) % 256
  [(address ||| READ_ACCESS) % 256, buf3, buf2, buf1, buf0]

/-- The value `spi_readRegister` returns when the four `SPI.transfer(0x00)`
calls of its second cycle return `w0`, `w1`, `w2`, `w3` in this order: they
are stored in `buf[3]`, `buf[2]`, `buf[1]`, `buf[0]` (`uint8_t`), and
`register_value` (`uint32_t`, initially 0) is or-ed with `buf[3]`, shifted
left by 8, or-ed with `buf[2]`, shifted, or-ed with `buf[1]`, shifted, or-ed
with `buf[0]`. -/
def spi_readRegister_value (w0 w1 w2 w3 : Nat) : Nat :=
  let buf3 := w0 % 256
  let buf2 := w1 % 256
  let buf1 := w2 % 256
  let buf0 := w3 % 256
  let register_value := 0
  let register_value := register_value ||| buf3
  let register_value := (register_value <<< 8) % 2 ^ 32
  let register_value := register_value ||| buf2
  let register_value := (register_value <<< 8) % 2 ^ 32
  let register_value := register_value ||| buf1
  let register_value := (register_value <<< 8) % 2 ^ 32
  register_value ||| buf0

/-! ## Segment calculator: the divisions -/

/-- The divisors of the divisions `calculate` performs for the block `blk`, in
program order: `step_event_count` in `scale_axis` for each axis with a nonzero
step count (lines 453, 508, 562, 608), `acceleration_steps_per_s2` in the
acceleration phase (line 665), `nominal_rate` in the plateau phase when
`decelerate_after > accelerate_until` (line 673), and
`acceleration_steps_per_s2` in the deceleration phase (line 681). -/
def calculate_divisors (blk : block_t) : List Nat :=
  (if blk.steps.get X_AXIS ≠ 0 then [blk.step_event_count] else []) ++
  (if blk.steps.get Y_AXIS ≠ 0 then [blk.step_event_count] else []) ++
  (if blk.steps.get Z_AXIS ≠ 0 then [blk.step_event_count] else []) ++
  (if blk.steps.get E_AXIS ≠ 0 then [blk.step_event_count] else []) ++
  [blk.acceleration_steps_per_s2] ++
  (if blk.decelerate_after > blk.accelerate_until then [blk.nominal_rate] else []) ++
  [blk.acceleration_steps_per_s2]

/-! ## Homing sequencer (TRAMS.cpp lines 158-338) -/

/-- What the homing procedure does to the outside, in program order: a
`spi_writeRegister` call, a `spi_readRegister` call, a call of the cooperative
hook `idle()`, a call of `TMC5130_enableDriver`, a `_delay_ms` call. -/
inductive BusEvent where
  | write (w : SpiWrite)
  | read (address : Register) (axis : AxisEnum)
  | idle
  | enable (axis : AxisEnum)
  | delay (ms : Nat)
deriving DecidableEq, Repr

/-- Modelled from the spec: the per-axis configuration macros read by
`TMC5130_homing` (`X_HOME_BUMP_MM`, `SWITCH_POSITION_X`, `SWITCH_POLARITY_X`,
whether `STALLGUARD_X` is defined, `STALLGUARDTHRESHOLD_X`,
`STEPPER_DIRECTION_X`, and the same for Y and Z); they are defined in the
configuration headers (not part of the sources at hand). -/
structure AxisHoming where
  HOME_BUMP_MM : ℚ
  SWITCH_POSITION : Nat
  SWITCH_POLARITY : Nat
  STALLGUARD : Bool
  STALLGUARDTHRESHOLD : Nat
  STEPPER_DIRECTION : Nat
deriving DecidableEq, Repr

/-- Modelled from the spec: everything `TMC5130_homing` takes from its
environment: the planner table `planner.axis_steps_per_mm` (`float`), the
array `HOMING_BUMP_DIVISOR`, the per-axis macros, and the constants
`VELOCITY_MODE_NEG`, `HOLD_MODE`, `POSITIONING_MODE`, `VZERO` of `TRAMS.h`
(none of them part of the sources at hand). The last field is not a macro: it
is the word `stall_speed` holds after lines 263-265 when `homing_speed` is
zero. The division `16777216 / homing_speed` is then a division by zero, which
C leaves undefined, so the outcome is a parameter. -/
structure HomingConfig where
  axis_steps_per_mm : PerAxis ℚ
  HOMING_BUMP_DIVISOR : PerAxis Nat
  axes : PerAxis AxisHoming
  VELOCITY_MODE_NEG : Nat
  HOLD_MODE : Nat
  POSITIONING_MODE : Nat
  VZERO : Nat
  stall_speed_zero_divisor : Nat
deriving DecidableEq, Repr

/-- Conversion of a wider integer to `int`, which has 16 bits on the AVR
(two's complement). -/
def toInt (n : Int) : Int := (n + 2 ^ 15) % 2 ^ 16 - 2 ^ 15

/-- Conversion of a `float` to `int`: truncation toward zero, then the low 16
bits. A value outside the range of `int` has no defined conversion in C; the
AVR compiler converts to `long` and keeps the low 16 bits, which is what
`homing_speed` then holds (40000 becomes -25536). -/
def truncToInt (q : ℚ) : Int := toInt (truncToLong q)

/-- The local variables of `TMC5130_homing` after the `switch (axis)`
statement (lines 191-236). `stallguardthreshold` and `motor_direction` are
assigned in the source only when the stall macro of the axis is defined; they
are read only in that case. -/
structure HomingParams where
  axis_to_home : AxisEnum
  homing_retract : Int
  homing_speed : Int
  homing_bump_speed : Int
  sw_register : Nat
  sg_active : Bool
  stallguardthreshold : Nat
  motor_direction : Nat
deriving DecidableEq, Repr

/-- The `switch (axis)` statement of `TMC5130_homing` (lines 191-236): the
three cases X, Y, Z differ only in the macros they read; every other axis
takes `default: return;` (`none`). `homing_retract`, `homing_speed` and
`homing_bump_speed` are `int` variables (16 bits); the products are `float`
products, modelled as exact rationals. The quotient of the bump speed is 0
here when the divisor is 0, where C leaves it undefined; no register write
reads it. -/
def homing_params (cfg : HomingConfig) (axis : AxisEnum) (homing_feedrate_mm_s : ℚ) :
    Option HomingParams :=
  match axis with
  | E_AXIS => none
  | _ =>
    let m := cfg.axes.get axis
    let homing_retract := truncToInt (m.HOME_BUMP_MM * cfg.axis_steps_per_mm.get axis)
    let homing_speed :=
      truncToInt (((truncToInt homing_feedrate_mm_s : Int) : ℚ) * cfg.axis_steps_per_mm.get axis)
    let homing_bump_speed := Int.tdiv homing_speed (cfg.HOMING_BUMP_DIVISOR.get axis % 256)
    some
      { axis_to_home := axis,
        homing_retract := homing_retract,
        homing_speed := homing_speed,
        homing_bump_speed := homing_bump_speed,
        sw_register := (m.SWITCH_POSITION ||| m.SWITCH_POLARITY) % 2 ^ 16,
        sg_active := m.STALLGUARD,
        stallguardthreshold := m.STALLGUARDTHRESHOLD % 2 ^ 32,
        motor_direction := m.STEPPER_DIRECTION % 256 }

/-- The trace of a homing call so far, and the values the coming
`spi_readRegister` calls will return. -/
structure HomingState where
  log : List BusEvent
  reads : List Nat
deriving DecidableEq, Repr

/-- A `spi_writeRegister(address, data, axis)` call of the homing procedure. -/
def HomingState.write (address : Register) (data : Nat) (axis : AxisEnum) (h : HomingState) :
    HomingState :=
  { h with log := h.log ++ [BusEvent.write { address := address, data := data, axis := axis }] }

/-- Any other event of the homing procedure. -/
def HomingState.event (e : BusEvent) (h : HomingState) : HomingState :=
  { h with log := h.log ++ [e] }

/-- One poll loop
`while((spi_readRegister(RAMP_STAT, axis) & VZERO) != VZERO) { idle(); }`
(`with_idle`), or the same loop with an empty body. Every `spi_readRegister`
call takes the next value of `reads`; when no value is left the loop has not
ended and there is no result. -/
def poll_vzero (VZERO : Nat) (axis : AxisEnum) (with_idle : Bool) :
    List Nat → List BusEvent → Option HomingState
  | [], _ => none
  | r :: rs, log =>
    if r &&& VZERO ≠ VZERO then
      poll_vzero VZERO axis with_idle rs
        (log ++ BusEvent.read RAMP_STAT axis :: (if with_idle then [BusEvent.idle] else []))
    else
      some { log := log ++ [BusEvent.read RAMP_STAT axis], reads := rs }

/-- The branch `else` of `if(sg_active == true)` (lines 305-336): homing on the
end switch. -/
def homing_switch (cfg : HomingConfig) (p : HomingParams) (h : HomingState) :
    Option HomingState :=
  let axis_to_home := p.axis_to_home
  let h := h.event (BusEvent.enable axis_to_home)
  -- Set velocity mode in direction to the endstop
  let h := h.write RAMPMODE cfg.VELOCITY_MODE_NEG axis_to_home
  let h := h.write VMAX (toU32 p.homing_speed) axis_to_home
  -- Config switch register of TMC5130
  let h := h.write SW_MODE p.sw_register axis_to_home
  -- While motor is still moving (vzero != 1)
  (poll_vzero cfg.VZERO axis_to_home true h.reads h.log).bind fun h =>
  let h := h.write RAMPMODE cfg.HOLD_MODE axis_to_home
  let h := h.write XACTUAL 0x0 axis_to_home
  let h := h.write XTARGET 0x0 axis_to_home
  let h := h.write SW_MODE 0x0 axis_to_home
  let h := h.write RAMPMODE cfg.POSITIONING_MODE axis_to_home
  let h := h.write VMAX (toU32 p.homing_speed) axis_to_home
  let h := h.write DMAX 0xFFFF axis_to_home
  let h := h.write XTARGET (toU32 p.homing_retract) axis_to_home
  let h := h.event (BusEvent.delay 200)
  -- While motor is still moving (vzero != 1)
  (poll_vzero cfg.VZERO axis_to_home true h.reads h.log).bind fun h =>
  -- Retract finished
  let h := h.write SW_MODE p.sw_register axis_to_home
  let h := h.write RAMPMODE cfg.HOLD_MODE axis_to_home
  let h := h.write XACTUAL 0x0 axis_to_home
  let h := h.write XTARGET 0x0 axis_to_home
  let h := h.write RAMPMODE cfg.POSITIONING_MODE axis_to_home
  some h

/-- The branch `if(sg_active == true)` (lines 260-303): homing on the stall
detection. `stall_speed` is a `uint32_t`; `16777216 / homing_speed` is a
division of `long` values, `stall_speed * 1.10` a `double` converted back to
`uint32_t`. With `homing_speed == 0` the division is undefined in C and
`stall_speed` is the parameter `stall_speed_zero_divisor`. -/
def homing_stall (cfg : HomingConfig) (p : HomingParams) (h : HomingState) :
    Option HomingState :=
  let axis_to_home := p.axis_to_home
  let h := h.write SW_MODE 0x00 axis_to_home
  let stall_speed :=
    if p.homing_speed = 0 then cfg.stall_speed_zero_divisor % 2 ^ 32
    else
      let stall_speed := toU32 (Int.tdiv 16777216 p.homing_speed)
      let stall_speed := stall_speed / 16
      toU32 (truncToLong ((stall_speed : ℚ) * (11 / 10)))
  let h := h.write GCONF (0x1080 ||| p.motor_direction) axis_to_home
  let h := h.write COOLCONF (((p.stallguardthreshold &&& 0x7F) <<< 16) % 2 ^ 32) axis_to_home
  let h := h.write TCOOLTHRS stall_speed axis_to_home
  let h := h.write SW_MODE 0x400 axis_to_home
  let h := h.write AMAX 100 axis_to_home
  -- Set velocity mode in direction to the endstop
  let h := h.write RAMPMODE cfg.VELOCITY_MODE_NEG axis_to_home
  let h := h.write VMAX (toU32 p.homing_speed) axis_to_home
  let h := h.event (BusEvent.delay 20)
  -- While motor is still moving (vzero != 1)
  (poll_vzero cfg.VZERO axis_to_home false h.reads h.log).bind fun h =>
  -- Endstop reached. Reset and retract
  let h := h.write RAMPMODE cfg.HOLD_MODE axis_to_home
  let h := h.write XACTUAL 0x0 axis_to_home
  let h := h.write XTARGET 0x0 axis_to_home
  let h := h.write SW_MODE 0x0 axis_to_home
  let h := h.write RAMPMODE cfg.POSITIONING_MODE axis_to_home
  let h := h.write VMAX (toU32 p.homing_speed) axis_to_home
  let h := h.write DMAX 0xFFFF axis_to_home
  let h := h.write XTARGET (toU32 p.homing_retract) axis_to_home
  let h := h.event (BusEvent.delay 20)
  -- While motor is still moving (vzero != 1)
  (poll_vzero cfg.VZERO axis_to_home false h.reads h.log).bind fun h =>
  -- Endstop reached. Reset and retract
  let h := h.write SW_MODE 0x0 axis_to_home
  let h := h.write RAMPMODE 0x3 axis_to_home
  let h := h.write GCONF (0x1080 ||| p.motor_direction) axis_to_home
  let h := h.write XACTUAL 0x0 axis_to_home
  let h := h.write XTARGET 0x0 axis_to_home
  let h := h.write RAMPMODE 0x0 axis_to_home
  some (h.event (BusEvent.delay 200))

/-- Function `Trams::TMC5130_homing`. The result is `none` when a poll loop has
not ended within the status values supplied in `h.reads`. The serial output
under `DEBUG_LEVELING_FEATURE` is not represented. -/
def TMC5130_homing (cfg : HomingConfig) (axis : AxisEnum) (homing_feedrate_mm_s : ℚ)
    (h : HomingState) : Option HomingState :=
  match homing_params cfg axis homing_feedrate_mm_s with
  | none => some h
  | some p => if p.sg_active = true then homing_stall cfg p h else homing_switch cfg p h

/-- An example configuration: 80 steps per mm on X and Y, 400 on Z, a bump
distance of 5 mm, no stall detection, and the ramp-mode and status constants
of the TMC5130 data sheet. -/
def example_homing_config : HomingConfig :=
  { axis_steps_per_mm := { x := 80, y := 80, z := 400, e := 100 },
    HOMING_BUMP_DIVISOR := { x := 2, y := 2, z := 4, e := 1 },
    axes := PerAxis.const
      { HOME_BUMP_MM := 5, SWITCH_POSITION := 0x21, SWITCH_POLARITY := 0x0C,
        STALLGUARD := false, STALLGUARDTHRESHOLD := 0, STEPPER_DIRECTION := 0 },
    VELOCITY_MODE_NEG := 2, HOLD_MODE := 3, POSITIONING_MODE := 0, VZERO := 0x400,
    stall_speed_zero_divisor := 0 }

/-- The scenario block with its acceleration set to zero. -/
def zero_accel_block : block_t :=
  { scenario_block with acceleration_steps_per_s2 := 0 }

/-- The writes of a trace that set a position register of the driver:
`XACTUAL` (the position counter) and `XTARGET` (the target), with the value
written. -/
def position_write : BusEvent → Option (Register × Nat)
  | BusEvent.write w =>
    if w.address = XACTUAL ∨ w.address = XTARGET then some (w.address, w.data) else none
  | _ => none

/-! ## Device initializer (TRAMS.cpp lines 796-808) -/

/-- Function `Trams::TMC5130_init`. The macros `SET_IHOLD`, `SET_IRUN` and
`SET_IHOLDDELAY` are defined in `TRAMS.h` (not part of the sources at hand)
and are parameters; `stepper_direction` is a `uint8_t`, `sw_register` a
`uint16_t`. -/
def TMC5130_init (SET_IHOLD SET_IRUN SET_IHOLDDELAY : Nat → Nat) (axis : AxisEnum)
    (irun ihold stepper_direction sw_register : Nat) (s : State) : State :=
  let value := (SET_IHOLD (ihold % 256) ||| SET_IRUN (irun % 256) ||| SET_IHOLDDELAY 7) % 2 ^ 32
  let s := spi_writeRegister IHOLD_IRUN value axis s
  let s := spi_writeRegister RAMPMODE 0x0 axis s
  let s := spi_writeRegister V_1 0x0 axis s
  let s := spi_writeRegister D_1 0x10 axis s
  let s := spi_writeRegister AMAX 0xFFFF axis s
  let s := spi_writeRegister VMAX 0xFFFF axis s
  let s := spi_writeRegister CHOPCONF 0x140101D5 axis s
  let s := spi_writeRegister GCONF (0x1084 ||| stepper_direction % 256) axis s
  spi_writeRegister SW_MODE (sw_register % 2 ^ 16) axis s

/-! ## Position setting (TRAMS.cpp lines 871-945) -/

/-- The state together with the reported position counter
`count_position[]`, a member of the class `Stepper` (declared in `stepper.h`,
not part of the sources at hand) that the position-setting functions write. -/
structure PositionState extends State where
  count_position : PerAxis Int
deriving DecidableEq, Repr

/-- The initial state with `count_position[]` zero. -/
def PositionState.init : PositionState :=
  { toState := State.init, count_position := PerAxis.const 0 }

/-- The block `if(pos[axis] != v) { ... }` that the three position-setting
functions share: the reported counter, the live counter and the snapshot
position of the axis are set to `v`, and the driver is put in hold mode, given
`v` as target and as actual position, and put back in positioning mode. The
constants `HOLD_MODE` and `POSITIONING_MODE` of `TRAMS.h` are parameters. -/
def set_position_block (HOLD_MODE POSITIONING_MODE : Nat) (axis : AxisEnum) (v : Int)
    (ps : PositionState) : PositionState :=
  if ps.pos.get axis ≠ v then
    let ps := { ps with
      count_position := ps.count_position.set axis v,
      pos := ps.pos.set axis v }
    let ps := { ps with
      motion_buffer_block_old :=
        { ps.motion_buffer_block_old with pos := ps.motion_buffer_block_old.pos.set axis v } }
    -- Update position in the driver
    let s := spi_writeRegister RAMPMODE HOLD_MODE axis ps.toState
    let s := spi_writeRegister XTARGET (toU32 v) axis s
    let s := spi_writeRegister XACTUAL (toU32 v) axis s
    let s := spi_writeRegister RAMPMODE POSITIONING_MODE axis s
    { ps with toState := s }
  else ps

/-- Function `Trams::set_position(a, b, c, e)` after its call of
`synchronize()`: the four blocks for X, Y, Z, E in program order. The call
`synchronize()` belongs to the class `Stepper` (not part of the sources at
hand); it waits until queued motion has been carried out, and what happens to
the state meanwhile is the effect of other calls before this one. -/
def set_position (HOLD_MODE POSITIONING_MODE : Nat) (a b c e : Int) (ps : PositionState) :
    PositionState :=
  let ps := set_position_block HOLD_MODE POSITIONING_MODE X_AXIS a ps
  let ps := set_position_block HOLD_MODE POSITIONING_MODE Y_AXIS b ps
  let ps := set_position_block HOLD_MODE POSITIONING_MODE Z_AXIS c ps
  set_position_block HOLD_MODE POSITIONING_MODE E_AXIS e ps

/-- Function `Trams::set_position(axis, v)`: `count_position[axis] = v;`, then
the shared block. -/
def set_position_axis (HOLD_MODE POSITIONING_MODE : Nat) (axis : AxisEnum) (v : Int)
    (ps : PositionState) : PositionState :=
  let ps := { ps with count_position := ps.count_position.set axis v }
  set_position_block HOLD_MODE POSITIONING_MODE axis v ps

/-- Function `Trams::set_e_position(e)`: `count_position[E_AXIS] = e;`, then
the shared block for the E axis. -/
def set_e_position (HOLD_MODE POSITIONING_MODE : Nat) (e : Int) (ps : PositionState) :
    PositionState :=
  let ps := { ps with count_position := ps.count_position.set E_AXIS e }
  set_position_block HOLD_MODE POSITIONING_MODE E_AXIS e ps

/-- One event of the pipeline or one position-setting call. -/
inductive PositionCall where
  | pipeline (c : Call)
  | set_position (a b c e : Int)
  | set_position_axis (axis : AxisEnum) (v : Int)
  | set_e_position (e : Int)
deriving DecidableEq, Repr

/-- Effect of one call on the state. -/
def PositionCall.run (HOLD_MODE POSITIONING_MODE : Nat) :
    PositionCall → PositionState → PositionState
  | PositionCall.pipeline c, ps => { ps with toState := c.run ps.toState }
  | PositionCall.set_position a b c e, ps =>
    Trams.set_position HOLD_MODE POSITIONING_MODE a b c e ps
  | PositionCall.set_position_axis axis v, ps =>
    Trams.set_position_axis HOLD_MODE POSITIONING_MODE axis v ps
  | PositionCall.set_e_position e, ps => Trams.set_e_position HOLD_MODE POSITIONING_MODE e ps

/-- The state after a sequence of complete calls. -/
def run_position_calls (HOLD_MODE POSITIONING_MODE : Nat) (ps : PositionState)
    (calls : List PositionCall) : PositionState :=
  calls.foldl (fun st c => c.run HOLD_MODE POSITIONING_MODE st) ps

/-! ## Dispatch interrupt: the reads of the readiness flag -/

/-- A read of `current_motion_block->calcready`: through the pointer to slot
`i`, or through the null pointer. -/
inductive FlagRead where
  | slot (i : Nat)
  | null
deriving DecidableEq, Repr

/-- The reads of the readiness flag one `isr` call makes while it evaluates
`(current_motion_block->calcready == true) && (current_motion_block != NULL)`
(line 712): the left operand is evaluated first, whatever
`get_current_motion_block` returned. -/
def isr_flag_reads (s : State) : List FlagRead :=
  if s.timerClk = 0 then
    match get_current_motion_block s with
    | some i => [FlagRead.slot i]
    | none => [FlagRead.null]
  else []

/-! ## Observations on homing traces -/

/-- The event is a `spi_readRegister` call. -/
def BusEvent.isRead : BusEvent → Bool
  | BusEvent.read _ _ => true
  | _ => false

/-- The event belongs to a poll loop: a status read or an `idle()` call. -/
def BusEvent.isPoll : BusEvent → Bool
  | BusEvent.read _ _ => true
  | BusEvent.idle => true
  | _ => false

/-- The register write of an event, if it is one. -/
def BusEvent.asWrite : BusEvent → Option SpiWrite
  | BusEvent.write w => some w
  | _ => none

/-- The register writes between the first and the second poll loop of a
trace: skip everything before the first status read, skip the first poll loop
(reads and idle calls), and keep the writes up to the next status read. -/
def writes_between_polls (log : List BusEvent) : List SpiWrite :=
  (((log.dropWhile (fun e => !e.isRead)).dropWhile BusEvent.isPoll).takeWhile
    (fun e => !e.isRead)).filterMap BusEvent.asWrite

/-- The values written to register `address` in a trace, in order. -/
def register_writes (address : Register) (log : List BusEvent) : List Nat :=
  log.filterMap fun e =>
    match e with
    | BusEvent.write w => if w.address = address then some w.data else none
    | _ => none

/-- The example configuration with stall detection on every axis, threshold
8, and the direction bit `0x10`. -/
def example_stall_config : HomingConfig :=
  { example_homing_config with
    axes := PerAxis.const
      { HOME_BUMP_MM := 5, SWITCH_POSITION := 0x21, SWITCH_POLARITY := 0x0C,
        STALLGUARD := true, STALLGUARDTHRESHOLD := 8, STEPPER_DIRECTION := 0x10 } }

/-- A block of 65536 steps on X only, the first step count whose shift by 16
bits leaves the 32-bit range; rates 0 / 4000 / 0. -/
def long_move_block : block_t :=
  { steps := { x := 65536, y := 0, z := 0, e := 0 }, step_event_count := 65536,
    acceleration_steps_per_s2 := 1000, initial_rate := 0, nominal_rate := 4000,
    final_rate := 0, direction_bits := 0, accelerate_until := 8000,
    decelerate_after := 57536 }

/-! ## Specification side: the homing speed -/

theorem tail_mask (n : Nat) : n &&& (MOTION_BUFFER_SIZE - 1) = n % 16 := by
  have h := Nat.and_pow_two_sub_one_eq_mod n 4
  simpa [MOTION_BUFFER_SIZE] using h

theorem slot_writeSlot_same (s : State) (i : Nat) (seg : motion_block_t)
    (h : i < s.motion_buffer.length) : (s.writeSlot i seg).slot i = seg := by
  simp [State.slot, State.writeSlot, List.getD_eq_getElem?_getD, h]

theorem slot_writeSlot_ne (s : State) (i j : Nat) (seg : motion_block_t)
    (h : i ≠ j) : (s.writeSlot i seg).slot j = s.slot j := by
  simp [State.slot, State.writeSlot, List.getD_eq_getElem?_getD, List.getElem?_set_ne h]

theorem append_head (s : State) (hh : s.motion_buffer_head < 16) :
    (append_motion_block s).motion_buffer_head = (s.motion_buffer_head + 1) % 16 := by
  simp only [append_motion_block, MOTION_BUFFER_SIZE]
  split <;> omega

theorem append_full (s : State) (hh : s.motion_buffer_head < 16) :
    (append_motion_block s).motion_buffer_full =
      (decide ((s.motion_buffer_head + 1) % 16 = s.motion_buffer_tail) || s.motion_buffer_full) := by
  have h1 : (if (s.motion_buffer_head + 1) % 256 = 16 then 0 else (s.motion_buffer_head + 1) % 256)
      = (s.motion_buffer_head + 1) % 16 := by split <;> omega
  simp only [append_motion_block, MOTION_BUFFER_SIZE, h1]
  by_cases h : (s.motion_buffer_head + 1) % 16 = s.motion_buffer_tail <;> simp [h]

theorem append_slot (s : State) (i : Nat) : (append_motion_block s).slot i = s.slot i := rfl

theorem append_tail (s : State) :
    (append_motion_block s).motion_buffer_tail = s.motion_buffer_tail := rfl

theorem append_buffer (s : State) :
    (append_motion_block s).motion_buffer = s.motion_buffer := rfl

theorem ringWf_append_write (seg : motion_block_t) (s : State) (h : RingWf s)
    (hfull : s.motion_buffer_full = false) :
    RingWf (append_motion_block (s.writeSlot s.motion_buffer_head seg)) := by
  obtain ⟨hl, hh, ht, hf⟩ := h
  have hh2 : (s.writeSlot s.motion_buffer_head seg).motion_buffer_head < 16 := hh
  refine ⟨?_, ?_, ht, ?_⟩
  · rw [append_buffer]; simpa [State.writeSlot] using hl
  · rw [append_head _ hh2]; simp only [MOTION_BUFFER_SIZE, State.writeSlot]; omega
  · rw [append_head _ hh2, append_full _ hh2, append_tail]
    simp [State.writeSlot, hfull]

theorem try_enqueue_of_free (seg : motion_block_t) (s : State)
    (hfull : s.motion_buffer_full = false) :
    try_enqueue seg s = append_motion_block (s.writeSlot s.motion_buffer_head seg) := by
  simp [try_enqueue, get_next_free_motion_block, hfull]

theorem try_enqueue_of_full (seg : motion_block_t) (s : State)
    (hfull : s.motion_buffer_full = true) : try_enqueue seg s = s := by
  simp [try_enqueue, get_next_free_motion_block, hfull]

theorem ringWf_try_enqueue (seg : motion_block_t) (s : State) (h : RingWf s) :
    RingWf (try_enqueue seg s) := by
  cases hfull : s.motion_buffer_full
  · rw [try_enqueue_of_free seg s hfull]; exact ringWf_append_write seg s h hfull
  · rw [try_enqueue_of_full seg s hfull]; exact h

theorem discard_tail (s : State) :
    (discard_current_motion_block s).motion_buffer_tail = (s.motion_buffer_tail + 1) % 16 := by
  simp only [discard_current_motion_block, tail_mask]

theorem ringWf_discard (s : State) (h : RingWf s) : RingWf (discard_current_motion_block s) := by
  obtain ⟨hl, hh, ht, hf⟩ := h
  refine ⟨hl, hh, ?_, ?_⟩
  · rw [discard_tail]; simp only [MOTION_BUFFER_SIZE]; omega
  · simp [discard_current_motion_block]

/-! ## Ring buffer: queue content -/

theorem queued_count_enqueue (seg : motion_block_t) (s : State) (h : RingWf s)
    (hfull : s.motion_buffer_full = false) :
    queued_count (append_motion_block (s.writeSlot s.motion_buffer_head seg)) = queued_count s + 1 := by
  obtain ⟨hl, hh, ht, hf⟩ := h
  have hh2 : (s.writeSlot s.motion_buffer_head seg).motion_buffer_head < 16 := hh
  unfold queued_count
  rw [append_head _ hh2, append_full _ hh2, append_tail]
  simp only [State.writeSlot, hfull, MOTION_BUFFER_SIZE] at *
  by_cases h1 : (s.motion_buffer_head + 1) % 16 = s.motion_buffer_tail
  · simp [h1]; omega
  · simp [h1]; omega

theorem queued_segments_enqueue (seg : motion_block_t) (s : State) (h : RingWf s)
    (hfull : s.motion_buffer_full = false) :
    queued_segments (append_motion_block (s.writeSlot s.motion_buffer_head seg))
      = queued_segments s ++ [seg] := by
  have hc := queued_count_enqueue seg s h hfull
  obtain ⟨hl, hh, ht, hf⟩ := h
  unfold queued_segments
  rw [hc, List.range_succ, List.map_append, append_tail]
  simp only [MOTION_BUFFER_SIZE] at hl hh ht
  have hcount : queued_count s = (s.motion_buffer_head + 16 - s.motion_buffer_tail) % 16 := by
    simp [queued_count, hfull, MOTION_BUFFER_SIZE]
  congr 1
  · apply List.map_congr_left
    intro k hk
    rw [List.mem_range, hcount] at hk
    rw [append_slot]
    apply slot_writeSlot_ne
    simp only [State.writeSlot, MOTION_BUFFER_SIZE]
    omega
  · simp only [List.map_cons, List.map_nil, append_slot]
    have : (s.motion_buffer_tail + queued_count s) % MOTION_BUFFER_SIZE = s.motion_buffer_head := by
      rw [hcount]; simp only [MOTION_BUFFER_SIZE]; omega
    simp only [State.writeSlot] at this ⊢
    rw [this]
    have := slot_writeSlot_same s s.motion_buffer_head seg (by omega)
    simpa [State.writeSlot] using this

theorem get_current_of_queued (s : State) (hq : queued_count s ≠ 0) (h : RingWf s) :
    get_current_motion_block s = some s.motion_buffer_tail := by
  obtain ⟨hl, hh, ht, hf⟩ := h
  unfold get_current_motion_block
  simp only [MOTION_BUFFER_SIZE, queued_count] at *
  cases hfull : s.motion_buffer_full
  · simp [hfull] at hq
    have : s.motion_buffer_head ≠ s.motion_buffer_tail := by
      intro h; apply hq; rw [h]; omega
    simp [this]
  · simp

theorem get_current_of_empty (s : State) (hq : queued_count s = 0) (h : RingWf s) :
    get_current_motion_block s = none := by
  obtain ⟨hl, hh, ht, hf⟩ := h
  unfold get_current_motion_block
  simp only [MOTION_BUFFER_SIZE, queued_count] at *
  cases hfull : s.motion_buffer_full
  · simp [hfull] at hq
    have : s.motion_buffer_head = s.motion_buffer_tail := by omega
    simp [this]
  · simp [hfull] at hq

theorem queued_count_discard (s : State) (h : RingWf s) (hq : queued_count s ≠ 0) :
    queued_count s = queued_count (discard_current_motion_block s) + 1 := by
  obtain ⟨hl, hh, ht, hf⟩ := h
  unfold queued_count at *
  rw [discard_tail]
  simp only [discard_current_motion_block, MOTION_BUFFER_SIZE] at *
  cases hfull : s.motion_buffer_full
  · simp [hfull] at hq ⊢; omega
  · have := hf hfull
    simp; omega

theorem queued_segments_discard (s : State) (h : RingWf s) (hq : queued_count s ≠ 0) :
    queued_segments s
      = s.slot s.motion_buffer_tail :: queued_segments (discard_current_motion_block s) := by
  have hc := queued_count_discard s h hq
  obtain ⟨hl, hh, ht, hf⟩ := h
  unfold queued_segments
  rw [hc, List.range_succ_eq_map, List.map_cons, List.map_map, discard_tail]
  simp only [MOTION_BUFFER_SIZE] at hl hh ht ⊢
  congr 1
  · congr 1; omega
  · apply List.map_congr_left
    intro k _
    simp only [Function.comp, State.slot, discard_current_motion_block]
    congr 1; omega

theorem ring_step_inv (r : RingRun) (op : RingOp) (hwf : RingWf r.state)
    (hinv : r.committed = r.dequeued ++ queued_segments r.state) :
    RingWf (r.step op).state ∧
      (r.step op).committed = (r.step op).dequeued ++ queued_segments (r.step op).state := by
  cases op with
  | enqueue seg =>
    cases hfull : r.state.motion_buffer_full
    · have hfree : get_next_free_motion_block r.state = some r.state.motion_buffer_head := by
        simp [get_next_free_motion_block, hfull]
      simp only [RingRun.step, hfree, try_enqueue_of_free seg r.state hfull]
      refine ⟨ringWf_append_write seg r.state hwf hfull, ?_⟩
      rw [queued_segments_enqueue seg r.state hwf hfull, hinv, List.append_assoc]
    · have hfree : get_next_free_motion_block r.state = none := by
        simp [get_next_free_motion_block, hfull]
      simp only [RingRun.step, hfree]
      exact ⟨hwf, hinv⟩
  | dequeue =>
    by_cases hq : queued_count r.state = 0
    · simp only [RingRun.step, try_dequeue, get_current_of_empty r.state hq hwf]
      exact ⟨hwf, hinv⟩
    · simp only [RingRun.step, try_dequeue, get_current_of_queued r.state hq hwf]
      refine ⟨ringWf_discard r.state hwf, ?_⟩
      rw [hinv, queued_segments_discard r.state hwf hq]
      simp

theorem ring_foldl_inv (ops : List RingOp) (r : RingRun) (hwf : RingWf r.state)
    (hinv : r.committed = r.dequeued ++ queued_segments r.state) :
    RingWf (ops.foldl RingRun.step r).state ∧
      (ops.foldl RingRun.step r).committed =
        (ops.foldl RingRun.step r).dequeued ++ queued_segments (ops.foldl RingRun.step r).state := by
  induction ops generalizing r with
  | nil => exact ⟨hwf, hinv⟩
  | cons op ops ih =>
    obtain ⟨h1, h2⟩ := ring_step_inv r op hwf hinv
    exact ih (r.step op) h1 h2

theorem ringEmpty_wf (s : State) (h : RingEmpty s) : RingWf s := by
  obtain ⟨hl, hh, ht, hf⟩ := h
  exact ⟨hl, hh, by rw [ht]; exact hh, by simp [hf]⟩

theorem ringEmpty_queued (s : State) (h : RingEmpty s) : queued_segments s = [] := by
  obtain ⟨hl, hh, ht, hf⟩ := h
  have : queued_count s = 0 := by
    simp only [queued_count, hf, ht, MOTION_BUFFER_SIZE] at *
    simp
  simp [queued_segments, this]

theorem ring_run_inv (s : State) (ops : List RingOp) (h : RingEmpty s) :
    RingWf (ring_run s ops).state ∧
      (ring_run s ops).committed =
        (ring_run s ops).dequeued ++ queued_segments (ring_run s ops).state := by
  unfold ring_run
  apply ring_foldl_inv
  · exact ringEmpty_wf s h
  · simp [ringEmpty_queued s h]

/-! ## C1: the ring buffer is first-in first-out -/

/-- C1. In every run of guarded ring-buffer operations that starts from an
empty buffer, the segment `get_current_motion_block` hands out before the
`k`-th discard is the segment that was written into the slot committed by the
`k`-th `append_motion_block`. -/
theorem C1_fifo_order (s : State) (ops : List RingOp) (h : RingEmpty s)
    (k : Nat) (seg : motion_block_t)
    (hk : (ring_run s ops).dequeued[k]? = some seg) :
    (ring_run s ops).committed[k]? = some seg := by
  obtain ⟨_, hinv⟩ := ring_run_inv s ops h
  rw [hinv]
  have hlt : k < (ring_run s ops).dequeued.length := by
    by_contra hge
    rw [List.getElem?_eq_none (by omega)] at hk
    cases hk
  rw [List.getElem?_append_left hlt]
  exact hk

/-- C1, instance: two segments are committed and then both are dequeued; the
second segment handed out is the second one committed. -/
theorem C1_fifo_order_witness :
    RingEmpty State.init ∧
    (ring_run State.init [RingOp.enqueue (mark_segment 1), RingOp.enqueue (mark_segment 2),
      RingOp.dequeue, RingOp.dequeue]).dequeued[1]? = some (mark_segment 2) ∧
    (ring_run State.init [RingOp.enqueue (mark_segment 1), RingOp.enqueue (mark_segment 2),
      RingOp.dequeue, RingOp.dequeue]).committed[1]? = some (mark_segment 2) :=
  ⟨by decide, by decide,
    C1_fifo_order State.init _ (by decide) 1 (mark_segment 2) (by decide)⟩

/-! ## C2: the occupancy count of a full buffer -/

/-- C2 (the code at the failing input). After sixteen guarded enqueues the
buffer is well formed and holds sixteen segments, `get_next_free_motion_block`
returns no slot, and `blocks_in_motion_queue` returns `0`, not `16`. -/
theorem C2_full_buffer_count :
    RingWf full_ring ∧ queued_count full_ring = 16 ∧
    get_next_free_motion_block full_ring = none ∧
    blocks_in_motion_queue full_ring = 0 ∧
    blocks_in_motion_queue full_ring ≠ MOTION_BUFFER_SIZE := by
  decide

/-! ## C3: a full buffer, one discard, one append -/

/-- C3. From every full, well-formed ring buffer, one
`discard_current_motion_block` makes `get_next_free_motion_block` return a
slot (the head slot), and one `append_motion_block` after it makes the buffer
full again: `get_next_free_motion_block` returns no slot. -/
theorem C3_full_discard_append (s : State) (hwf : RingWf s)
    (hfull : get_next_free_motion_block s = none) :
    get_next_free_motion_block (discard_current_motion_block s) = some s.motion_buffer_head ∧
    get_next_free_motion_block (append_motion_block (discard_current_motion_block s)) = none := by
  obtain ⟨hl, hh, ht, hf⟩ := hwf
  have hflag : s.motion_buffer_full = true := by
    cases hb : s.motion_buffer_full
    · simp [get_next_free_motion_block, hb] at hfull
    · rfl
  have heq := hf hflag
  have hh2 : (discard_current_motion_block s).motion_buffer_head < 16 := hh
  constructor
  · simp [get_next_free_motion_block, discard_current_motion_block]
  · unfold get_next_free_motion_block
    rw [append_full _ hh2, discard_tail]
    simp only [discard_current_motion_block, MOTION_BUFFER_SIZE] at *
    have : (s.motion_buffer_head + 1) % 16 = (s.motion_buffer_tail + 1) % 16 := by rw [heq]
    simp [this]

/-- C3, instance: the buffer filled by sixteen enqueues. -/
theorem C3_full_discard_append_witness :
    RingWf full_ring ∧ get_next_free_motion_block full_ring = none ∧
    get_next_free_motion_block (discard_current_motion_block full_ring) = some 0 ∧
    get_next_free_motion_block
      (append_motion_block (discard_current_motion_block full_ring)) = none :=
  ⟨by decide, by decide, C3_full_discard_append full_ring (by decide) (by decide)⟩

/-! ## Segment calculator: the axis blocks -/

theorem PerAxis.get_set_same {α : Type} (v : PerAxis α) (a : AxisEnum) (x : α) :
    (v.set a x).get a = x := by
  cases a <;> rfl

theorem PerAxis.get_set_ne {α : Type} (v : PerAxis α) {a b : AxisEnum} (h : a ≠ b) (x : α) :
    (v.set a x).get b = v.get b := by
  cases a <;> cases b <;> first | rfl | exact absurd rfl h

theorem axis_block_other (blk : block_t) (ob : Nat) (a b : AxisEnum) (ceiling : Bool)
    (c : CalcCtx) (h : a ≠ b) :
    axis_values (calculate_axis_block blk ob a ceiling c).cur b = axis_values c.cur b ∧
    axis_values (calculate_axis_block blk ob a ceiling c).old b = axis_values c.old b ∧
    (calculate_axis_block blk ob a ceiling c).pos.get b = c.pos.get b := by
  unfold calculate_axis_block
  split_ifs with h1
  · simp only [calc_store_old, calc_axis_move, axis_values, PerAxis.get_set_ne _ h, true_and]
    split_ifs <;> simp [PerAxis.get_set_ne _ h]
  · simp [calc_carry_old, axis_values, PerAxis.get_set_ne _ h]

theorem axis_block_flag (blk : block_t) (ob : Nat) (a : AxisEnum) (ceiling : Bool)
    (c : CalcCtx) :
    (calculate_axis_block blk ob a ceiling c).cur.pos_change_z = c.cur.pos_change_z := by
  unfold calculate_axis_block
  split_ifs <;> rfl

theorem axis_block_moving (blk : block_t) (ob : Nat) (a : AxisEnum) (ceiling : Bool)
    (c : CalcCtx) (h : blk.steps.get a ≠ 0) :
    axis_values (calculate_axis_block blk ob a ceiling c).cur a =
      (ramp_accel blk a, ramp_initial_speed blk a, ramp_nominal_speed blk a,
        ramp_final_speed blk a ceiling,
        if ob &&& (1 <<< a.toNat) ≠ 0 then c.pos.get a - blk.steps.get a
        else c.pos.get a + blk.steps.get a) ∧
    (calculate_axis_block blk ob a ceiling c).pos.get a =
      (if ob &&& (1 <<< a.toNat) ≠ 0 then c.pos.get a - blk.steps.get a
       else c.pos.get a + blk.steps.get a) := by
  unfold calculate_axis_block
  rw [if_pos h]
  simp only [calc_store_old, calc_axis_move, axis_values, PerAxis.get_set_same]
  split_ifs <;> simp [PerAxis.get_set_same]

theorem axis_block_still (blk : block_t) (ob : Nat) (a : AxisEnum) (ceiling : Bool)
    (c : CalcCtx) (h : blk.steps.get a = 0) :
    axis_values (calculate_axis_block blk ob a ceiling c).cur a = axis_values c.old a ∧
    (calculate_axis_block blk ob a ceiling c).old = c.old ∧
    (calculate_axis_block blk ob a ceiling c).pos = c.pos := by
  unfold calculate_axis_block
  rw [if_neg (by simpa using h)]
  simp [calc_carry_old, axis_values, PerAxis.get_set_same]

theorem axis_block_snapshot (blk : block_t) (ob : Nat) (a : AxisEnum) (ceiling : Bool)
    (c : CalcCtx) :
    axis_values (calculate_axis_block blk ob a ceiling c).old a =
      axis_values (calculate_axis_block blk ob a ceiling c).cur a := by
  unfold calculate_axis_block
  split_ifs with h1
  · simp [calc_store_old, axis_values, PerAxis.get_set_same]
  · simp [calc_carry_old, axis_values, PerAxis.get_set_same]

theorem calculate_z_other (blk : block_t) (ob : Nat) (b : AxisEnum) (c : CalcCtx)
    (h : Z_AXIS ≠ b) :
    axis_values (calculate_z blk ob c).cur b = axis_values c.cur b ∧
    (calculate_z blk ob c).pos.get b = c.pos.get b := by
  unfold calculate_z
  split_ifs with h1
  · simp only [calc_axis_move, axis_values, PerAxis.get_set_ne _ h, true_and]
    split_ifs <;> simp [PerAxis.get_set_ne _ h]
  · simp [axis_values]

theorem calculate_z_old (blk : block_t) (ob : Nat) (c : CalcCtx) :
    (calculate_z blk ob c).old = c.old := by
  unfold calculate_z
  split_ifs <;> rfl

theorem calculate_z_flag (blk : block_t) (ob : Nat) (c : CalcCtx) :
    (calculate_z blk ob c).cur.pos_change_z = decide (blk.steps.get Z_AXIS ≠ 0) := by
  unfold calculate_z
  split_ifs with h1 <;> simp [h1]

theorem calculate_z_moving (blk : block_t) (ob : Nat) (c : CalcCtx)
    (h : blk.steps.get Z_AXIS ≠ 0) :
    axis_values (calculate_z blk ob c).cur Z_AXIS =
      (ramp_accel blk Z_AXIS, ramp_initial_speed blk Z_AXIS, ramp_nominal_speed blk Z_AXIS,
        ramp_final_speed blk Z_AXIS true,
        if ob &&& (1 <<< Z_AXIS.toNat) ≠ 0 then c.pos.get Z_AXIS - blk.steps.get Z_AXIS
        else c.pos.get Z_AXIS + blk.steps.get Z_AXIS) ∧
    (calculate_z blk ob c).pos.get Z_AXIS =
      (if ob &&& (1 <<< Z_AXIS.toNat) ≠ 0 then c.pos.get Z_AXIS - blk.steps.get Z_AXIS
       else c.pos.get Z_AXIS + blk.steps.get Z_AXIS) := by
  unfold calculate_z
  rw [if_pos h]
  simp only [calc_axis_move, axis_values, PerAxis.get_set_same]
  split_ifs <;> simp [PerAxis.get_set_same]

theorem calculate_z_still (blk : block_t) (ob : Nat) (c : CalcCtx)
    (h : blk.steps.get Z_AXIS = 0) :
    axis_values (calculate_z blk ob c).cur Z_AXIS = axis_values c.cur Z_AXIS ∧
    (calculate_z blk ob c).pos = c.pos := by
  unfold calculate_z
  rw [if_neg (by simpa using h)]
  simp [axis_values]


theorem calculate_axes_moving (blk : block_t) (ob : Nat) (c : CalcCtx) (a : AxisEnum)
    (h : blk.steps.get a ≠ 0) :
    axis_values (calculate_axes blk ob c).cur a =
      (ramp_accel blk a, ramp_initial_speed blk a, ramp_nominal_speed blk a,
        ramp_final_speed blk a (decide (a = Z_AXIS ∨ a = E_AXIS)),
        if ob &&& (1 <<< a.toNat) ≠ 0 then c.pos.get a - blk.steps.get a
        else c.pos.get a + blk.steps.get a) ∧
    (calculate_axes blk ob c).pos.get a =
      (if ob &&& (1 <<< a.toNat) ≠ 0 then c.pos.get a - blk.steps.get a
       else c.pos.get a + blk.steps.get a) := by
  simp only [calculate_axes, calculate_x, calculate_y, calculate_e]
  cases a
  · rw [(axis_block_other blk ob E_AXIS X_AXIS true _ (by decide)).1,
      (axis_block_other blk ob E_AXIS X_AXIS true _ (by decide)).2.2,
      (calculate_z_other blk ob X_AXIS _ (by decide)).1,
      (calculate_z_other blk ob X_AXIS _ (by decide)).2,
      (axis_block_other blk ob Y_AXIS X_AXIS false _ (by decide)).1,
      (axis_block_other blk ob Y_AXIS X_AXIS false _ (by decide)).2.2]
    simpa using axis_block_moving blk ob X_AXIS false c h
  · rw [(axis_block_other blk ob E_AXIS Y_AXIS true _ (by decide)).1,
      (axis_block_other blk ob E_AXIS Y_AXIS true _ (by decide)).2.2,
      (calculate_z_other blk ob Y_AXIS _ (by decide)).1,
      (calculate_z_other blk ob Y_AXIS _ (by decide)).2]
    have := axis_block_moving blk ob Y_AXIS false (calculate_axis_block blk ob X_AXIS false c) h
    rw [(axis_block_other blk ob X_AXIS Y_AXIS false c (by decide)).2.2] at this
    simpa using this
  · rw [(axis_block_other blk ob E_AXIS Z_AXIS true _ (by decide)).1,
      (axis_block_other blk ob E_AXIS Z_AXIS true _ (by decide)).2.2]
    have := calculate_z_moving blk ob
      (calculate_axis_block blk ob Y_AXIS false (calculate_axis_block blk ob X_AXIS false c)) h
    rw [(axis_block_other blk ob Y_AXIS Z_AXIS false _ (by decide)).2.2,
      (axis_block_other blk ob X_AXIS Z_AXIS false c (by decide)).2.2] at this
    simpa using this
  · have := axis_block_moving blk ob E_AXIS true (calculate_z blk ob
      (calculate_axis_block blk ob Y_AXIS false (calculate_axis_block blk ob X_AXIS false c))) h
    rw [(calculate_z_other blk ob E_AXIS _ (by decide)).2,
      (axis_block_other blk ob Y_AXIS E_AXIS false _ (by decide)).2.2,
      (axis_block_other blk ob X_AXIS E_AXIS false c (by decide)).2.2] at this
    simpa using this

theorem calculate_axes_still (blk : block_t) (ob : Nat) (c : CalcCtx) (a : AxisEnum)
    (ha : a ≠ Z_AXIS) (h : blk.steps.get a = 0) :
    axis_values (calculate_axes blk ob c).cur a = axis_values c.old a ∧
    (calculate_axes blk ob c).pos.get a = c.pos.get a := by
  simp only [calculate_axes, calculate_x, calculate_y, calculate_e]
  cases a
  · rw [(axis_block_other blk ob E_AXIS X_AXIS true _ (by decide)).1,
      (axis_block_other blk ob E_AXIS X_AXIS true _ (by decide)).2.2,
      (calculate_z_other blk ob X_AXIS _ (by decide)).1,
      (calculate_z_other blk ob X_AXIS _ (by decide)).2,
      (axis_block_other blk ob Y_AXIS X_AXIS false _ (by decide)).1,
      (axis_block_other blk ob Y_AXIS X_AXIS false _ (by decide)).2.2]
    have := axis_block_still blk ob X_AXIS false c h
    exact ⟨this.1, by rw [this.2.2]⟩
  · rw [(axis_block_other blk ob E_AXIS Y_AXIS true _ (by decide)).1,
      (axis_block_other blk ob E_AXIS Y_AXIS true _ (by decide)).2.2,
      (calculate_z_other blk ob Y_AXIS _ (by decide)).1,
      (calculate_z_other blk ob Y_AXIS _ (by decide)).2]
    have := axis_block_still blk ob Y_AXIS false (calculate_axis_block blk ob X_AXIS false c) h
    rw [this.1, this.2.2, (axis_block_other blk ob X_AXIS Y_AXIS false c (by decide)).2.1,
      (axis_block_other blk ob X_AXIS Y_AXIS false c (by decide)).2.2]
    exact ⟨rfl, rfl⟩
  · exact absurd rfl ha
  · have := axis_block_still blk ob E_AXIS true (calculate_z blk ob
      (calculate_axis_block blk ob Y_AXIS false (calculate_axis_block blk ob X_AXIS false c))) h
    rw [this.1, this.2.2, calculate_z_old, (calculate_z_other blk ob E_AXIS _ (by decide)).2,
      (axis_block_other blk ob Y_AXIS E_AXIS false _ (by decide)).2.1,
      (axis_block_other blk ob Y_AXIS E_AXIS false _ (by decide)).2.2,
      (axis_block_other blk ob X_AXIS E_AXIS false c (by decide)).2.1,
      (axis_block_other blk ob X_AXIS E_AXIS false c (by decide)).2.2]
    exact ⟨rfl, rfl⟩

theorem calculate_axes_snapshot (blk : block_t) (ob : Nat) (c : CalcCtx) (a : AxisEnum)
    (ha : a ≠ Z_AXIS) :
    axis_values (calculate_axes blk ob c).old a = axis_values (calculate_axes blk ob c).cur a := by
  simp only [calculate_axes, calculate_x, calculate_y, calculate_e]
  cases a
  · rw [(axis_block_other blk ob E_AXIS X_AXIS true _ (by decide)).1,
      (axis_block_other blk ob E_AXIS X_AXIS true _ (by decide)).2.1,
      (calculate_z_other blk ob X_AXIS _ (by decide)).1, calculate_z_old,
      (axis_block_other blk ob Y_AXIS X_AXIS false _ (by decide)).1,
      (axis_block_other blk ob Y_AXIS X_AXIS false _ (by decide)).2.1]
    exact axis_block_snapshot blk ob X_AXIS false c
  · rw [(axis_block_other blk ob E_AXIS Y_AXIS true _ (by decide)).1,
      (axis_block_other blk ob E_AXIS Y_AXIS true _ (by decide)).2.1,
      (calculate_z_other blk ob Y_AXIS _ (by decide)).1, calculate_z_old]
    exact axis_block_snapshot blk ob Y_AXIS false _
  · exact absurd rfl ha
  · exact axis_block_snapshot blk ob E_AXIS true _

theorem calculate_axes_z_still (blk : block_t) (ob : Nat) (c : CalcCtx)
    (h : blk.steps.get Z_AXIS = 0) :
    axis_values (calculate_axes blk ob c).cur Z_AXIS = axis_values c.cur Z_AXIS := by
  simp only [calculate_axes, calculate_x, calculate_y, calculate_e]
  rw [(axis_block_other blk ob E_AXIS Z_AXIS true _ (by decide)).1,
    (calculate_z_still blk ob _ h).1,
    (axis_block_other blk ob Y_AXIS Z_AXIS false _ (by decide)).1,
    (axis_block_other blk ob X_AXIS Z_AXIS false _ (by decide)).1]

theorem calculate_axes_flag (blk : block_t) (ob : Nat) (c : CalcCtx) :
    (calculate_axes blk ob c).cur.pos_change_z = decide (blk.steps.get Z_AXIS ≠ 0) := by
  simp only [calculate_axes, calculate_x, calculate_y, calculate_e]
  rw [axis_block_flag, calculate_z_flag]

/-! ## Segment calculator: the whole call -/

theorem calculate_of_full (s : State) (h : get_next_free_motion_block s = none) :
    calculate s = s := by
  simp [calculate, h]

theorem calculate_of_idle (s : State) (i : Nat) (hfree : get_next_free_motion_block s = some i)
    (hp : s.planner.head? = none) :
    calculate s = { s with current_block := none } := by
  simp [calculate, hfree, hp]

theorem free_slot_eq (s : State) (i : Nat) (hfree : get_next_free_motion_block s = some i) :
    s.motion_buffer_full = false ∧ i = s.motion_buffer_head := by
  unfold get_next_free_motion_block at hfree
  cases hb : s.motion_buffer_full
  · simp [hb] at hfree; exact ⟨rfl, hfree.symm⟩
  · simp [hb] at hfree

theorem calculate_ring (s : State) (i : Nat) (blk : block_t)
    (hfree : get_next_free_motion_block s = some i) (hp : s.planner.head? = some blk) :
    (calculate s).motion_buffer_head = (append_motion_block s).motion_buffer_head ∧
    (calculate s).motion_buffer_tail = s.motion_buffer_tail ∧
    (calculate s).motion_buffer_full = (append_motion_block s).motion_buffer_full ∧
    (calculate s).motion_buffer.length = s.motion_buffer.length ∧
    (calculate s).planner = s.planner.tail := by
  simp [calculate, hfree, hp, append_motion_block, State.writeSlot]

theorem calculate_slot_head (s : State) (i : Nat) (blk : block_t)
    (hfree : get_next_free_motion_block s = some i) (hp : s.planner.head? = some blk)
    (hi : i < s.motion_buffer.length) :
    (calculate s).slot i =
      emitted_segment blk (s.slot i) s.motion_buffer_block_old s.pos s.TEMPtimerClk := by
  simp [calculate, hfree, hp, append_motion_block, State.writeSlot, State.slot,
    List.getD_eq_getElem?_getD, hi, emitted_segment]

theorem calculate_slot_other (s : State) (i j : Nat) (blk : block_t)
    (hfree : get_next_free_motion_block s = some i) (hp : s.planner.head? = some blk)
    (hj : i ≠ j) : (calculate s).slot j = s.slot j := by
  simp [calculate, hfree, hp, append_motion_block, State.writeSlot, State.slot,
    List.getD_eq_getElem?_getD, List.getElem?_set_ne hj]

theorem calculate_snapshot (s : State) (i : Nat) (blk : block_t)
    (hfree : get_next_free_motion_block s = some i) (hp : s.planner.head? = some blk)
    (a : AxisEnum) :
    axis_values (calculate s).motion_buffer_block_old a =
      axis_values (calculate_axes blk (blk.direction_bits % 256)
        { cur := s.slot i, old := s.motion_buffer_block_old, pos := s.pos }).old a ∧
    (calculate s).pos = (calculate_axes blk (blk.direction_bits % 256)
        { cur := s.slot i, old := s.motion_buffer_block_old, pos := s.pos }).pos := by
  simp [calculate, hfree, hp, append_motion_block, State.writeSlot, axis_values]

theorem emitted_segment_values (blk : block_t) (slot old : motion_block_t) (pos : PerAxis Int)
    (t : ℚ) (a : AxisEnum) :
    axis_values (emitted_segment blk slot old pos t) a =
      axis_values (calculate_axes blk (blk.direction_bits % 256)
        { cur := slot, old := old, pos := pos }).cur a := by
  simp [emitted_segment, axis_values]

theorem emitted_some (s : State) (blk : block_t) (seg : motion_block_t)
    (h : emitted s = some (blk, seg)) :
    get_next_free_motion_block s = some s.motion_buffer_head ∧ s.planner.head? = some blk ∧
      seg = (calculate s).slot s.motion_buffer_head := by
  unfold emitted at h
  split at h
  · rename_i i b hfree hp
    obtain ⟨_, hi⟩ := free_slot_eq s i hfree
    subst hi
    simp only [Option.some.injEq, Prod.mk.injEq] at h
    exact ⟨hfree, by rw [hp, h.1], h.2.symm⟩
  · cases h

theorem emitted_eq (s : State) (blk : block_t) (seg : motion_block_t) (hwf : RingWf s)
    (h : emitted s = some (blk, seg)) :
    seg = emitted_segment blk (s.slot s.motion_buffer_head) s.motion_buffer_block_old s.pos
      s.TEMPtimerClk := by
  obtain ⟨hfree, hp, hseg⟩ := emitted_some s blk seg h
  rw [hseg]
  apply calculate_slot_head s _ blk hfree hp
  rw [hwf.1]; exact hwf.2.1

/-! ## C4: calculate without a free slot or without a block -/

/-- C4. If the ring buffer has no free slot, or the planner has no current
block, `calculate` leaves head, tail, the full flag, every segment slot, the
snapshot, the position counters, the planner queue and the bus log unchanged;
the only component it may touch is the member `current_block`, and with a full
buffer it touches nothing at all. -/
theorem C4_calculate_idle (s : State)
    (h : get_next_free_motion_block s = none ∨ s.planner.head? = none) :
    (calculate s).motion_buffer_head = s.motion_buffer_head ∧
    (calculate s).motion_buffer_tail = s.motion_buffer_tail ∧
    (calculate s).motion_buffer_full = s.motion_buffer_full ∧
    (calculate s).motion_buffer = s.motion_buffer ∧
    (calculate s).motion_buffer_block_old = s.motion_buffer_block_old ∧
    (calculate s).pos = s.pos ∧
    (calculate s).planner = s.planner ∧
    (calculate s).bus = s.bus ∧
    { calculate s with current_block := s.current_block } = s ∧
    (get_next_free_motion_block s = none → calculate s = s) := by
  have hfullcase : get_next_free_motion_block s = none → calculate s = s :=
    calculate_of_full s
  cases hfree : get_next_free_motion_block s with
  | none =>
    rw [calculate_of_full s hfree]
    simp
  | some i =>
    have hp : s.planner.head? = none := by
      cases h with
      | inl h1 => rw [hfree] at h1; cases h1
      | inr h2 => exact h2
    rw [calculate_of_idle s i hfree hp]
    simp

/-- C4, instances: an empty planner with a free slot, and a full buffer with a
block waiting. -/
theorem C4_calculate_idle_witness :
    (calculate State.init).motion_buffer = State.init.motion_buffer ∧
    calculate { full_ring with planner := [scenario_block] }
      = { full_ring with planner := [scenario_block] } :=
  ⟨(C4_calculate_idle State.init (Or.inr rfl)).2.2.2.1,
   (C4_calculate_idle { full_ring with planner := [scenario_block] }
      (Or.inl (by decide))).2.2.2.2.2.2.2.2.2 (by decide)⟩

/-! ## C6: floor and ceiling of the final speed, nonzero acceleration -/

theorem ramp_accel_ne_zero (blk : block_t) (a : AxisEnum) : ramp_accel blk a ≠ 0 := by
  unfold ramp_accel
  simp only
  split_ifs with h
  · decide
  · exact h

theorem ramp_final_speed_floor (blk : block_t) (a : AxisEnum) (ceiling : Bool) :
    10 ≤ ramp_final_speed blk a ceiling := by
  unfold ramp_final_speed
  simp only
  split_ifs <;> omega

theorem ramp_final_speed_ceiling (blk : block_t) (a : AxisEnum) :
    ramp_final_speed blk a true ≤ 800 := by
  unfold ramp_final_speed
  simp only [Bool.true_and, decide_eq_true_eq]
  split_ifs <;> omega

/-- C6. For every block with a positive step-event count that `calculate`
consumes, and every axis with a nonzero step count, the emitted segment has a
final speed of at least 10 on that axis, of at most 800 when the axis is Z or
E, and a nonzero acceleration. -/
theorem C6_final_speed_and_accel_bounds (s : State) (blk : block_t) (seg : motion_block_t)
    (a : AxisEnum) (hwf : RingWf s) (hem : emitted s = some (blk, seg))
    (_ : 0 < blk.step_event_count) (hsteps : blk.steps.get a ≠ 0) :
    10 ≤ seg.final_speed.get a ∧
    ((a = Z_AXIS ∨ a = E_AXIS) → seg.final_speed.get a ≤ 800) ∧
    seg.accel.get a ≠ 0 := by
  have hv := emitted_segment_values blk (s.slot s.motion_buffer_head)
    s.motion_buffer_block_old s.pos s.TEMPtimerClk a
  rw [← emitted_eq s blk seg hwf hem,
    (calculate_axes_moving blk _ _ a hsteps).1] at hv
  simp only [axis_values, Prod.mk.injEq] at hv
  obtain ⟨hacc, _, _, hfin, _⟩ := hv
  rw [hacc, hfin]
  refine ⟨ramp_final_speed_floor _ _ _, ?_, ramp_accel_ne_zero _ _⟩
  intro hza
  simp only [hza, decide_True]
  exact ramp_final_speed_ceiling blk a

/-- C6, instance: the Z block from the initial state. -/
theorem C6_final_speed_and_accel_bounds_witness :
    10 ≤ ((calculate (planned [z_block])).slot 0).final_speed.get Z_AXIS ∧
    ((Z_AXIS = Z_AXIS ∨ Z_AXIS = E_AXIS) →
      ((calculate (planned [z_block])).slot 0).final_speed.get Z_AXIS ≤ 800) ∧
    ((calculate (planned [z_block])).slot 0).accel.get Z_AXIS ≠ 0 :=
  C6_final_speed_and_accel_bounds (planned [z_block]) z_block
    ((calculate (planned [z_block])).slot 0) Z_AXIS (by decide) rfl (by decide)
    (by decide)

/-! ## C10: the end-to-end scenario block -/

theorem emitted_segment_duration (blk : block_t) (slot old : motion_block_t) (pos : PerAxis Int)
    (t : ℚ) :
    (emitted_segment blk slot old pos t).nextTimerClk = (calc_duration blk t).1 ∧
    (emitted_segment blk slot old pos t).pos_change_z = decide (blk.steps.get Z_AXIS ≠ 0) ∧
    (emitted_segment blk slot old pos t).calcready = true := by
  refine ⟨rfl, ?_, rfl⟩
  simp only [emitted_segment]
  exact calculate_axes_flag blk _ _

theorem isr_send_bus (b : motion_block_t) (s : State) :
    (isr_send b s).bus = s.bus ++
      ([{ address := VMAX, data := b.nominal_speed.get X_AXIS, axis := X_AXIS },
        { address := AMAX, data := b.accel.get X_AXIS, axis := X_AXIS },
        { address := DMAX, data := b.accel.get X_AXIS, axis := X_AXIS },
        { address := VMAX, data := b.nominal_speed.get Y_AXIS, axis := Y_AXIS },
        { address := AMAX, data := b.accel.get Y_AXIS, axis := Y_AXIS },
        { address := DMAX, data := b.accel.get Y_AXIS, axis := Y_AXIS }] ++
       (if b.pos_change_z = true then
          [{ address := VMAX, data := b.nominal_speed.get Z_AXIS, axis := Z_AXIS },
           { address := AMAX, data := b.accel.get Z_AXIS, axis := Z_AXIS },
           { address := DMAX, data := b.accel.get Z_AXIS, axis := Z_AXIS }]
        else []) ++
       [{ address := VMAX, data := b.nominal_speed.get E_AXIS, axis := E_AXIS },
        { address := AMAX, data := b.accel.get E_AXIS, axis := E_AXIS },
        { address := DMAX, data := b.accel.get E_AXIS, axis := E_AXIS },
        { address := VSTART, data := b.initial_speed.get X_AXIS, axis := X_AXIS },
        { address := VSTOP, data := b.final_speed.get X_AXIS, axis := X_AXIS },
        { address := VSTART, data := b.initial_speed.get Y_AXIS, axis := Y_AXIS },
        { address := VSTOP, data := b.final_speed.get Y_AXIS, axis := Y_AXIS }] ++
       (if b.pos_change_z = true then
          [{ address := VSTART, data := b.initial_speed.get Z_AXIS, axis := Z_AXIS },
           { address := VSTOP, data := b.final_speed.get Z_AXIS, axis := Z_AXIS }]
        else []) ++
       [{ address := VSTART, data := b.initial_speed.get E_AXIS, axis := E_AXIS },
        { address := VSTOP, data := b.final_speed.get E_AXIS, axis := E_AXIS }] ++
       (if b.pos_change_z = true then
          [{ address := XTARGET, data := toU32 (b.pos.get Z_AXIS), axis := Z_AXIS }]
        else []) ++
       [{ address := XTARGET, data := toU32 (b.pos.get X_AXIS), axis := X_AXIS },
        { address := XTARGET, data := toU32 (b.pos.get Y_AXIS), axis := Y_AXIS },
        { address := XTARGET, data := toU32 (b.pos.get E_AXIS), axis := E_AXIS }]) := by
  cases hz : b.pos_change_z <;> simp [isr_send, spi_writeRegister, hz]

theorem isr_send_frame (b : motion_block_t) (s : State) :
    isr_send b s = { s with bus := (isr_send b s).bus } := by
  cases hz : b.pos_change_z <;> simp [isr_send, spi_writeRegister, hz]

theorem isr_dispatch_waiting (nullread : Bool) (s : State) (h : s.timerClk ≠ 0) :
    isr_dispatch nullread s = s := by
  simp [isr_dispatch, h]

theorem isr_dispatch_underrun (nullread : Bool) (s : State) (hclk : s.timerClk = 0)
    (h : get_current_motion_block s = none ∨
      ∃ i, get_current_motion_block s = some i ∧ (s.slot i).calcready = false) :
    isr_dispatch nullread s = { s with timerClk := 2000 } := by
  unfold isr_dispatch
  rw [if_pos hclk]
  rcases h with h | ⟨i, h, hr⟩
  · simp only [h]
  · simp only [h, hr]

theorem isr_dispatch_ready (nullread : Bool) (s : State) (i : Nat) (hclk : s.timerClk = 0)
    (hcur : get_current_motion_block s = some i) (hr : (s.slot i).calcready = true) :
    isr_dispatch nullread s =
      discard_current_motion_block
        ({ s with bus := (isr_send (s.slot i) s).bus,
                  timerClk := (s.slot i).nextTimerClk }.writeSlot i
          { s.slot i with calcready := false }) := by
  unfold isr_dispatch
  rw [if_pos hclk]
  simp only [hcur, hr]
  rw [isr_send_frame]
  rfl

theorem isr_rearm_frame (s : State) :
    isr_rearm s = { s with timerClk := (isr_rearm s).timerClk, TCNT1 := (isr_rearm s).TCNT1 } := by
  unfold isr_rearm
  by_cases h1 : s.timerClk ≥ 65535
  · simp only [if_pos h1]
  · by_cases h2 : toU32 s.timerClk > (s.TCNT1 + 100) % 2 ^ 32
    · simp only [if_neg h1, if_pos h2]
    · simp only [if_neg h1, if_neg h2]

/-! ## C7: order of the bus writes of a dispatch -/

/-- C7. When `isr` runs with countdown zero and a ready segment `b` at the
tail, the bus writes it issues are exactly, in this order: VMAX, AMAX, DMAX
for X, for Y, for Z only if `pos_change_z` is set, for E; then VSTART, VSTOP
for X, Y, Z only if flagged, E; then XTARGET for Z only if flagged, then X, Y,
E. Hence the writes of the call are their non-XTARGET writes followed by
their XTARGET writes (every speed and acceleration write precedes every target
write), and with the flag clear no write addresses the Z axis. -/
theorem C7_dispatch_write_order (nullread : Bool) (s : State) (i : Nat) (b : motion_block_t)
    (hclk : s.timerClk = 0) (hcur : get_current_motion_block s = some i)
    (hb : s.slot i = b) (hready : b.calcready = true) :
    (isr nullread s).bus = s.bus ++
      ([{ address := VMAX, data := b.nominal_speed.get X_AXIS, axis := X_AXIS },
        { address := AMAX, data := b.accel.get X_AXIS, axis := X_AXIS },
        { address := DMAX, data := b.accel.get X_AXIS, axis := X_AXIS },
        { address := VMAX, data := b.nominal_speed.get Y_AXIS, axis := Y_AXIS },
        { address := AMAX, data := b.accel.get Y_AXIS, axis := Y_AXIS },
        { address := DMAX, data := b.accel.get Y_AXIS, axis := Y_AXIS }] ++
       (if b.pos_change_z = true then
          [{ address := VMAX, data := b.nominal_speed.get Z_AXIS, axis := Z_AXIS },
           { address := AMAX, data := b.accel.get Z_AXIS, axis := Z_AXIS },
           { address := DMAX, data := b.accel.get Z_AXIS, axis := Z_AXIS }]
        else []) ++
       [{ address := VMAX, data := b.nominal_speed.get E_AXIS, axis := E_AXIS },
        { address := AMAX, data := b.accel.get E_AXIS, axis := E_AXIS },
        { address := DMAX, data := b.accel.get E_AXIS, axis := E_AXIS },
        { address := VSTART, data := b.initial_speed.get X_AXIS, axis := X_AXIS },
        { address := VSTOP, data := b.final_speed.get X_AXIS, axis := X_AXIS },
        { address := VSTART, data := b.initial_speed.get Y_AXIS, axis := Y_AXIS },
        { address := VSTOP, data := b.final_speed.get Y_AXIS, axis := Y_AXIS }] ++
       (if b.pos_change_z = true then
          [{ address := VSTART, data := b.initial_speed.get Z_AXIS, axis := Z_AXIS },
           { address := VSTOP, data := b.final_speed.get Z_AXIS, axis := Z_AXIS }]
        else []) ++
       [{ address := VSTART, data := b.initial_speed.get E_AXIS, axis := E_AXIS },
        { address := VSTOP, data := b.final_speed.get E_AXIS, axis := E_AXIS }] ++
       (if b.pos_change_z = true then
          [{ address := XTARGET, data := toU32 (b.pos.get Z_AXIS), axis := Z_AXIS }]
        else []) ++
       [{ address := XTARGET, data := toU32 (b.pos.get X_AXIS), axis := X_AXIS },
        { address := XTARGET, data := toU32 (b.pos.get Y_AXIS), axis := Y_AXIS },
        { address := XTARGET, data := toU32 (b.pos.get E_AXIS), axis := E_AXIS }]) ∧
    (isr nullread s).bus.drop s.bus.length =
      ((isr nullread s).bus.drop s.bus.length).filter (fun w => w.address != XTARGET) ++
      ((isr nullread s).bus.drop s.bus.length).filter (fun w => w.address == XTARGET) ∧
    (b.pos_change_z = false →
      ∀ w ∈ (isr nullread s).bus.drop s.bus.length, w.axis ≠ Z_AXIS) := by
  have hbus : (isr nullread s).bus = (isr_send b s).bus := by
    unfold isr
    rw [isr_rearm_frame, isr_dispatch_ready nullread s i hclk hcur (by rw [hb]; exact hready), hb]
    rfl
  rw [hbus, isr_send_bus]
  refine ⟨rfl, ?_, ?_⟩
  · rw [List.drop_left]
    cases hz : b.pos_change_z <;> rfl
  · intro hz w hw
    simp only [hz, Bool.false_eq_true, if_false, List.append_nil, List.drop_left,
      List.cons_append, List.nil_append, List.mem_cons, List.mem_singleton,
      List.not_mem_nil, or_false] at hw
    rcases hw with h | h | h | h | h | h | h | h | h | h | h | h | h | h | h | h | h | h <;>
      subst h <;> simp

/-- C7, instance: the scenario segment, computed from the initial state, is
dispatched. -/
theorem C7_dispatch_write_order_witness :
    (isr false (calculate (planned [scenario_block]))).bus =
      [{ address := VMAX, data := 4000, axis := X_AXIS },
       { address := AMAX, data := 7, axis := X_AXIS },
       { address := DMAX, data := 7, axis := X_AXIS },
       { address := VMAX, data := 0, axis := Y_AXIS },
       { address := AMAX, data := 0, axis := Y_AXIS },
       { address := DMAX, data := 0, axis := Y_AXIS },
       { address := VMAX, data := 0, axis := E_AXIS },
       { address := AMAX, data := 0, axis := E_AXIS },
       { address := DMAX, data := 0, axis := E_AXIS },
       { address := VSTART, data := 0, axis := X_AXIS },
       { address := VSTOP, data := 10, axis := X_AXIS },
       { address := VSTART, data := 0, axis := Y_AXIS },
       { address := VSTOP, data := 0, axis := Y_AXIS },
       { address := VSTART, data := 0, axis := E_AXIS },
       { address := VSTOP, data := 0, axis := E_AXIS },
       { address := XTARGET, data := 1600, axis := X_AXIS },
       { address := XTARGET, data := 0, axis := Y_AXIS },
       { address := XTARGET, data := 0, axis := E_AXIS }] :=
  (C7_dispatch_write_order false (calculate (planned [scenario_block])) 0
    ((calculate (planned [scenario_block])).slot 0) (by decide) (by decide) rfl (by decide)).1

/-! ## C8: underrun -/

/-- C8. When `isr` runs with countdown zero and the ring buffer is empty, or
the readiness flag of the tail segment is false, it issues no bus write,
leaves head, tail, the full flag and every segment slot unchanged, and enters
the timer rearm step with the countdown set to 2000. -/
theorem C8_underrun_repoll (nullread : Bool) (s : State) (hclk : s.timerClk = 0)
    (h : get_current_motion_block s = none ∨
      ∃ i, get_current_motion_block s = some i ∧ (s.slot i).calcready = false) :
    (isr nullread s).bus = s.bus ∧
    (isr nullread s).motion_buffer_head = s.motion_buffer_head ∧
    (isr nullread s).motion_buffer_tail = s.motion_buffer_tail ∧
    (isr nullread s).motion_buffer_full = s.motion_buffer_full ∧
    (isr nullread s).motion_buffer = s.motion_buffer ∧
    (isr_dispatch nullread s).timerClk = 2000 ∧
    isr nullread s = isr_rearm { s with timerClk := 2000 } := by
  have hd := isr_dispatch_underrun nullread s hclk h
  have hi : isr nullread s = isr_rearm { s with timerClk := 2000 } := by
    unfold isr; rw [hd]
  refine ⟨?_, ?_, ?_, ?_, ?_, ?_, hi⟩
  · rw [hi, isr_rearm_frame]
  · rw [hi, isr_rearm_frame]
  · rw [hi, isr_rearm_frame]
  · rw [hi, isr_rearm_frame]
  · rw [hi, isr_rearm_frame]
  · rw [hd]

/-- C8, instances: the empty buffer of the initial state, and a buffer whose
tail segment has a false readiness flag. -/
theorem C8_underrun_repoll_witness :
    (isr true State.init).bus = State.init.bus ∧
    (isr true (try_enqueue motion_block_t.zero State.init)).bus
      = (try_enqueue motion_block_t.zero State.init).bus :=
  ⟨(C8_underrun_repoll true State.init rfl (Or.inl (by decide))).1,
   (C8_underrun_repoll true (try_enqueue motion_block_t.zero State.init) rfl
      (Or.inr ⟨0, by decide, by decide⟩)).1⟩

/-! ## Invariants of the two pipeline stages -/

theorem ringWf_congr (s t : State) (hl : t.motion_buffer.length = s.motion_buffer.length)
    (hh : t.motion_buffer_head = s.motion_buffer_head)
    (ht : t.motion_buffer_tail = s.motion_buffer_tail)
    (hf : t.motion_buffer_full = s.motion_buffer_full) (h : RingWf s) : RingWf t := by
  unfold RingWf at *
  rw [hl, hh, ht, hf]
  exact h

theorem occupancy_enqueue (s t : State) (hwf : RingWf s) (hfull : s.motion_buffer_full = false)
    (hinv : ∀ i, i < MOTION_BUFFER_SIZE → (occupied s i ↔ (s.slot i).calcready = true))
    (hh : t.motion_buffer_head = (s.motion_buffer_head + 1) % 16)
    (ht : t.motion_buffer_tail = s.motion_buffer_tail)
    (hf : t.motion_buffer_full = decide ((s.motion_buffer_head + 1) % 16 = s.motion_buffer_tail))
    (hnew : (t.slot s.motion_buffer_head).calcready = true)
    (hold : ∀ j, s.motion_buffer_head ≠ j → t.slot j = s.slot j) :
    ∀ i, i < MOTION_BUFFER_SIZE → (occupied t i ↔ (t.slot i).calcready = true) := by
  obtain ⟨_, hhd, htl, _⟩ := hwf
  intro i hi
  simp only [MOTION_BUFFER_SIZE] at hhd htl hi
  by_cases hih : s.motion_buffer_head = i
  · subst hih
    simp only [hnew, iff_true]
    simp only [occupied, hh, ht, hf, MOTION_BUFFER_SIZE, decide_eq_true_eq]
    omega
  · rw [hold i hih, ← hinv i (by simp only [MOTION_BUFFER_SIZE]; exact hi)]
    simp only [occupied, hh, ht, hf, hfull, MOTION_BUFFER_SIZE, decide_eq_true_eq,
      Bool.false_eq_true, false_or]
    omega

theorem occupancy_dequeue (s t : State) (hwf : RingWf s) (hq : queued_count s ≠ 0)
    (hinv : ∀ i, i < MOTION_BUFFER_SIZE → (occupied s i ↔ (s.slot i).calcready = true))
    (hh : t.motion_buffer_head = s.motion_buffer_head)
    (ht : t.motion_buffer_tail = (s.motion_buffer_tail + 1) % 16)
    (hf : t.motion_buffer_full = false)
    (hnew : (t.slot s.motion_buffer_tail).calcready = false)
    (hold : ∀ j, s.motion_buffer_tail ≠ j → t.slot j = s.slot j) :
    ∀ i, i < MOTION_BUFFER_SIZE → (occupied t i ↔ (t.slot i).calcready = true) := by
  obtain ⟨_, hhd, htl, hfl⟩ := hwf
  intro i hi
  simp only [MOTION_BUFFER_SIZE] at hhd htl hi
  by_cases hit : s.motion_buffer_tail = i
  · subst hit
    simp only [hnew, Bool.false_eq_true, iff_false]
    simp only [occupied, hh, ht, hf, MOTION_BUFFER_SIZE, Bool.false_eq_true, false_or]
    omega
  · rw [hold i hit, ← hinv i (by simp only [MOTION_BUFFER_SIZE]; exact hi)]
    simp only [occupied, hh, ht, hf, MOTION_BUFFER_SIZE, Bool.false_eq_true, false_or]
    cases hb : s.motion_buffer_full
    · simp only [queued_count, hb, MOTION_BUFFER_SIZE, Bool.false_eq_true, if_false] at hq
      simp only [Bool.false_eq_true, false_or]
      omega
    · have := hfl hb
      simp only [true_or, iff_true]
      omega

theorem current_slot_eq (s : State) (i : Nat) (hwf : RingWf s)
    (hcur : get_current_motion_block s = some i) :
    i = s.motion_buffer_tail ∧ queued_count s ≠ 0 := by
  constructor
  · unfold get_current_motion_block at hcur
    split_ifs at hcur
    exact (Option.some.inj hcur).symm
  · intro hq
    rw [get_current_of_empty s hq hwf] at hcur
    cases hcur

theorem calculate_inv (s : State) (hwf : RingWf s)
    (hinv : ∀ i, i < MOTION_BUFFER_SIZE → (occupied s i ↔ (s.slot i).calcready = true)) :
    RingWf (calculate s) ∧
    ∀ i, i < MOTION_BUFFER_SIZE →
      (occupied (calculate s) i ↔ ((calculate s).slot i).calcready = true) := by
  cases hfree : get_next_free_motion_block s with
  | none => rw [calculate_of_full s hfree]; exact ⟨hwf, hinv⟩
  | some i =>
    cases hp : s.planner.head? with
    | none => rw [calculate_of_idle s i hfree hp]; exact ⟨hwf, hinv⟩
    | some blk =>
      obtain ⟨hfull, hi⟩ := free_slot_eq s i hfree
      subst hi
      obtain ⟨h1, h2, h3, h4, _⟩ := calculate_ring s _ blk hfree hp
      have hhd : s.motion_buffer_head < 16 := hwf.2.1
      have hlen : s.motion_buffer_head < s.motion_buffer.length := by
        rw [hwf.1]; exact hwf.2.1
      rw [append_head s hhd] at h1
      rw [append_full s hhd, hfull, Bool.or_false] at h3
      constructor
      · refine ringWf_congr (append_motion_block (s.writeSlot s.motion_buffer_head (s.slot 0)))
          (calculate s) ?_ ?_ ?_ ?_ (ringWf_append_write _ s hwf hfull)
        · rw [h4, append_buffer]; simp [State.writeSlot]
        · rw [h1, append_head _ (by exact hhd)]; rfl
        · rw [h2]; rfl
        · rw [h3, append_full _ (by exact hhd)]; simp [State.writeSlot, hfull]
      · apply occupancy_enqueue s (calculate s) hwf hfull hinv h1 h2 h3
        · rw [calculate_slot_head s _ blk hfree hp hlen]
          exact (emitted_segment_duration blk _ _ _ _).2.2
        · intro j hj
          exact calculate_slot_other s _ j blk hfree hp hj

theorem isr_dispatch_inv (nullread : Bool) (s : State) (hwf : RingWf s)
    (hinv : ∀ i, i < MOTION_BUFFER_SIZE → (occupied s i ↔ (s.slot i).calcready = true)) :
    RingWf (isr_dispatch nullread s) ∧
    ∀ i, i < MOTION_BUFFER_SIZE →
      (occupied (isr_dispatch nullread s) i ↔
        ((isr_dispatch nullread s).slot i).calcready = true) := by
  by_cases hclk : s.timerClk = 0
  · cases hcur : get_current_motion_block s with
    | none =>
      rw [isr_dispatch_underrun nullread s hclk (Or.inl hcur)]
      exact ⟨hwf, hinv⟩
    | some i =>
      cases hr : (s.slot i).calcready with
      | false =>
        rw [isr_dispatch_underrun nullread s hclk (Or.inr ⟨i, hcur, hr⟩)]
        exact ⟨hwf, hinv⟩
      | true =>
        rw [isr_dispatch_ready nullread s i hclk hcur hr]
        obtain ⟨hi, hq⟩ := current_slot_eq s i hwf hcur
        subst hi
        have hlen : s.motion_buffer_tail < s.motion_buffer.length := by
          rw [hwf.1]; exact hwf.2.2.1
        constructor
        · refine ringWf_congr (discard_current_motion_block s) _ ?_ ?_ ?_ ?_
            (ringWf_discard s hwf)
          · simp [discard_current_motion_block, State.writeSlot]
          · rfl
          · rfl
          · rfl
        · refine occupancy_dequeue s _ hwf hq hinv rfl ?_ rfl ?_ ?_
          · rw [discard_tail]; rfl
          · have := slot_writeSlot_same s s.motion_buffer_tail
              { s.slot s.motion_buffer_tail with calcready := false } hlen
            simp only [State.slot, State.writeSlot, discard_current_motion_block] at this ⊢
            rw [this]
          · intro j hj
            have := slot_writeSlot_ne s s.motion_buffer_tail j
              { s.slot s.motion_buffer_tail with calcready := false } hj
            simp only [State.slot, State.writeSlot, discard_current_motion_block] at this ⊢
            rw [this]
  · rw [isr_dispatch_waiting nullread s hclk]
    exact ⟨hwf, hinv⟩

theorem isr_inv (nullread : Bool) (s : State) (hwf : RingWf s)
    (hinv : ∀ i, i < MOTION_BUFFER_SIZE → (occupied s i ↔ (s.slot i).calcready = true)) :
    RingWf (isr nullread s) ∧
    ∀ i, i < MOTION_BUFFER_SIZE →
      (occupied (isr nullread s) i ↔ ((isr nullread s).slot i).calcready = true) := by
  unfold isr
  rw [isr_rearm_frame]
  exact isr_dispatch_inv nullread s hwf hinv

theorem call_inv (c : Call) (s : State) (hwf : RingWf s)
    (hinv : ∀ i, i < MOTION_BUFFER_SIZE → (occupied s i ↔ (s.slot i).calcready = true)) :
    RingWf (c.run s) ∧
    ∀ i, i < MOTION_BUFFER_SIZE →
      (occupied (c.run s) i ↔ ((c.run s).slot i).calcready = true) := by
  cases c with
  | plan blk => exact ⟨hwf, hinv⟩
  | calculate => exact calculate_inv s hwf hinv
  | isr nullread => exact isr_inv nullread s hwf hinv

theorem run_calls_inv (calls : List Call) (s : State) (hwf : RingWf s)
    (hinv : ∀ i, i < MOTION_BUFFER_SIZE → (occupied s i ↔ (s.slot i).calcready = true)) :
    RingWf (run_calls s calls) ∧
    ∀ i, i < MOTION_BUFFER_SIZE →
      (occupied (run_calls s calls) i ↔ ((run_calls s calls).slot i).calcready = true) := by
  induction calls generalizing s with
  | nil => exact ⟨hwf, hinv⟩
  | cons c cs ih =>
    obtain ⟨h1, h2⟩ := call_inv c s hwf hinv
    exact ih (c.run s) h1 h2

theorem isr_discards_ready_only (nullread : Bool) (s : State)
    (h : (isr nullread s).motion_buffer_tail ≠ s.motion_buffer_tail) :
    (s.slot s.motion_buffer_tail).calcready = true := by
  by_contra hr
  apply h
  have hframe : (isr nullread s).motion_buffer_tail
      = (isr_dispatch nullread s).motion_buffer_tail := by
    unfold isr; rw [isr_rearm_frame]
  rw [hframe]
  by_cases hclk : s.timerClk = 0
  · cases hcur : get_current_motion_block s with
    | none => rw [isr_dispatch_underrun nullread s hclk (Or.inl hcur)]
    | some i =>
      have hi : i = s.motion_buffer_tail := by
        unfold get_current_motion_block at hcur
        split_ifs at hcur
        exact (Option.some.inj hcur).symm
      subst hi
      rw [isr_dispatch_underrun nullread s hclk
        (Or.inr ⟨_, hcur, by simpa using hr⟩)]
  · rw [isr_dispatch_waiting nullread s hclk]

theorem ringWf_call (c : Call) (s : State) (hwf : RingWf s) : RingWf (c.run s) := by
  cases c with
  | plan blk => exact hwf
  | calculate =>
    show RingWf (calculate s)
    cases hfree : get_next_free_motion_block s with
    | none => rw [calculate_of_full s hfree]; exact hwf
    | some i =>
      cases hp : s.planner.head? with
      | none => rw [calculate_of_idle s i hfree hp]; exact hwf
      | some blk =>
        obtain ⟨hfull, hi⟩ := free_slot_eq s i hfree
        subst hi
        obtain ⟨h1, h2, h3, h4, _⟩ := calculate_ring s _ blk hfree hp
        refine ringWf_congr (append_motion_block (s.writeSlot s.motion_buffer_head (s.slot 0)))
          (calculate s) ?_ h1 h2 h3 (ringWf_append_write _ s hwf hfull)
        rw [h4, append_buffer]; simp [State.writeSlot]
  | isr nullread =>
    show RingWf (isr nullread s)
    unfold isr
    rw [isr_rearm_frame]
    by_cases hclk : s.timerClk = 0
    · cases hcur : get_current_motion_block s with
      | none =>
        rw [isr_dispatch_underrun nullread s hclk (Or.inl hcur)]; exact hwf
      | some i =>
        cases hr : (s.slot i).calcready with
        | false =>
          rw [isr_dispatch_underrun nullread s hclk (Or.inr ⟨i, hcur, hr⟩)]; exact hwf
        | true =>
          rw [isr_dispatch_ready nullread s i hclk hcur hr]
          refine ringWf_congr (discard_current_motion_block s) _ ?_ rfl rfl rfl
            (ringWf_discard s hwf)
          simp [discard_current_motion_block, State.writeSlot]
    · rw [isr_dispatch_waiting nullread s hclk]; exact hwf

/-! ## C9: occupied slots are exactly the ready ones -/

/-- C9. In every state reached from a state with an empty ring buffer and all
readiness flags false by any sequence of complete `calculate` and `isr` calls
(the planner queueing blocks in between), a slot is occupied if and only if
its readiness flag `calcready` is true; and whenever `isr` discards the tail
segment, the readiness flag of that segment was true. -/
theorem C9_occupied_iff_ready (s0 : State) (calls : List Call) (h0 : RingEmpty s0)
    (hflags : ∀ i, i < MOTION_BUFFER_SIZE → (s0.slot i).calcready = false) :
    (∀ i, i < MOTION_BUFFER_SIZE →
      (occupied (run_calls s0 calls) i ↔ ((run_calls s0 calls).slot i).calcready = true)) ∧
    (∀ nullread,
      (isr nullread (run_calls s0 calls)).motion_buffer_tail
        ≠ (run_calls s0 calls).motion_buffer_tail →
      ((run_calls s0 calls).slot (run_calls s0 calls).motion_buffer_tail).calcready = true) := by
  constructor
  · apply (run_calls_inv calls s0 (ringEmpty_wf s0 h0) ?_).2
    intro i hi
    obtain ⟨_, hh, ht, hf⟩ := h0
    simp only [occupied, hf, ht, hflags i hi, MOTION_BUFFER_SIZE, Bool.false_eq_true, false_or,
      iff_false, not_lt]
    simp only [MOTION_BUFFER_SIZE] at hh
    omega
  · intro nullread h
    exact isr_discards_ready_only nullread _ h

/-- C9, instance: two blocks are planned and calculated from the initial
state, with one dispatch in between. -/
theorem C9_occupied_iff_ready_witness :
    RingEmpty State.init ∧
    ∀ i, i < MOTION_BUFFER_SIZE →
      (occupied (run_calls State.init [Call.plan scenario_block, Call.plan z_block,
          Call.calculate, Call.isr false, Call.calculate]) i ↔
        ((run_calls State.init [Call.plan scenario_block, Call.plan z_block,
          Call.calculate, Call.isr false, Call.calculate]).slot i).calcready = true) :=
  ⟨by decide, (C9_occupied_iff_ready State.init _ (by decide) (by decide)).1⟩

/-! ## C5: carry-forward of the axes without steps -/

theorem emit_snapshot (s : State) (blk : block_t) (seg : motion_block_t) (a : AxisEnum)
    (hwf : RingWf s) (hem : emitted s = some (blk, seg)) (ha : a ≠ Z_AXIS) :
    axis_values (calculate s).motion_buffer_block_old a = axis_values seg a := by
  obtain ⟨hfree, hp, _⟩ := emitted_some s blk seg hem
  rw [(calculate_snapshot s _ blk hfree hp a).1, calculate_axes_snapshot _ _ _ a ha,
    emitted_eq s blk seg hwf hem, emitted_segment_values]

theorem emit_still (s : State) (blk : block_t) (seg : motion_block_t) (a : AxisEnum)
    (hwf : RingWf s) (hem : emitted s = some (blk, seg)) (ha : a ≠ Z_AXIS)
    (h0 : blk.steps.get a = 0) :
    axis_values seg a = axis_values s.motion_buffer_block_old a := by
  rw [emitted_eq s blk seg hwf hem, emitted_segment_values,
    (calculate_axes_still blk _ _ a ha h0).1]

theorem emitted_none_snapshot (s : State) (h : emitted s = none) :
    (calculate s).motion_buffer_block_old = s.motion_buffer_block_old := by
  cases hfree : get_next_free_motion_block s with
  | none => rw [calculate_of_full s hfree]
  | some i =>
    cases hp : s.planner.head? with
    | none => rw [calculate_of_idle s i hfree hp]
    | some blk => simp [emitted, hfree, hp] at h

theorem isr_snapshot (nullread : Bool) (s : State) :
    (isr nullread s).motion_buffer_block_old = s.motion_buffer_block_old := by
  unfold isr
  rw [isr_rearm_frame]
  by_cases hclk : s.timerClk = 0
  · cases hcur : get_current_motion_block s with
    | none => rw [isr_dispatch_underrun nullread s hclk (Or.inl hcur)]
    | some i =>
      cases hr : (s.slot i).calcready with
      | false => rw [isr_dispatch_underrun nullread s hclk (Or.inr ⟨i, hcur, hr⟩)]
      | true => rw [isr_dispatch_ready nullread s i hclk hcur hr]; rfl
  · rw [isr_dispatch_waiting nullread s hclk]

theorem trace_calculate (s : State) (cs : List Call) :
    emitted_trace s (Call.calculate :: cs)
      = (emitted s).toList ++ emitted_trace (calculate s) cs := by
  simp [emitted_trace]

theorem trace_plan (s : State) (blk : block_t) (cs : List Call) :
    emitted_trace s (Call.plan blk :: cs) = emitted_trace ((Call.plan blk).run s) cs := by
  simp [emitted_trace]

theorem trace_isr (s : State) (nullread : Bool) (cs : List Call) :
    emitted_trace s (Call.isr nullread :: cs)
      = emitted_trace ((Call.isr nullread).run s) cs := by
  simp [emitted_trace]

theorem trace_still (a : AxisEnum) (ha : a ≠ Z_AXIS) (calls : List Call) (s : State)
    (hwf : RingWf s) (k : Nat) (bk : block_t) (sk : motion_block_t)
    (hk : (emitted_trace s calls)[k]? = some (bk, sk))
    (hstill : ∀ i b sg, i ≤ k → (emitted_trace s calls)[i]? = some (b, sg) →
      b.steps.get a = 0) :
    axis_values sk a = axis_values s.motion_buffer_block_old a := by
  induction calls generalizing s k with
  | nil => simp [emitted_trace] at hk
  | cons c cs ih =>
    have hwf' := ringWf_call c s hwf
    cases c with
    | plan blk =>
      rw [trace_plan] at hk hstill
      exact ih ((Call.plan blk).run s) hwf' k hk hstill
    | isr nullread =>
      rw [trace_isr] at hk hstill
      have := ih ((Call.isr nullread).run s) hwf' k hk hstill
      rw [this]
      show axis_values (isr nullread s).motion_buffer_block_old a = _
      rw [isr_snapshot]
    | calculate =>
      rw [trace_calculate] at hk hstill
      cases hem : emitted s with
      | none =>
        simp only [hem, Option.toList, List.nil_append] at hk hstill
        have := ih (calculate s) hwf' k hk hstill
        rw [this]
        show axis_values (calculate s).motion_buffer_block_old a = _
        rw [emitted_none_snapshot s hem]
      | some p =>
        obtain ⟨b, sg⟩ := p
        simp only [hem, Option.toList, List.singleton_append] at hk hstill
        have hb0 : b.steps.get a = 0 := hstill 0 b sg (Nat.zero_le _) (by simp)
        cases k with
        | zero =>
          simp only [List.getElem?_cons_zero, Option.some.injEq, Prod.mk.injEq] at hk
          rw [← hk.2]
          exact emit_still s b sg a hwf hem ha hb0
        | succ k' =>
          simp only [List.getElem?_cons_succ] at hk
          have := ih (calculate s) hwf' k' hk (by
            intro i b' sg' hi hget
            exact hstill (i + 1) b' sg' (by omega) (by simpa using hget))
          rw [this, emit_snapshot s b sg a hwf hem ha]
          exact emit_still s b sg a hwf hem ha hb0

/-- C5 (amended). In every run of complete `calculate` and `isr` calls from a
state with a well-formed ring buffer, for each of the axes X, Y and E: if
every block consumed after the `j`-th emitted segment up to and including the
`k`-th (`j < k`) has a zero step count on that axis, as is the case when the
`j`-th is the most recent segment whose block moved the axis, then
acceleration, initial, nominal and final speed and position of that axis in
segment `k` equal those in segment `j`. -/
theorem C5_carry_forward_xye (a : AxisEnum) (ha : a ≠ Z_AXIS) (calls : List Call) (s : State)
    (hwf : RingWf s) (j k : Nat) (bj bk : block_t) (sj sk : motion_block_t)
    (hjk : j < k)
    (hj : (emitted_trace s calls)[j]? = some (bj, sj))
    (hk : (emitted_trace s calls)[k]? = some (bk, sk))
    (hstill : ∀ i b sg, j < i → i ≤ k → (emitted_trace s calls)[i]? = some (b, sg) →
      b.steps.get a = 0) :
    axis_values sk a = axis_values sj a := by
  induction calls generalizing s j k with
  | nil => simp [emitted_trace] at hk
  | cons c cs ih =>
    have hwf' := ringWf_call c s hwf
    cases c with
    | plan blk =>
      rw [trace_plan] at hj hk hstill
      exact ih ((Call.plan blk).run s) hwf' j k hjk hj hk hstill
    | isr nullread =>
      rw [trace_isr] at hj hk hstill
      exact ih ((Call.isr nullread).run s) hwf' j k hjk hj hk hstill
    | calculate =>
      rw [trace_calculate] at hj hk hstill
      cases hem : emitted s with
      | none =>
        simp only [hem, Option.toList, List.nil_append] at hj hk hstill
        exact ih (calculate s) hwf' j k hjk hj hk hstill
      | some p =>
        obtain ⟨b, sg⟩ := p
        simp only [hem, Option.toList, List.singleton_append] at hj hk hstill
        cases k with
        | zero => omega
        | succ k' =>
          simp only [List.getElem?_cons_succ] at hk
          cases j with
          | zero =>
            simp only [List.getElem?_cons_zero, Option.some.injEq, Prod.mk.injEq] at hj
            have := trace_still a ha cs (calculate s) hwf' k' bk sk hk (by
              intro i b' sg' hi hget
              exact hstill (i + 1) b' sg' (by omega) (by omega) (by simpa using hget))
            rw [this, emit_snapshot s b sg a hwf hem ha, hj.2]
          | succ j' =>
            simp only [List.getElem?_cons_succ] at hj
            exact ih (calculate s) hwf' j' k' (by omega) hj hk (by
              intro i b' sg' hji hik hget
              exact hstill (i + 1) b' sg' (by omega) (by omega) (by simpa using hget))

/-- C5, instance: X moves in the first block and rests in the second, a Z-only
block; the X values of the second segment are those of the first. -/
theorem C5_carry_forward_xye_witness :
    axis_values ((run_calls (planned [scenario_block, z_block])
        [Call.calculate, Call.calculate]).slot 1) X_AXIS
      = axis_values ((run_calls (planned [scenario_block, z_block])
        [Call.calculate]).slot 0) X_AXIS :=
  C5_carry_forward_xye X_AXIS (by decide) [Call.calculate, Call.calculate]
    (planned [scenario_block, z_block]) (by decide) 0 1 scenario_block z_block
    ((run_calls (planned [scenario_block, z_block]) [Call.calculate]).slot 0)
    ((run_calls (planned [scenario_block, z_block]) [Call.calculate, Call.calculate]).slot 1)
    (by decide) rfl rfl
    (by
      intro i b sg hji hik hget
      have hi : i = 1 := by omega
      subst hi
      have hb : b = z_block := by
        have h2 : (emitted_trace (planned [scenario_block, z_block])
            [Call.calculate, Call.calculate])[1]?.map Prod.fst = some z_block := by decide
        rw [hget] at h2
        exact Option.some.inj h2
      rw [hb]
      decide)

/-- C5 as stated fails on the Z axis. From the initial state a Z-only block is
consumed and then an X-only block: the second block has a zero Z step count,
the first one is the most recent with a nonzero Z step count, and the Z values
of the second emitted segment (all zero, the previous content of its slot)
differ from those of the first (7, 0, 4000, 10, 400). -/
theorem C5_counterexample_z_axis :
    (emitted_trace (planned [z_block, scenario_block]) [Call.calculate, Call.calculate]).map
      (fun p => (p.1.steps.get Z_AXIS, axis_values p.2 Z_AXIS))
    = [(400, (7, 0, 4000, 10, 400)), (0, (0, 0, 0, 0, 0))] := by
  decide

/-! ## C14: byte order on the bus -/

theorem mask_shift_byte (d k : Nat) : (d &&& (0xFF <<< k)) >>> k = d / 2 ^ k % 256 := by
  rw [← Nat.shiftRight_eq_div_pow]
  apply Nat.eq_of_testBit_eq
  intro j
  have h255 : (0xFF : Nat) = 2 ^ 8 - 1 := by norm_num
  have h256 : (256 : Nat) = 2 ^ 8 := by norm_num
  rw [h256, Nat.testBit_mod_two_pow, Nat.testBit_shiftRight, Nat.testBit_shiftRight,
    Nat.testBit_and, Nat.testBit_shiftLeft, h255, Nat.testBit_two_pow_sub_one]
  have : k + j - k = j := by omega
  rw [this]
  by_cases hj : j < 8 <;> simp [hj, Bool.and_comm]

theorem shiftLeft_byte (a : Nat) : a <<< 8 = a * 256 := by
  rw [Nat.shiftLeft_eq]

theorem or_byte (a b : Nat) (hb : b < 256) : a * 256 ||| b = a * 256 + b := by
  have h := Nat.mul_add_lt_is_or (i := 8) (by simpa using hb) a
  have h256 : (2 : Nat) ^ 8 = 256 := by norm_num
  rw [h256] at h
  rw [Nat.mul_comm a 256, ← h]

/-- C14. For every 32-bit value `d`, the four data bytes `spi_writeRegister`
puts on the wire after the address byte are the bytes of `d`, most significant
first, and reassembling these four bytes in wire order the way
`spi_readRegister` does gives `d` again. -/
theorem C14_write_split_read_assemble (READ_ACCESS address d : Nat) (hd : d < 2 ^ 32) :
    spi_writeRegister_bytes READ_ACCESS address d =
      [(address ||| READ_ACCESS) % 256, d / 2 ^ 24 % 256, d / 2 ^ 16 % 256, d / 2 ^ 8 % 256,
        d % 256] ∧
    spi_readRegister_value (d / 2 ^ 24 % 256) (d / 2 ^ 16 % 256) (d / 2 ^ 8 % 256) (d % 256)
      = d := by
  constructor
  · have h0 : d &&& 0xFF = d % 256 := by
      have := Nat.and_pow_two_sub_one_eq_mod d 8
      simpa using this
    have h1 : (d &&& 0xFF00) >>> 8 = d / 2 ^ 8 % 256 := mask_shift_byte d 8
    have h2 : (d &&& 0xFF0000) >>> 16 = d / 2 ^ 16 % 256 := mask_shift_byte d 16
    have h3 : (d &&& 0xFF000000) >>> 24 = d / 2 ^ 24 % 256 := mask_shift_byte d 24
    simp only [spi_writeRegister_bytes, h0, h1, h2, h3, Nat.mod_mod]
  · simp only [spi_readRegister_value, Nat.mod_mod, Nat.zero_or]
    have hb3 : d / 2 ^ 24 % 256 < 256 := Nat.mod_lt _ (by norm_num)
    have hb2 : d / 2 ^ 16 % 256 < 256 := Nat.mod_lt _ (by norm_num)
    have hb1 : d / 2 ^ 8 % 256 < 256 := Nat.mod_lt _ (by norm_num)
    have hb0 : d % 256 < 256 := Nat.mod_lt _ (by norm_num)
    simp only [shiftLeft_byte]
    have e1 : d / 2 ^ 24 % 256 * 256 % 2 ^ 32 = d / 2 ^ 24 % 256 * 256 :=
      Nat.mod_eq_of_lt (by omega)
    rw [e1, or_byte _ _ hb2]
    have e2 : (d / 2 ^ 24 % 256 * 256 + d / 2 ^ 16 % 256) * 256 % 2 ^ 32
        = (d / 2 ^ 24 % 256 * 256 + d / 2 ^ 16 % 256) * 256 :=
      Nat.mod_eq_of_lt (by omega)
    rw [e2, or_byte _ _ hb1]
    have e3 : ((d / 2 ^ 24 % 256 * 256 + d / 2 ^ 16 % 256) * 256 + d / 2 ^ 8 % 256) * 256
          % 2 ^ 32
        = ((d / 2 ^ 24 % 256 * 256 + d / 2 ^ 16 % 256) * 256 + d / 2 ^ 8 % 256) * 256 :=
      Nat.mod_eq_of_lt (by omega)
    rw [e3, or_byte _ _ hb0]
    omega

/-- C14, instance: the word `0x12345678`. -/
theorem C14_write_split_read_assemble_witness :
    spi_writeRegister_bytes 0x80 0x2D 0x12345678 = [0xAD, 0x12, 0x34, 0x56, 0x78] ∧
    spi_readRegister_value 0x12 0x34 0x56 0x78 = 0x12345678 :=
  C14_write_split_read_assemble 0x80 0x2D 0x12345678 (by decide)

/-! ## C15: the divisors of calculate -/

/-- C15 as stated fails. For the scenario block with its acceleration set to
zero the divisors `calculate` uses are 1600, 0, 4000, 0: both divisions by
`acceleration_steps_per_s2` in the duration computation divide by zero. -/
theorem C15_counterexample_zero_acceleration :
    calculate_divisors zero_accel_block = [1600, 0, 4000, 0] ∧
    0 ∈ calculate_divisors zero_accel_block := by
  decide

/-- C15 (amended). The divisors `calculate` uses are fields of the block,
taken as they are. None of them is zero exactly when the acceleration of the
block is nonzero, its step-event count is nonzero if some axis has steps, and
its nominal rate is nonzero if `decelerate_after > accelerate_until`. -/
theorem C15_divisors_nonzero_iff (blk : block_t) :
    (∀ d ∈ calculate_divisors blk, d ≠ 0) ↔
      ((blk.steps.get X_AXIS ≠ 0 ∨ blk.steps.get Y_AXIS ≠ 0 ∨ blk.steps.get Z_AXIS ≠ 0 ∨
          blk.steps.get E_AXIS ≠ 0) → blk.step_event_count ≠ 0) ∧
      blk.acceleration_steps_per_s2 ≠ 0 ∧
      (blk.decelerate_after > blk.accelerate_until → blk.nominal_rate ≠ 0) := by
  unfold calculate_divisors
  by_cases hx : blk.steps.get X_AXIS = 0 <;> by_cases hy : blk.steps.get Y_AXIS = 0 <;>
    by_cases hz : blk.steps.get Z_AXIS = 0 <;> by_cases he : blk.steps.get E_AXIS = 0 <;>
    by_cases hp : blk.decelerate_after > blk.accelerate_until <;>
    simp [hx, hy, hz, he, hp] <;> tauto

/-! ## C16: the ring indices stay in range -/

theorem blocks_in_motion_queue_le (s : State) (hwf : RingWf s) :
    blocks_in_motion_queue s ≤ MOTION_BUFFER_SIZE := by
  obtain ⟨_, hh, ht, _⟩ := hwf
  simp only [blocks_in_motion_queue, MOTION_BUFFER_SIZE] at *
  split_ifs <;> omega

/-- C16. In every ring-buffer state reached from an empty buffer by guarded
appends and discards, head and tail are below 16, the full flag implies
`head == tail`, and `blocks_in_motion_queue()` does not exceed 16. -/
theorem C16_ring_indices_in_range (s : State) (ops : List RingOp) (h : RingEmpty s) :
    (ring_run s ops).state.motion_buffer_head < 16 ∧
    (ring_run s ops).state.motion_buffer_tail < 16 ∧
    ((ring_run s ops).state.motion_buffer_full = true →
      (ring_run s ops).state.motion_buffer_head = (ring_run s ops).state.motion_buffer_tail) ∧
    blocks_in_motion_queue (ring_run s ops).state ≤ 16 := by
  have hwf := (ring_run_inv s ops h).1
  exact ⟨hwf.2.1, hwf.2.2.1, hwf.2.2.2, blocks_in_motion_queue_le _ hwf⟩

/-- C16, instance: seventeen enqueue attempts and two dequeues from the
initial state. -/
theorem C16_ring_indices_in_range_witness :
    (ring_run State.init (List.replicate 17 (RingOp.enqueue motion_block_t.zero) ++
      [RingOp.dequeue, RingOp.dequeue])).state.motion_buffer_head < 16 ∧
    (ring_run State.init (List.replicate 17 (RingOp.enqueue motion_block_t.zero) ++
      [RingOp.dequeue, RingOp.dequeue])).state.motion_buffer_tail < 16 ∧
    ((ring_run State.init (List.replicate 17 (RingOp.enqueue motion_block_t.zero) ++
      [RingOp.dequeue, RingOp.dequeue])).state.motion_buffer_full = true →
      (ring_run State.init (List.replicate 17 (RingOp.enqueue motion_block_t.zero) ++
        [RingOp.dequeue, RingOp.dequeue])).state.motion_buffer_head =
      (ring_run State.init (List.replicate 17 (RingOp.enqueue motion_block_t.zero) ++
        [RingOp.dequeue, RingOp.dequeue])).state.motion_buffer_tail) ∧
    blocks_in_motion_queue (ring_run State.init
      (List.replicate 17 (RingOp.enqueue motion_block_t.zero) ++
        [RingOp.dequeue, RingOp.dequeue])).state ≤ 16 :=
  C16_ring_indices_in_range State.init _ (by decide)

/-! ## C17: the initial speed does not exceed the nominal speed -/

theorem ramp_initial_le_nominal (blk : block_t) (a : AxisEnum) :
    ramp_initial_speed blk a ≤ ramp_nominal_speed blk a := by
  unfold ramp_initial_speed
  simp only
  split_ifs <;> omega

/-- C17. For every block with a positive step-event count that `calculate`
consumes, and every axis with a nonzero step count, the emitted segment has an
initial speed not above its nominal speed on that axis. -/
theorem C17_initial_le_nominal (s : State) (blk : block_t) (seg : motion_block_t)
    (a : AxisEnum) (hwf : RingWf s) (hem : emitted s = some (blk, seg))
    (_ : 0 < blk.step_event_count) (hsteps : blk.steps.get a ≠ 0) :
    seg.initial_speed.get a ≤ seg.nominal_speed.get a := by
  have hv := emitted_segment_values blk (s.slot s.motion_buffer_head)
    s.motion_buffer_block_old s.pos s.TEMPtimerClk a
  rw [← emitted_eq s blk seg hwf hem,
    (calculate_axes_moving blk _ _ a hsteps).1] at hv
  simp only [axis_values, Prod.mk.injEq] at hv
  obtain ⟨_, hini, hnom, _⟩ := hv
  rw [hini, hnom]
  exact ramp_initial_le_nominal blk a

/-- C17, instance: the scenario block from the initial state, X axis. -/
theorem C17_initial_le_nominal_witness :
    ((calculate (planned [scenario_block])).slot 0).initial_speed.get X_AXIS ≤
      ((calculate (planned [scenario_block])).slot 0).nominal_speed.get X_AXIS :=
  C17_initial_le_nominal (planned [scenario_block]) scenario_block
    ((calculate (planned [scenario_block])).slot 0) X_AXIS (by decide) rfl (by decide)
    (by decide)

/-! ## C18: the position counters -/

theorem direction_bit_byte (d : Nat) (a : AxisEnum) :
    d % 256 &&& (1 <<< a.toNat) = d &&& (1 <<< a.toNat) := by
  apply Nat.eq_of_testBit_eq
  intro j
  have h256 : (256 : Nat) = 2 ^ 8 := by norm_num
  rw [Nat.testBit_and, Nat.testBit_and, h256, Nat.testBit_mod_two_pow, Nat.shiftLeft_eq,
    Nat.one_mul, Nat.testBit_two_pow]
  by_cases hj : a.toNat = j
  · have : j < 8 := by
      rw [← hj]; cases a <;> decide
    simp [hj, this]
  · simp [hj]

theorem calculate_axes_pos_still (blk : block_t) (ob : Nat) (c : CalcCtx) (a : AxisEnum)
    (h : blk.steps.get a = 0) : (calculate_axes blk ob c).pos.get a = c.pos.get a := by
  by_cases ha : a = Z_AXIS
  · subst ha
    simp only [calculate_axes, calculate_x, calculate_y, calculate_e]
    rw [(axis_block_other blk ob E_AXIS Z_AXIS true _ (by decide)).2.2,
      (calculate_z_still blk ob _ h).2,
      (axis_block_other blk ob Y_AXIS Z_AXIS false _ (by decide)).2.2,
      (axis_block_other blk ob X_AXIS Z_AXIS false _ (by decide)).2.2]
  · exact (calculate_axes_still blk ob c a ha h).2

/-- C18. For every block `calculate` consumes and every axis: if the step
count `s` of the axis is nonzero, the position counter becomes `pos_old - s`
when the direction bit of the axis is set in the block and `pos_old + s`
otherwise, and the target of the axis in the emitted segment is the new
counter value; if the step count is zero, the counter is unchanged. -/
theorem C18_position_update (s : State) (blk : block_t) (seg : motion_block_t) (a : AxisEnum)
    (hwf : RingWf s) (hem : emitted s = some (blk, seg)) :
    (blk.steps.get a ≠ 0 →
      (calculate s).pos.get a =
        (if blk.direction_bits &&& (1 <<< a.toNat) ≠ 0 then s.pos.get a - blk.steps.get a
         else s.pos.get a + blk.steps.get a) ∧
      seg.pos.get a = (calculate s).pos.get a) ∧
    (blk.steps.get a = 0 → (calculate s).pos.get a = s.pos.get a) := by
  obtain ⟨hfree, hp, _⟩ := emitted_some s blk seg hem
  have hpos := (calculate_snapshot s _ blk hfree hp a).2
  have hv := emitted_segment_values blk (s.slot s.motion_buffer_head)
    s.motion_buffer_block_old s.pos s.TEMPtimerClk a
  rw [← emitted_eq s blk seg hwf hem] at hv
  constructor
  · intro hsteps
    obtain ⟨hcur, hnew⟩ := calculate_axes_moving blk (blk.direction_bits % 256)
      { cur := s.slot s.motion_buffer_head, old := s.motion_buffer_block_old, pos := s.pos }
      a hsteps
    rw [hcur] at hv
    simp only [axis_values, Prod.mk.injEq] at hv
    rw [hpos, hnew, hv.2.2.2.2, direction_bit_byte]
    exact ⟨rfl, rfl⟩
  · intro hzero
    rw [hpos]
    exact calculate_axes_pos_still blk _ _ a hzero

/-- C18, instance: the scenario block from the initial state moves X by 1600
and leaves Y where it is. -/
theorem C18_position_update_witness :
    (scenario_block.steps.get X_AXIS ≠ 0 →
      (calculate (planned [scenario_block])).pos.get X_AXIS =
        (if scenario_block.direction_bits &&& (1 <<< X_AXIS.toNat) ≠ 0 then
          (planned [scenario_block]).pos.get X_AXIS - scenario_block.steps.get X_AXIS
         else (planned [scenario_block]).pos.get X_AXIS + scenario_block.steps.get X_AXIS) ∧
      ((calculate (planned [scenario_block])).slot 0).pos.get X_AXIS =
        (calculate (planned [scenario_block])).pos.get X_AXIS) ∧
    (scenario_block.steps.get X_AXIS = 0 →
      (calculate (planned [scenario_block])).pos.get X_AXIS
        = (planned [scenario_block]).pos.get X_AXIS) :=
  C18_position_update (planned [scenario_block]) scenario_block
    ((calculate (planned [scenario_block])).slot 0) X_AXIS (by decide) rfl

/-! ## C19: the vertical-axis flag -/

/-- C19. For every block `calculate` consumes, the flag `pos_change_z` of the
emitted segment is true exactly when the Z step count of the block is
nonzero. -/
theorem C19_vertical_flag (s : State) (blk : block_t) (seg : motion_block_t)
    (hwf : RingWf s) (hem : emitted s = some (blk, seg)) :
    seg.pos_change_z = true ↔ blk.steps.get Z_AXIS ≠ 0 := by
  rw [emitted_eq s blk seg hwf hem, (emitted_segment_duration blk _ _ _ _).2.1]
  simp

/-- C19, instances: a Z move sets the flag, an X move clears it. -/
theorem C19_vertical_flag_witness :
    (((calculate (planned [z_block])).slot 0).pos_change_z = true ↔
      z_block.steps.get Z_AXIS ≠ 0) ∧
    (((calculate (planned [scenario_block])).slot 0).pos_change_z = true ↔
      scenario_block.steps.get Z_AXIS ≠ 0) :=
  ⟨C19_vertical_flag (planned [z_block]) z_block _ (by decide) rfl,
   C19_vertical_flag (planned [scenario_block]) scenario_block _ (by decide) rfl⟩

/-! ## C20: the effect of a dispatch -/

/-- C20. When `isr` runs with countdown zero and a ready segment of duration
`D >= 0` in the tail slot `t`, on return the readiness flag of slot `t` is
false and its other fields are as before, tail is `(t + 1) mod 16`, the full
flag is false, head and every other slot are unchanged, the countdown entering
the rearm step is `D`, and the countdown left is `D - 65535` if `D >= 65535`
and `0` otherwise. -/
theorem C20_dispatch_effect (nullread : Bool) (s : State) (t : Nat) (D : Int)
    (hwf : RingWf s) (hclk : s.timerClk = 0) (hcur : get_current_motion_block s = some t)
    (hready : (s.slot t).calcready = true) (hD : (s.slot t).nextTimerClk = D) (_ : 0 ≤ D) :
    (isr nullread s).slot t = { s.slot t with calcready := false } ∧
    (isr nullread s).motion_buffer_tail = (t + 1) % 16 ∧
    (isr nullread s).motion_buffer_full = false ∧
    (isr nullread s).motion_buffer_head = s.motion_buffer_head ∧
    (∀ j, j ≠ t → (isr nullread s).slot j = s.slot j) ∧
    (isr_dispatch nullread s).timerClk = D ∧
    (isr nullread s).timerClk = (if D ≥ 65535 then D - 65535 else 0) := by
  obtain ⟨ht, _⟩ := current_slot_eq s t hwf hcur
  have hlen : t < s.motion_buffer.length := by
    rw [ht, hwf.1]; exact hwf.2.2.1
  have hd := isr_dispatch_ready nullread s t hclk hcur hready
  have hframe : ∀ x : State, (isr_rearm x).slot t = x.slot t ∧
      (isr_rearm x).motion_buffer_tail = x.motion_buffer_tail ∧
      (isr_rearm x).motion_buffer_full = x.motion_buffer_full ∧
      (isr_rearm x).motion_buffer_head = x.motion_buffer_head ∧
      (∀ j, (isr_rearm x).slot j = x.slot j) := by
    intro x
    rw [isr_rearm_frame]
    exact ⟨rfl, rfl, rfl, rfl, fun _ => rfl⟩
  have hclkD : (isr_dispatch nullread s).timerClk = D := by
    rw [hd]; exact hD
  refine ⟨?_, ?_, ?_, ?_, ?_, hclkD, ?_⟩
  · unfold isr
    rw [(hframe _).1, hd]
    have := slot_writeSlot_same s t { s.slot t with calcready := false } hlen
    simp only [State.slot, State.writeSlot, discard_current_motion_block] at this ⊢
    rw [this]
  · unfold isr
    rw [(hframe _).2.1, hd, discard_tail, ht]
    rfl
  · unfold isr
    rw [(hframe _).2.2.1, hd]
    rfl
  · unfold isr
    rw [(hframe _).2.2.2.1, hd]
    rfl
  · intro j hj
    unfold isr
    rw [(hframe _).2.2.2.2 j, hd]
    have := slot_writeSlot_ne s t j { s.slot t with calcready := false } (Ne.symm hj)
    simp only [State.slot, State.writeSlot, discard_current_motion_block] at this ⊢
    rw [this]
  · unfold isr isr_rearm
    rw [hclkD]
    by_cases h1 : D ≥ 65535
    · simp only [if_pos h1]
    · by_cases h2 : toU32 D > ((isr_dispatch nullread s).TCNT1 + 100) % 2 ^ 32
      · simp only [if_neg h1, if_pos h2]
      · simp only [if_neg h1, if_neg h2]

/-- C20, instance: a ready segment of duration 100000 in slot 0. -/
theorem C20_dispatch_effect_witness :
    (isr false (try_enqueue { mark_segment 100000 with calcready := true } State.init)).slot 0
      = { (try_enqueue { mark_segment 100000 with calcready := true } State.init).slot 0 with
          calcready := false } ∧
    (isr false (try_enqueue { mark_segment 100000 with calcready := true }
      State.init)).motion_buffer_tail = (0 + 1) % 16 ∧
    (isr false (try_enqueue { mark_segment 100000 with calcready := true }
      State.init)).motion_buffer_full = false ∧
    (isr false (try_enqueue { mark_segment 100000 with calcready := true }
      State.init)).motion_buffer_head
      = (try_enqueue { mark_segment 100000 with calcready := true }
          State.init).motion_buffer_head ∧
    (∀ j, j ≠ 0 →
      (isr false (try_enqueue { mark_segment 100000 with calcready := true } State.init)).slot j
        = (try_enqueue { mark_segment 100000 with calcready := true } State.init).slot j) ∧
    (isr_dispatch false (try_enqueue { mark_segment 100000 with calcready := true }
      State.init)).timerClk = 100000 ∧
    (isr false (try_enqueue { mark_segment 100000 with calcready := true }
      State.init)).timerClk = (if (100000 : Int) ≥ 65535 then 100000 - 65535 else 0) :=
  C20_dispatch_effect false (try_enqueue { mark_segment 100000 with calcready := true } State.init)
    0 100000 (by decide) (by decide) (by decide) (by decide) (by decide) (by decide)

/-! ## Integer conversions: basic facts -/

theorem truncToLong_bounds (q : ℚ) (h : 0 ≤ q) :
    ((truncToLong q : Int) : ℚ) ≤ q ∧ q < ((truncToLong q : Int) : ℚ) + 1 ∧
      (0 : ℚ) ≤ ((truncToLong q : Int) : ℚ) := by
  unfold truncToLong
  rw [if_pos h]
  refine ⟨Int.floor_le q, Int.lt_floor_add_one q, ?_⟩
  exact_mod_cast Int.floor_nonneg.mpr h

theorem toLong_of_small (x : Int) (h0 : 0 ≤ x) (h1 : x < 2 ^ 31) :
    toLong (x % 2 ^ 32) = x := by
  unfold toLong
  omega

theorem toU32_of_small (x : Int) (h0 : 0 ≤ x) (h1 : x < 2 ^ 32) :
    ((toU32 x : Nat) : ℚ) = ((x : Int) : ℚ) := by
  have : ((toU32 x : Nat) : Int) = x := by
    unfold toU32
    omega
  exact_mod_cast this

/-! ## Homing sequencer: the poll loop -/

theorem poll_vzero_ends (VZERO : Nat) (axis : AxisEnum) (with_idle : Bool) (pre : List Nat)
    (r : Nat) (rest : List Nat) (log : List BusEvent)
    (hpre : ∀ x ∈ pre, x &&& VZERO ≠ VZERO) (hr : r &&& VZERO = VZERO) :
    poll_vzero VZERO axis with_idle (pre ++ r :: rest) log =
      some { log := log ++ (List.replicate pre.length
                (BusEvent.read RAMP_STAT axis :: (if with_idle then [BusEvent.idle] else []))).flatten
              ++ [BusEvent.read RAMP_STAT axis],
             reads := rest } := by
  induction pre generalizing log with
  | nil => simp [poll_vzero, hr]
  | cons x xs ih =>
    have hx : x &&& VZERO ≠ VZERO := hpre x (List.mem_cons_self _ _)
    have hxs : ∀ y ∈ xs, y &&& VZERO ≠ VZERO := fun y hy => hpre y (List.mem_cons_of_mem _ hy)
    rw [List.cons_append, poll_vzero, if_pos hx, ih _ hxs]
    simp only [List.length_cons, List.replicate_succ, List.flatten_cons, List.append_assoc,
      List.cons_append]

theorem poll_vzero_log (VZERO : Nat) (axis : AxisEnum) (with_idle : Bool) (reads : List Nat)
    (log : List BusEvent) (out : HomingState)
    (h : poll_vzero VZERO axis with_idle reads log = some out) :
    ∃ ev, out.log = log ++ ev ∧ ev.filterMap position_write = [] := by
  induction reads generalizing log with
  | nil => simp [poll_vzero] at h
  | cons r rs ih =>
    rw [poll_vzero] at h
    by_cases hr : r &&& VZERO ≠ VZERO
    · rw [if_pos hr] at h
      obtain ⟨ev, h1, h2⟩ := ih _ h
      refine ⟨BusEvent.read RAMP_STAT axis :: (if with_idle then [BusEvent.idle] else []) ++ ev,
        ?_, ?_⟩
      · rw [h1]; simp
      · cases with_idle <;> simp [position_write, h2]
    · rw [if_neg hr] at h
      refine ⟨[BusEvent.read RAMP_STAT axis], ?_, ?_⟩
      · simp only [Option.some.injEq] at h
        rw [← h]
      · simp [position_write]

theorem count_poll_events (axis : AxisEnum) (n : Nat) :
    ((List.replicate n [BusEvent.read RAMP_STAT axis, BusEvent.idle]).flatten).count
        (BusEvent.read RAMP_STAT axis) = n ∧
    ((List.replicate n [BusEvent.read RAMP_STAT axis, BusEvent.idle]).flatten).count
        BusEvent.idle = n := by
  induction n with
  | zero => simp
  | succ k ih =>
    obtain ⟨h1, h2⟩ := ih
    simp only [List.replicate_succ, List.flatten_cons, List.count_append, h1, h2]
    constructor
    · simp [List.count_cons]; omega
    · simp [List.count_cons]; omega

theorem homing_params_axis (cfg : HomingConfig) (axis : AxisEnum) (feed : ℚ) (p : HomingParams)
    (hp : homing_params cfg axis feed = some p) : p.axis_to_home = axis ∧ axis ≠ E_AXIS := by
  cases axis <;> simp [homing_params] at hp <;> subst hp <;> simp

/-! ## C12: the poll loops of switch-based homing -/

theorem homing_switch_trace (cfg : HomingConfig) (axis : AxisEnum) (feed : ℚ)
    (p : HomingParams) (hp : homing_params cfg axis feed = some p)
    (hsw : p.sg_active = false) (pre1 pre2 rest : List Nat) (r1 r2 : Nat)
    (h1 : ∀ x ∈ pre1, x &&& cfg.VZERO ≠ cfg.VZERO) (hr1 : r1 &&& cfg.VZERO = cfg.VZERO)
    (h2 : ∀ x ∈ pre2, x &&& cfg.VZERO ≠ cfg.VZERO) (hr2 : r2 &&& cfg.VZERO = cfg.VZERO) :
    TMC5130_homing cfg axis feed { log := [], reads := pre1 ++ r1 :: (pre2 ++ r2 :: rest) } =
      some
        { log :=
            [BusEvent.enable axis,
             BusEvent.write { address := RAMPMODE, data := cfg.VELOCITY_MODE_NEG, axis := axis },
             BusEvent.write { address := VMAX, data := toU32 p.homing_speed, axis := axis },
             BusEvent.write { address := SW_MODE, data := p.sw_register, axis := axis }] ++
            (List.replicate pre1.length
              [BusEvent.read RAMP_STAT axis, BusEvent.idle]).flatten ++
            [BusEvent.read RAMP_STAT axis,
             BusEvent.write { address := RAMPMODE, data := cfg.HOLD_MODE, axis := axis },
             BusEvent.write { address := XACTUAL, data := 0, axis := axis },
             BusEvent.write { address := XTARGET, data := 0, axis := axis },
             BusEvent.write { address := SW_MODE, data := 0, axis := axis },
             BusEvent.write { address := RAMPMODE, data := cfg.POSITIONING_MODE, axis := axis },
             BusEvent.write { address := VMAX, data := toU32 p.homing_speed, axis := axis },
             BusEvent.write { address := DMAX, data := 0xFFFF, axis := axis },
             BusEvent.write { address := XTARGET, data := toU32 p.homing_retract, axis := axis },
             BusEvent.delay 200] ++
            (List.replicate pre2.length
              [BusEvent.read RAMP_STAT axis, BusEvent.idle]).flatten ++
            [BusEvent.read RAMP_STAT axis,
             BusEvent.write { address := SW_MODE, data := p.sw_register, axis := axis },
             BusEvent.write { address := RAMPMODE, data := cfg.HOLD_MODE, axis := axis },
             BusEvent.write { address := XACTUAL, data := 0, axis := axis },
             BusEvent.write { address := XTARGET, data := 0, axis := axis },
             BusEvent.write { address := RAMPMODE, data := cfg.POSITIONING_MODE, axis := axis }],
          reads := rest } := by
  obtain ⟨hax, _⟩ := homing_params_axis cfg axis feed p hp
  unfold TMC5130_homing
  simp only [hp, hsw, Bool.false_eq_true, if_false]
  unfold homing_switch
  simp only [HomingState.write, HomingState.event, hax]
  rw [poll_vzero_ends cfg.VZERO axis true pre1 r1 _ _ h1 hr1]
  simp only [Option.some_bind, if_true]
  rw [poll_vzero_ends cfg.VZERO axis true pre2 r2 _ _ h2 hr2]
  simp only [Option.some_bind, if_true, List.nil_append, List.append_assoc, List.cons_append]

/-- C12. Switch-based homing of axis X, Y or Z: if the first `n1` status reads
lack the zero-velocity bit and the next one has it, and after that the first
`n2` reads lack it and the next one has it, the call returns; its trace is the
enable call and three writes, then `n1` times (read, idle) and one more read,
then the eight writes that end with `XTARGET = homing_retract` and the delay,
then `n2` times (read, idle) and one more read, then the five final writes.
Each poll loop thus makes `n + 1` reads and `n` idle calls. -/
theorem C12_switch_homing_polls (cfg : HomingConfig) (axis : AxisEnum) (feed : ℚ)
    (p : HomingParams) (hp : homing_params cfg axis feed = some p)
    (hsw : p.sg_active = false) (pre1 pre2 rest : List Nat) (r1 r2 : Nat)
    (h1 : ∀ x ∈ pre1, x &&& cfg.VZERO ≠ cfg.VZERO) (hr1 : r1 &&& cfg.VZERO = cfg.VZERO)
    (h2 : ∀ x ∈ pre2, x &&& cfg.VZERO ≠ cfg.VZERO) (hr2 : r2 &&& cfg.VZERO = cfg.VZERO) :
    TMC5130_homing cfg axis feed { log := [], reads := pre1 ++ r1 :: (pre2 ++ r2 :: rest) } =
      some
        { log :=
            [BusEvent.enable axis,
             BusEvent.write { address := RAMPMODE, data := cfg.VELOCITY_MODE_NEG, axis := axis },
             BusEvent.write { address := VMAX, data := toU32 p.homing_speed, axis := axis },
             BusEvent.write { address := SW_MODE, data := p.sw_register, axis := axis }] ++
            (List.replicate pre1.length
              [BusEvent.read RAMP_STAT axis, BusEvent.idle]).flatten ++
            [BusEvent.read RAMP_STAT axis,
             BusEvent.write { address := RAMPMODE, data := cfg.HOLD_MODE, axis := axis },
             BusEvent.write { address := XACTUAL, data := 0, axis := axis },
             BusEvent.write { address := XTARGET, data := 0, axis := axis },
             BusEvent.write { address := SW_MODE, data := 0, axis := axis },
             BusEvent.write { address := RAMPMODE, data := cfg.POSITIONING_MODE, axis := axis },
             BusEvent.write { address := VMAX, data := toU32 p.homing_speed, axis := axis },
             BusEvent.write { address := DMAX, data := 0xFFFF, axis := axis },
             BusEvent.write { address := XTARGET, data := toU32 p.homing_retract, axis := axis },
             BusEvent.delay 200] ++
            (List.replicate pre2.length
              [BusEvent.read RAMP_STAT axis, BusEvent.idle]).flatten ++
            [BusEvent.read RAMP_STAT axis,
             BusEvent.write { address := SW_MODE, data := p.sw_register, axis := axis },
             BusEvent.write { address := RAMPMODE, data := cfg.HOLD_MODE, axis := axis },
             BusEvent.write { address := XACTUAL, data := 0, axis := axis },
             BusEvent.write { address := XTARGET, data := 0, axis := axis },
             BusEvent.write { address := RAMPMODE, data := cfg.POSITIONING_MODE, axis := axis }],
          reads := rest } ∧
    (∀ out, TMC5130_homing cfg axis feed
        { log := [], reads := pre1 ++ r1 :: (pre2 ++ r2 :: rest) } = some out →
      out.log.count (BusEvent.read RAMP_STAT axis) = (pre1.length + 1) + (pre2.length + 1) ∧
      out.log.count BusEvent.idle = pre1.length + pre2.length) := by
  have heq := homing_switch_trace cfg axis feed p hp hsw pre1 pre2 rest r1 r2 h1 hr1 h2 hr2
  refine ⟨heq, ?_⟩
  intro out hout
  rw [heq] at hout
  simp only [Option.some.injEq] at hout
  rw [← hout]
  obtain ⟨c1, c2⟩ := count_poll_events axis pre1.length
  obtain ⟨c3, c4⟩ := count_poll_events axis pre2.length
  constructor
  · simp only [List.count_append, List.count_cons, c1, c3]
    simp
    omega
  · simp only [List.count_append, List.count_cons, c2, c4]
    simp

/-- C12, instance: every status read reports zero velocity. Homing of X
returns after two status reads and no idle call, and `XTARGET = 400`, the
retract distance, is written between the two reads. -/
theorem C12_switch_homing_polls_witness :
    TMC5130_homing example_homing_config X_AXIS 50 { log := [], reads := [0x400, 0x400] } =
      some
        { log :=
            [BusEvent.enable X_AXIS,
             BusEvent.write { address := RAMPMODE, data := 2, axis := X_AXIS },
             BusEvent.write { address := VMAX, data := 4000, axis := X_AXIS },
             BusEvent.write { address := SW_MODE, data := 45, axis := X_AXIS },
             BusEvent.read RAMP_STAT X_AXIS,
             BusEvent.write { address := RAMPMODE, data := 3, axis := X_AXIS },
             BusEvent.write { address := XACTUAL, data := 0, axis := X_AXIS },
             BusEvent.write { address := XTARGET, data := 0, axis := X_AXIS },
             BusEvent.write { address := SW_MODE, data := 0, axis := X_AXIS },
             BusEvent.write { address := RAMPMODE, data := 0, axis := X_AXIS },
             BusEvent.write { address := VMAX, data := 4000, axis := X_AXIS },
             BusEvent.write { address := DMAX, data := 65535, axis := X_AXIS },
             BusEvent.write { address := XTARGET, data := 400, axis := X_AXIS },
             BusEvent.delay 200,
             BusEvent.read RAMP_STAT X_AXIS,
             BusEvent.write { address := SW_MODE, data := 45, axis := X_AXIS },
             BusEvent.write { address := RAMPMODE, data := 3, axis := X_AXIS },
             BusEvent.write { address := XACTUAL, data := 0, axis := X_AXIS },
             BusEvent.write { address := XTARGET, data := 0, axis := X_AXIS },
             BusEvent.write { address := RAMPMODE, data := 0, axis := X_AXIS }],
          reads := [] } :=
  (C12_switch_homing_polls example_homing_config X_AXIS 50
    { axis_to_home := X_AXIS, homing_retract := 400, homing_speed := 4000,
      homing_bump_speed := 2000, sw_register := 45, sg_active := false,
      stallguardthreshold := 0, motor_direction := 0 }
    (by decide!) rfl [] [] [] 0x400 0x400 (by simp) (by decide) (by simp) (by decide)).1

/-! ## C13: the position registers at the end of switch-based homing -/

/-- C13 as stated fails. Homing of X with every status read reporting zero
velocity writes the position registers in this order: `XACTUAL = 0`,
`XTARGET = 0`, `XTARGET = 400` (the retract distance), `XACTUAL = 0`,
`XTARGET = 0`. The position counter is zeroed again after the retract target
has been written, and the last value written to `XTARGET` is 0, not the
retract distance. -/
theorem C13_counterexample_zeroed_after_retract :
    (TMC5130_homing example_homing_config X_AXIS 50 { log := [], reads := [0x400, 0x400] }).map
        (fun out => out.log.filterMap position_write)
      = some [(XACTUAL, 0), (XTARGET, 0), (XTARGET, 400), (XACTUAL, 0), (XTARGET, 0)] := by
  decide!

/-- C13 (amended). Whenever switch-based homing of axis X, Y or Z returns, its
writes to the position registers are, in this order: `XACTUAL = 0` and
`XTARGET = 0` at the endstop, `XTARGET = homing_retract`, and, after the
retract has ended, again `XACTUAL = 0` and `XTARGET = 0`. The driver's
counters are thus zero at the retract position. -/
theorem C13_switch_homing_position_writes (cfg : HomingConfig) (axis : AxisEnum) (feed : ℚ)
    (p : HomingParams) (hp : homing_params cfg axis feed = some p)
    (hsw : p.sg_active = false) (h out : HomingState)
    (hret : TMC5130_homing cfg axis feed h = some out) :
    (out.log.drop h.log.length).filterMap position_write =
      [(XACTUAL, 0), (XTARGET, 0), (XTARGET, toU32 p.homing_retract), (XACTUAL, 0),
        (XTARGET, 0)] := by
  unfold TMC5130_homing at hret
  simp only [hp, hsw, Bool.false_eq_true, if_false] at hret
  unfold homing_switch at hret
  simp only [HomingState.write, HomingState.event] at hret
  simp only [Option.bind_eq_some, Option.some.injEq] at hret
  obtain ⟨o1, hq1, o2, hq2, hout⟩ := hret
  obtain ⟨ev1, hl1, hf1⟩ := poll_vzero_log _ _ _ _ _ _ hq1
  obtain ⟨ev2, hl2, hf2⟩ := poll_vzero_log _ _ _ _ _ _ hq2
  rw [← hout]
  simp only [hl2, hl1, List.append_assoc, List.drop_left, List.filterMap_append, hf1, hf2]
  simp [position_write]

/-- C13, instance: homing of X with every status read reporting zero
velocity. -/
theorem C13_switch_homing_position_writes_witness :
    ((({ log := [BusEvent.enable X_AXIS,
             BusEvent.write { address := RAMPMODE, data := 2, axis := X_AXIS },
             BusEvent.write { address := VMAX, data := 4000, axis := X_AXIS },
             BusEvent.write { address := SW_MODE, data := 45, axis := X_AXIS },
             BusEvent.read RAMP_STAT X_AXIS,
             BusEvent.write { address := RAMPMODE, data := 3, axis := X_AXIS },
             BusEvent.write { address := XACTUAL, data := 0, axis := X_AXIS },
             BusEvent.write { address := XTARGET, data := 0, axis := X_AXIS },
             BusEvent.write { address := SW_MODE, data := 0, axis := X_AXIS },
             BusEvent.write { address := RAMPMODE, data := 0, axis := X_AXIS },
             BusEvent.write { address := VMAX, data := 4000, axis := X_AXIS },
             BusEvent.write { address := DMAX, data := 65535, axis := X_AXIS },
             BusEvent.write { address := XTARGET, data := 400, axis := X_AXIS },
             BusEvent.delay 200,
             BusEvent.read RAMP_STAT X_AXIS,
             BusEvent.write { address := SW_MODE, data := 45, axis := X_AXIS },
             BusEvent.write { address := RAMPMODE, data := 3, axis := X_AXIS },
             BusEvent.write { address := XACTUAL, data := 0, axis := X_AXIS },
             BusEvent.write { address := XTARGET, data := 0, axis := X_AXIS },
             BusEvent.write { address := RAMPMODE, data := 0, axis := X_AXIS }],
         reads := [] } : HomingState).log.drop
        ({ log := [], reads := [0x400, 0x400] } : HomingState).log.length).filterMap
        position_write) =
      [(XACTUAL, 0), (XTARGET, 0), (XTARGET, toU32 400), (XACTUAL, 0), (XTARGET, 0)] :=
  C13_switch_homing_position_writes example_homing_config X_AXIS 50
    { axis_to_home := X_AXIS, homing_retract := 400, homing_speed := 4000,
      homing_bump_speed := 2000, sw_register := 45, sg_active := false,
      stallguardthreshold := 0, motor_direction := 0 }
    (by decide!) rfl { log := [], reads := [0x400, 0x400] } _ (by decide!)

/-! ## C21: dispatch interrupt with a running countdown -/

/-- C21. When `isr` runs with a nonzero countdown it appends nothing to the
bus log and leaves head, tail, the full flag and every segment slot unchanged;
the state after the call differs from the state before it in the countdown
`timerClk` and the hardware counter `TCNT1` only. -/
theorem C21_waiting_frame (nullread : Bool) (s : State) (h : s.timerClk ≠ 0) :
    (isr nullread s).bus = s.bus ∧
    (isr nullread s).motion_buffer_head = s.motion_buffer_head ∧
    (isr nullread s).motion_buffer_tail = s.motion_buffer_tail ∧
    (isr nullread s).motion_buffer_full = s.motion_buffer_full ∧
    (isr nullread s).motion_buffer = s.motion_buffer ∧
    isr nullread s =
      { s with timerClk := (isr nullread s).timerClk, TCNT1 := (isr nullread s).TCNT1 } := by
  have hframe : isr nullread s =
      { s with timerClk := (isr nullread s).timerClk, TCNT1 := (isr nullread s).TCNT1 } := by
    unfold isr
    rw [isr_dispatch_waiting nullread s h]
    exact isr_rearm_frame s
  refine ⟨?_, ?_, ?_, ?_, ?_, hframe⟩ <;> rw [hframe]

/-- C21, instance: the full ring with a countdown of 100000 ticks. -/
theorem C21_waiting_frame_witness :
    (isr false { full_ring with timerClk := 100000 }).bus = full_ring.bus ∧
    (isr false { full_ring with timerClk := 100000 }).motion_buffer_head
      = full_ring.motion_buffer_head ∧
    (isr false { full_ring with timerClk := 100000 }).motion_buffer_tail
      = full_ring.motion_buffer_tail ∧
    (isr false { full_ring with timerClk := 100000 }).motion_buffer_full
      = full_ring.motion_buffer_full ∧
    (isr false { full_ring with timerClk := 100000 }).motion_buffer = full_ring.motion_buffer ∧
    isr false { full_ring with timerClk := 100000 } =
      { ({ full_ring with timerClk := 100000 } : State) with
        timerClk := (isr false { full_ring with timerClk := 100000 }).timerClk,
        TCNT1 := (isr false { full_ring with timerClk := 100000 }).TCNT1 } :=
  C21_waiting_frame false { full_ring with timerClk := 100000 } (by decide)

/-! ## C28: the reads of the readiness flag -/

/-- C28. With the empty ring buffer of the initial state and a countdown of
zero, `get_current_motion_block` returns null and the condition of `isr` reads
the readiness flag through that null pointer; the outcome of the call does not
depend on the value read (the countdown becomes 2000 ticks and is rearmed). -/
theorem C28_flag_read_through_null :
    State.init.timerClk = 0 ∧
    get_current_motion_block State.init = none ∧
    isr_flag_reads State.init = [FlagRead.null] ∧
    isr true State.init = isr false State.init := by
  decide

/-! ## C27: the number of interrupts of one countdown -/

theorem isr_running (nullread : Bool) (s : State) (h : 0 < s.timerClk) :
    (65535 ≤ s.timerClk →
      (isr nullread s).timerClk = s.timerClk - 65535 ∧ (isr nullread s).TCNT1 = 1) ∧
    (s.timerClk < 65535 → (isr nullread s).timerClk = 0) := by
  have hne : s.timerClk ≠ 0 := by omega
  unfold isr
  rw [isr_dispatch_waiting nullread s hne]
  unfold isr_rearm
  constructor
  · intro hge
    rw [if_pos hge]
    exact ⟨rfl, rfl⟩
  · intro hlt
    rw [if_neg (by omega)]
    by_cases h2 : toU32 s.timerClk > (s.TCNT1 + 100) % 2 ^ 32
    · simp only [if_pos h2]
    · simp only [if_neg h2]

theorem run_isr_countdown (nrs : List Bool) (s : State) (h : 0 < s.timerClk)
    (hk : 65535 * ((nrs.length : Int) - 1) < s.timerClk) :
    (65535 * (nrs.length : Int) < s.timerClk →
      (run_calls s (nrs.map Call.isr)).timerClk = s.timerClk - 65535 * nrs.length) ∧
    (s.timerClk ≤ 65535 * (nrs.length : Int) → 0 < nrs.length →
      (run_calls s (nrs.map Call.isr)).timerClk = 0) := by
  induction nrs generalizing s with
  | nil =>
    constructor
    · intro _; simp [run_calls]
    · intro _ h0; simp at h0
  | cons nr rest ih =>
    have hstep := isr_running nr s h
    have hrun : run_calls s ((nr :: rest).map Call.isr)
        = run_calls (isr nr s) (rest.map Call.isr) := by
      simp [run_calls, Call.run]
    rw [hrun]
    simp only [List.length_cons, Nat.cast_add, Nat.cast_one] at hk ⊢
    by_cases hge : 65535 ≤ s.timerClk
    · obtain ⟨hclk, _⟩ := hstep.1 hge
      by_cases hz : s.timerClk = 65535
      · -- the countdown reaches zero in this call, which is then the last one
        have hrest : rest = [] := by
          cases rest with
          | nil => rfl
          | cons x xs => simp only [List.length_cons, Nat.cast_add, Nat.cast_one] at hk; omega
        subst hrest
        constructor
        · intro hlt; simp at hlt; omega
        · intro _ _
          simp only [List.map_nil, run_calls, List.foldl_nil]
          rw [hclk]; omega
      · have hpos : 0 < (isr nr s).timerClk := by rw [hclk]; omega
        have hk2 : 65535 * ((rest.length : Int) - 1) < (isr nr s).timerClk := by
          rw [hclk]; omega
        obtain ⟨ih1, ih2⟩ := ih (isr nr s) hpos hk2
        constructor
        · intro hlt
          rw [ih1 (by rw [hclk]; omega), hclk]; ring
        · intro hle _
          have hlen : 0 < rest.length := by
            cases rest with
            | nil => simp at hle; omega
            | cons x xs => simp
          exact ih2 (by rw [hclk]; omega) hlen
    · have hclk := hstep.2 (by omega)
      have hrest : rest = [] := by
        cases rest with
        | nil => rfl
        | cons x xs => simp only [List.length_cons, Nat.cast_add, Nat.cast_one] at hk; omega
      subst hrest
      constructor
      · intro hlt; simp at hlt; omega
      · intro _ _
        simp only [List.map_nil, run_calls, List.foldl_nil]
        exact hclk

/-- C27. For every countdown value `v > 0`: after `k` consecutive `isr` calls
the countdown is still positive when `k < ceil(v / 65535)` (it is
`v - 65535 * k`), and it is zero when `k = ceil(v / 65535)`; a call that starts
with a countdown of at least 65535 subtracts exactly 65535 and sets the
hardware counter to 1, and a call that starts with a countdown between 1 and
65534 sets the countdown to zero. -/
theorem C27_rearm_count (s : State) (nrs : List Bool) (h : 0 < s.timerClk) :
    (nrs.length < (⌈(s.timerClk : ℚ) / 65535⌉).toNat →
      (run_calls s (nrs.map Call.isr)).timerClk = s.timerClk - 65535 * nrs.length ∧
      0 < (run_calls s (nrs.map Call.isr)).timerClk) ∧
    (nrs.length = (⌈(s.timerClk : ℚ) / 65535⌉).toNat →
      (run_calls s (nrs.map Call.isr)).timerClk = 0) ∧
    (∀ nullread, 65535 ≤ s.timerClk →
      (isr nullread s).timerClk = s.timerClk - 65535 ∧ (isr nullread s).TCNT1 = 1) ∧
    (∀ nullread, s.timerClk < 65535 → (isr nullread s).timerClk = 0) := by
  have hq : (0 : ℚ) < (s.timerClk : ℚ) / 65535 := by
    have : (0 : ℚ) < (s.timerClk : ℚ) := by exact_mod_cast h
    positivity
  have hceil : 0 < ⌈(s.timerClk : ℚ) / 65535⌉ := Int.ceil_pos.mpr hq
  have hlt_iff : ∀ z : Int, z < ⌈(s.timerClk : ℚ) / 65535⌉ ↔ 65535 * z < s.timerClk := by
    intro z
    rw [Int.lt_ceil, lt_div_iff₀ (by norm_num : (0 : ℚ) < 65535)]
    constructor
    · intro hz
      have : ((z * 65535 : Int) : ℚ) < (s.timerClk : ℚ) := by push_cast; exact hz
      have := Int.cast_lt.mp this
      omega
    · intro hz
      have : ((z * 65535 : Int) : ℚ) < (s.timerClk : ℚ) := by
        apply Int.cast_lt.mpr; omega
      push_cast at this; exact this
  refine ⟨?_, ?_, fun nr hge => (isr_running nr s h).1 hge,
    fun nr hlt => (isr_running nr s h).2 hlt⟩
  · intro hk
    have hk1 : (nrs.length : Int) < ⌈(s.timerClk : ℚ) / 65535⌉ := by omega
    have hk2 := (hlt_iff _).mp hk1
    have := (run_isr_countdown nrs s h (by omega)).1 hk2
    exact ⟨this, by rw [this]; omega⟩
  · intro hk
    have hk0 : ((nrs.length : Int)) = ⌈(s.timerClk : ℚ) / 65535⌉ := by omega
    have hk1 : (nrs.length : Int) - 1 < ⌈(s.timerClk : ℚ) / 65535⌉ := by omega
    have hk2 := (hlt_iff _).mp hk1
    have hk3 : ¬ (65535 * (nrs.length : Int) < s.timerClk) := by
      rw [← hlt_iff]; omega
    exact (run_isr_countdown nrs s h hk2).2 (by omega) (by omega)

/-- C27, instance: a countdown of 140000 ticks takes three calls; after two
calls 8930 ticks are left, after the third none. -/
theorem C27_rearm_count_witness :
    0 < ({ State.init with timerClk := 140000 } : State).timerClk ∧
    (run_calls { State.init with timerClk := 140000 } ([false, false].map Call.isr)).timerClk
      = 8930 ∧
    (run_calls { State.init with timerClk := 140000 }
      ([false, false, false].map Call.isr)).timerClk = 0 :=
  ⟨by decide,
    ((C27_rearm_count { State.init with timerClk := 140000 } [false, false] (by decide)).1
      (by decide!)).1,
    (C27_rearm_count { State.init with timerClk := 140000 } [false, false, false]
      (by decide)).2.1 (by decide!)⟩

/-! ## C23: the configuration words of stall-based homing -/

/-- C23. Stall-based homing of the X axis in the example stall configuration
(direction bit `0x10`), with both poll loops ending at their first read,
writes GCONF twice, at the start and at the end, and both times the word is
`0x1080 | 0x10`, whereas `TMC5130_init` with the same direction bit writes
`0x1084 | 0x10`: the word at the end is the one that disabled
smooth-stepping, not the one of the initializer. -/
theorem C23_stall_final_gconf :
    (TMC5130_homing example_stall_config X_AXIS 50 { log := [], reads := [0x400, 0x400] }).map
        (fun h => register_writes GCONF h.log) = some [0x1080 ||| 0x10, 0x1080 ||| 0x10] ∧
    register_writes GCONF
        ((TMC5130_init (fun v => v) (fun v => v <<< 8) (fun v => v <<< 16) X_AXIS 16 8 0x10 0x2D
          State.init).bus.map BusEvent.write) = [0x1084 ||| 0x10] ∧
    (0x1080 ||| 0x10 : Nat) ≠ 0x1084 ||| 0x10 := by
  decide!

/-! ## C29: the reported counter in the four-argument position call -/

/-- C29. After the scenario block has been calculated from the initial state,
the counter `pos[X]` is 1600 and the reported counter `count_position[X]` is
0. The call `set_position(1600, 0, 0, 0)` then leaves `count_position[X]` at
0, although its argument is 1600, while the four single-axis calls
`set_position(X, 1600)`, `set_position(Y, 0)`, `set_position(Z, 0)`,
`set_position(E, 0)` set it to 1600. -/
theorem C29_count_position_skipped :
    (run_position_calls 3 0 PositionState.init
      [PositionCall.pipeline (Call.plan scenario_block),
       PositionCall.pipeline Call.calculate]).pos.get X_AXIS = 1600 ∧
    (run_position_calls 3 0 PositionState.init
      [PositionCall.pipeline (Call.plan scenario_block),
       PositionCall.pipeline Call.calculate]).count_position.get X_AXIS = 0 ∧
    (run_position_calls 3 0 PositionState.init
      [PositionCall.pipeline (Call.plan scenario_block),
       PositionCall.pipeline Call.calculate,
       PositionCall.set_position 1600 0 0 0]).count_position.get X_AXIS = 0 ∧
    (run_position_calls 3 0 PositionState.init
      [PositionCall.pipeline (Call.plan scenario_block),
       PositionCall.pipeline Call.calculate,
       PositionCall.set_position_axis X_AXIS 1600,
       PositionCall.set_position_axis Y_AXIS 0,
       PositionCall.set_position_axis Z_AXIS 0,
       PositionCall.set_position_axis E_AXIS 0]).count_position.get X_AXIS = 1600 := by
  decide!

/-! ## C24: the rescale of a long move -/

/-- C24. The block of 65536 steps on X (rates 0 / 4000 / 0) satisfies
`0 < steps <= step_event_count` and has a nominal rate below 65536; the
formula `steps * nominal_rate / step_event_count` gives 4000, but the segment
`calculate` emits for it from the initial state has a scale factor of 0 and a
nominal speed of 0 on X. -/
theorem C24_long_move_speed_lost :
    0 < long_move_block.steps.get X_AXIS ∧
    long_move_block.steps.get X_AXIS ≤ long_move_block.step_event_count ∧
    long_move_block.nominal_rate < 65536 ∧
    long_move_block.steps.get X_AXIS * long_move_block.nominal_rate
      / long_move_block.step_event_count = 4000 ∧
    scale_axis long_move_block X_AXIS = 0 ∧
    (emitted (planned [long_move_block])).map (fun r => r.2.nominal_speed.get X_AXIS)
      = some 0 := by
  decide!

/-! ## C25: the dominant axis -/

theorem scale_axis_dominant (blk : block_t) (a : AxisEnum)
    (hdom : blk.steps.get a = (blk.step_event_count : Int)) (hpos : 0 < blk.step_event_count)
    (hlt : blk.step_event_count < 65536) : scale_axis blk a = 65536 := by
  unfold scale_axis
  have h1 : toU32 (blk.steps.get a) = blk.step_event_count := by
    rw [hdom]; unfold toU32; omega
  rw [h1, Nat.shiftLeft_eq]
  have h2 : blk.step_event_count * 2 ^ 16 % 2 ^ 32 = blk.step_event_count * 2 ^ 16 := by
    apply Nat.mod_eq_of_lt; omega
  rw [h2]
  exact Nat.mul_div_cancel_left _ hpos

theorem rescale_unit (r : Nat) (hr : r < 65536) : ((65536 * r) % 2 ^ 32) >>> 16 = r := by
  have h : (65536 * r) % 2 ^ 32 = 65536 * r := by
    apply Nat.mod_eq_of_lt; omega
  rw [Nat.shiftRight_eq_div_pow, h]
  exact Nat.mul_div_cancel_left r (by norm_num)

/-- C25. For an axis whose step count equals the step-event count of the
block, with `0 < steps < 65536`, and rates below 65536, the segment
`calculate` emits has on that axis the nominal rate as nominal speed, the
smaller of initial rate and nominal rate as initial speed, and as final speed
the final rate raised to the floor 10 and, on Z and E, lowered to the ceiling
800. -/
theorem C25_dominant_axis_passthrough (s : State) (blk : block_t) (seg : motion_block_t)
    (a : AxisEnum) (hwf : RingWf s) (hem : emitted s = some (blk, seg))
    (hdom : blk.steps.get a = (blk.step_event_count : Int)) (hpos : 0 < blk.step_event_count)
    (hlt : blk.step_event_count < 65536) (hi : blk.initial_rate < 65536)
    (hn : blk.nominal_rate < 65536) (hf : blk.final_rate < 65536) :
    seg.nominal_speed.get a = blk.nominal_rate ∧
    seg.initial_speed.get a = min blk.initial_rate blk.nominal_rate ∧
    seg.final_speed.get a =
      (if a = Z_AXIS ∨ a = E_AXIS then min 800 (max 10 blk.final_rate)
       else max 10 blk.final_rate) := by
  have hsteps : blk.steps.get a ≠ 0 := by rw [hdom]; omega
  have hv := emitted_segment_values blk (s.slot s.motion_buffer_head)
    s.motion_buffer_block_old s.pos s.TEMPtimerClk a
  rw [← emitted_eq s blk seg hwf hem,
    (calculate_axes_moving blk _ _ a hsteps).1] at hv
  simp only [axis_values, Prod.mk.injEq] at hv
  obtain ⟨_, hini, hnom, hfin, _⟩ := hv
  have hsc := scale_axis_dominant blk a hdom hpos hlt
  have hnom2 : ramp_nominal_speed blk a = blk.nominal_rate := by
    unfold ramp_nominal_speed; rw [hsc]; exact rescale_unit _ hn
  refine ⟨by rw [hnom, hnom2], ?_, ?_⟩
  · rw [hini]
    unfold ramp_initial_speed
    simp only [hnom2, hsc, rescale_unit _ hi]
    split_ifs with h <;> omega
  · rw [hfin]
    unfold ramp_final_speed
    simp only [hsc, rescale_unit _ hf]
    by_cases hza : a = Z_AXIS ∨ a = E_AXIS
    · simp only [hza, decide_True, Bool.true_and, decide_eq_true_eq, if_true]
      by_cases h10 : blk.final_rate < 10
      · have hmax : max 10 blk.final_rate = 10 := by omega
        simp [h10, hmax]
      · by_cases h800 : blk.final_rate > 800
        · have hmax : max 10 blk.final_rate = blk.final_rate := by omega
          have hmin : min 800 blk.final_rate = 800 := by omega
          simp only [if_neg h10, if_pos h800, hmax, hmin]
        · have hmax : max 10 blk.final_rate = blk.final_rate := by omega
          have hmin : min 800 blk.final_rate = blk.final_rate := by omega
          simp only [if_neg h10, if_neg h800, hmax, hmin]
    · simp only [hza, decide_False, Bool.false_and, if_false]
      by_cases h10 : blk.final_rate < 10
      · have hmax : max 10 blk.final_rate = 10 := by omega
        simp [h10, hmax]
      · have hmax : max 10 blk.final_rate = blk.final_rate := by omega
        simp [h10, hmax]

/-- C25, instance: the Z block from the initial state (400 steps, rates
0 / 4000 / 0): nominal speed 4000, initial speed 0, final speed 10. -/
theorem C25_dominant_axis_passthrough_witness :
    ((calculate (planned [z_block])).slot 0).nominal_speed.get Z_AXIS = z_block.nominal_rate ∧
    ((calculate (planned [z_block])).slot 0).initial_speed.get Z_AXIS
      = min z_block.initial_rate z_block.nominal_rate ∧
    ((calculate (planned [z_block])).slot 0).final_speed.get Z_AXIS =
      (if Z_AXIS = Z_AXIS ∨ Z_AXIS = E_AXIS then min 800 (max 10 z_block.final_rate)
       else max 10 z_block.final_rate) :=
  C25_dominant_axis_passthrough (planned [z_block]) z_block
    ((calculate (planned [z_block])).slot 0) Z_AXIS (by decide) rfl (by decide) (by decide)
    (by decide) (by decide) (by decide) (by decide)

/-! ## Segment calculator: the rescale of a step count below 65536 -/

theorem ramp_nominal_speed_in_range (blk : block_t) (a : AxisEnum) (n : Nat)
    (hs : blk.steps.get a = (n : Int)) (hle : n ≤ blk.step_event_count)
    (hn : n < 65536) (hc : 0 < blk.step_event_count) (hr : blk.nominal_rate < 65536) :
    n * blk.nominal_rate / blk.step_event_count - 1 ≤ ramp_nominal_speed blk a ∧
    ramp_nominal_speed blk a ≤ n * blk.nominal_rate / blk.step_event_count := by
  have h1 : toU32 (blk.steps.get a) = n := by
    rw [hs]; unfold toU32; omega
  have h2 : n * 2 ^ 16 % 2 ^ 32 = n * 65536 := by
    rw [Nat.mod_eq_of_lt (by omega)]; norm_num
  have hsc : scale_axis blk a = n * 65536 / blk.step_event_count := by
    unfold scale_axis; rw [h1, Nat.shiftLeft_eq, h2]
  generalize hcdef : blk.step_event_count = c at *
  generalize hrdef : blk.nominal_rate = r at *
  -- the scale factor is at most 65536, so the product stays within 32 bits
  have hsc_le : scale_axis blk a ≤ 65536 := by
    rw [hsc]
    apply Nat.div_le_of_le_mul
    exact Nat.mul_le_mul_right _ hle
  have hprod : scale_axis blk a * r < 2 ^ 32 := by
    calc scale_axis blk a * r ≤ 65536 * r := Nat.mul_le_mul_right _ hsc_le
      _ < 2 ^ 32 := by omega
  have hnom : ramp_nominal_speed blk a = scale_axis blk a * r / 65536 := by
    unfold ramp_nominal_speed
    rw [hrdef, Nat.mod_eq_of_lt hprod, Nat.shiftRight_eq_div_pow]
  rw [hnom, hsc]
  set S := n * 65536 / c with hS
  set q := S * r / 65536 with hq
  have hS1 : S * c ≤ n * 65536 := Nat.div_mul_le_self _ _
  have hS2 : n * 65536 < (S + 1) * c := by
    have := Nat.lt_succ_self (n * 65536 / c)
    rw [Nat.div_lt_iff_lt_mul hc] at this
    exact this
  have hq1 : q * 65536 ≤ S * r := Nat.div_mul_le_self _ _
  have hq2 : S * r < (q + 1) * 65536 := by
    have := Nat.lt_succ_self (S * r / 65536)
    rw [Nat.div_lt_iff_lt_mul (by norm_num)] at this
    exact this
  constructor
  · -- lower bound: n * r < (q + 2) * c
    have key : n * r < (q + 2) * c := by
      have e1 : n * 65536 * r ≤ (S + 1) * c * r := Nat.mul_le_mul_right _ (Nat.le_of_lt hS2)
      have e2 : S * r * c < (q + 1) * 65536 * c := Nat.mul_lt_mul_of_pos_right hq2 hc
      have e3 : c * r < c * 65536 := Nat.mul_lt_mul_of_pos_left hr hc
      nlinarith [e1, e2, e3]
    have : n * r / c < q + 2 := (Nat.div_lt_iff_lt_mul hc).mpr key
    omega
  · apply (Nat.le_div_iff_mul_le hc).mpr
    have e1 : q * 65536 * c ≤ n * 65536 * r := by
      calc q * 65536 * c ≤ S * r * c := Nat.mul_le_mul_right _ hq1
        _ = S * c * r := by ring
        _ ≤ n * 65536 * r := Nat.mul_le_mul_right _ hS1
    nlinarith

/-! ## C26: the snapshot position follows the position counters -/

theorem isr_pos (nullread : Bool) (s : State) : (isr nullread s).pos = s.pos := by
  unfold isr
  rw [isr_rearm_frame]
  by_cases hclk : s.timerClk = 0
  · cases hcur : get_current_motion_block s with
    | none => rw [isr_dispatch_underrun nullread s hclk (Or.inl hcur)]
    | some i =>
      cases hr : (s.slot i).calcready with
      | false => rw [isr_dispatch_underrun nullread s hclk (Or.inr ⟨i, hcur, hr⟩)]
      | true => rw [isr_dispatch_ready nullread s i hclk hcur hr]; rfl
  · rw [isr_dispatch_waiting nullread s hclk]

theorem emitted_none_pos (s : State) (h : emitted s = none) : (calculate s).pos = s.pos := by
  cases hfree : get_next_free_motion_block s with
  | none => rw [calculate_of_full s hfree]
  | some i =>
    cases hp : s.planner.head? with
    | none => rw [calculate_of_idle s i hfree hp]
    | some blk => simp [emitted, hfree, hp] at h

theorem calculate_tracks (s : State)
    (h : ∀ a, a ≠ Z_AXIS → s.motion_buffer_block_old.pos.get a = s.pos.get a) :
    ∀ a, a ≠ Z_AXIS →
      (calculate s).motion_buffer_block_old.pos.get a = (calculate s).pos.get a := by
  intro a ha
  cases hem : emitted s with
  | none => rw [emitted_none_snapshot s hem, emitted_none_pos s hem]; exact h a ha
  | some p =>
    obtain ⟨blk, seg⟩ := p
    obtain ⟨hfree, hp, _⟩ := emitted_some s blk seg hem
    obtain ⟨hold, hpos⟩ := calculate_snapshot s _ blk hfree hp a
    rw [calculate_axes_snapshot _ _ _ a ha] at hold
    have hold5 : (calculate s).motion_buffer_block_old.pos.get a =
        (calculate_axes blk (blk.direction_bits % 256)
          { cur := s.slot s.motion_buffer_head, old := s.motion_buffer_block_old,
            pos := s.pos }).cur.pos.get a := by
      simp only [axis_values, Prod.mk.injEq] at hold
      exact hold.2.2.2.2
    rw [hold5, hpos]
    by_cases h0 : blk.steps.get a = 0
    · obtain ⟨hv, hq⟩ := calculate_axes_still blk (blk.direction_bits % 256)
        { cur := s.slot s.motion_buffer_head, old := s.motion_buffer_block_old, pos := s.pos }
        a ha h0
      simp only [axis_values, Prod.mk.injEq] at hv
      rw [hv.2.2.2.2, hq]
      exact h a ha
    · obtain ⟨hv, hq⟩ := calculate_axes_moving blk (blk.direction_bits % 256)
        { cur := s.slot s.motion_buffer_head, old := s.motion_buffer_block_old, pos := s.pos }
        a h0
      simp only [axis_values, Prod.mk.injEq] at hv
      rw [hv.2.2.2.2, hq]

theorem set_position_block_ring (H P : Nat) (b : AxisEnum) (v : Int) (ps : PositionState)
    (hwf : RingWf ps.toState) : RingWf (set_position_block H P b v ps).toState := by
  unfold set_position_block
  by_cases hne : ps.pos.get b ≠ v
  · rw [if_pos hne]; exact hwf
  · rw [if_neg hne]; exact hwf

theorem set_position_block_tracks (H P : Nat) (b : AxisEnum) (v : Int) (ps : PositionState)
    (h : ∀ a, a ≠ Z_AXIS → ps.motion_buffer_block_old.pos.get a = ps.pos.get a) :
    ∀ a, a ≠ Z_AXIS →
      (set_position_block H P b v ps).motion_buffer_block_old.pos.get a =
        (set_position_block H P b v ps).pos.get a := by
  intro a ha
  unfold set_position_block
  by_cases hne : ps.pos.get b ≠ v
  · rw [if_pos hne]
    show (ps.motion_buffer_block_old.pos.set b v).get a = (ps.pos.set b v).get a
    by_cases hab : a = b
    · subst hab; rw [PerAxis.get_set_same, PerAxis.get_set_same]
    · rw [PerAxis.get_set_ne _ (Ne.symm hab), PerAxis.get_set_ne _ (Ne.symm hab)]; exact h a ha
  · rw [if_neg hne]; exact h a ha

theorem position_call_tracks (H P : Nat) (c : PositionCall) (ps : PositionState)
    (hwf : RingWf ps.toState)
    (h : ∀ a, a ≠ Z_AXIS → ps.motion_buffer_block_old.pos.get a = ps.pos.get a) :
    RingWf (c.run H P ps).toState ∧
    ∀ a, a ≠ Z_AXIS →
      (c.run H P ps).motion_buffer_block_old.pos.get a = (c.run H P ps).pos.get a := by
  cases c with
  | pipeline c =>
    refine ⟨ringWf_call c ps.toState hwf, ?_⟩
    cases c with
    | plan blk => exact h
    | calculate => exact calculate_tracks ps.toState h
    | isr nullread =>
      intro a ha
      show (isr nullread ps.toState).motion_buffer_block_old.pos.get a
        = (isr nullread ps.toState).pos.get a
      rw [isr_snapshot, isr_pos]; exact h a ha
  | set_position a b c e =>
    simp only [PositionCall.run, set_position]
    exact ⟨set_position_block_ring _ _ _ _ _ (set_position_block_ring _ _ _ _ _
        (set_position_block_ring _ _ _ _ _ (set_position_block_ring _ _ _ _ _ hwf))),
      set_position_block_tracks _ _ _ _ _ (set_position_block_tracks _ _ _ _ _
        (set_position_block_tracks _ _ _ _ _ (set_position_block_tracks _ _ _ _ _ h)))⟩
  | set_position_axis axis v =>
    simp only [PositionCall.run, set_position_axis]
    exact ⟨set_position_block_ring _ _ _ _ _ hwf, set_position_block_tracks _ _ _ _ _ h⟩
  | set_e_position e =>
    simp only [PositionCall.run, set_e_position]
    exact ⟨set_position_block_ring _ _ _ _ _ hwf, set_position_block_tracks _ _ _ _ _ h⟩

theorem run_position_calls_tracks (H P : Nat) (calls : List PositionCall) (ps : PositionState)
    (hwf : RingWf ps.toState)
    (h : ∀ a, a ≠ Z_AXIS → ps.motion_buffer_block_old.pos.get a = ps.pos.get a) :
    RingWf (run_position_calls H P ps calls).toState ∧
    ∀ a, a ≠ Z_AXIS →
      (run_position_calls H P ps calls).motion_buffer_block_old.pos.get a =
        (run_position_calls H P ps calls).pos.get a := by
  induction calls generalizing ps with
  | nil => exact ⟨hwf, h⟩
  | cons c cs ih =>
    obtain ⟨h1, h2⟩ := position_call_tracks H P c ps hwf h
    exact ih (c.run H P ps) h1 h2

/-- C26. In every state reached from the initial state (all counters and the
snapshot zero) by complete calls of `calculate`, `isr`, `set_position` (both
overloads) and `set_e_position`, with blocks handed over by the planner in
between, the snapshot position of each of the axes X, Y and E equals the
counter `pos[]` of that axis; and if `calculate` then consumes a block with a
zero step count on such an axis, the target of that axis in the emitted
segment is the value of `pos[]`. -/
theorem C26_snapshot_tracks_position (HOLD_MODE POSITIONING_MODE : Nat)
    (calls : List PositionCall) (a : AxisEnum) (ha : a ≠ Z_AXIS) :
    (run_position_calls HOLD_MODE POSITIONING_MODE PositionState.init
        calls).motion_buffer_block_old.pos.get a =
      (run_position_calls HOLD_MODE POSITIONING_MODE PositionState.init calls).pos.get a ∧
    ∀ blk seg,
      emitted (run_position_calls HOLD_MODE POSITIONING_MODE PositionState.init calls).toState
        = some (blk, seg) →
      blk.steps.get a = 0 →
      seg.pos.get a =
        (run_position_calls HOLD_MODE POSITIONING_MODE PositionState.init calls).pos.get a := by
  obtain ⟨hwf, htr⟩ := run_position_calls_tracks HOLD_MODE POSITIONING_MODE calls
    PositionState.init (by decide) (by intro a _; cases a <;> rfl)
  refine ⟨htr a ha, ?_⟩
  intro blk seg hem h0
  have hv := emit_still _ blk seg a hwf hem ha h0
  simp only [axis_values, Prod.mk.injEq] at hv
  rw [hv.2.2.2.2]
  exact htr a ha

/-- C26, instance: the scenario block is calculated, the position is set to
(5, 6, 7, 8), and a block that moves only Z is planned: the snapshot and the
counter of Y are both 6, and the segment `calculate` then emits has the target
6 on Y. -/
theorem C26_snapshot_tracks_position_witness :
    Y_AXIS ≠ Z_AXIS ∧
    (run_position_calls 3 0 PositionState.init
      [PositionCall.pipeline (Call.plan scenario_block), PositionCall.pipeline Call.calculate,
       PositionCall.set_position 5 6 7 8,
       PositionCall.pipeline (Call.plan z_block)]).motion_buffer_block_old.pos.get Y_AXIS = 6 ∧
    (run_position_calls 3 0 PositionState.init
      [PositionCall.pipeline (Call.plan scenario_block), PositionCall.pipeline Call.calculate,
       PositionCall.set_position 5 6 7 8,
       PositionCall.pipeline (Call.plan z_block)]).pos.get Y_AXIS = 6 ∧
    ((calculate (run_position_calls 3 0 PositionState.init
      [PositionCall.pipeline (Call.plan scenario_block), PositionCall.pipeline Call.calculate,
       PositionCall.set_position 5 6 7 8,
       PositionCall.pipeline (Call.plan z_block)]).toState).slot 1).pos.get Y_AXIS = 6 :=
  ⟨by decide,
    (C26_snapshot_tracks_position 3 0
      [PositionCall.pipeline (Call.plan scenario_block), PositionCall.pipeline Call.calculate,
       PositionCall.set_position 5 6 7 8,
       PositionCall.pipeline (Call.plan z_block)] Y_AXIS (by decide)).1,
    by decide!,
    (C26_snapshot_tracks_position 3 0
      [PositionCall.pipeline (Call.plan scenario_block), PositionCall.pipeline Call.calculate,
       PositionCall.set_position 5 6 7 8,
       PositionCall.pipeline (Call.plan z_block)] Y_AXIS (by decide)).2 z_block _ rfl rfl⟩

/-! ## Homing: the events of a poll loop -/

theorem poll_vzero_events (VZERO : Nat) (axis : AxisEnum) (with_idle : Bool) (reads : List Nat)
    (log : List BusEvent) (out : HomingState)
    (h : poll_vzero VZERO axis with_idle reads log = some out) :
    ∃ ev, out.log = log ++ BusEvent.read RAMP_STAT axis :: ev ∧
      ∀ e ∈ ev, e.isPoll = true := by
  induction reads generalizing log with
  | nil => simp [poll_vzero] at h
  | cons r rs ih =>
    rw [poll_vzero] at h
    by_cases hr : r &&& VZERO ≠ VZERO
    · rw [if_pos hr] at h
      obtain ⟨ev, h1, h2⟩ := ih _ h
      refine ⟨(if with_idle then [BusEvent.idle] else []) ++ BusEvent.read RAMP_STAT axis :: ev,
        ?_, ?_⟩
      · rw [h1]; simp
      · intro e he
        rw [List.mem_append, List.mem_cons] at he
        rcases he with he | he | he
        · cases with_idle
          · simp at he
          · simp at he; subst he; rfl
        · subst he; rfl
        · exact h2 e he
    · rw [if_neg hr] at h
      simp only [Option.some.injEq] at h
      subst h
      exact ⟨[], rfl, by simp⟩

theorem poll_vzero_returns (VZERO : Nat) (axis : AxisEnum) (with_idle : Bool) (pre : List Nat)
    (r : Nat) (rest : List Nat) (log : List BusEvent)
    (hpre : ∀ x ∈ pre, x &&& VZERO ≠ VZERO) (hr : r &&& VZERO = VZERO) :
    ∃ out, poll_vzero VZERO axis with_idle (pre ++ r :: rest) log = some out ∧
      out.reads = rest :=
  ⟨_, poll_vzero_ends VZERO axis with_idle pre r rest log hpre hr, rfl⟩

theorem homing_switch_returns (cfg : HomingConfig) (p : HomingParams) (log : List BusEvent)
    (pre1 pre2 rest : List Nat) (r1 r2 : Nat)
    (h1 : ∀ x ∈ pre1, x &&& cfg.VZERO ≠ cfg.VZERO) (hr1 : r1 &&& cfg.VZERO = cfg.VZERO)
    (h2 : ∀ x ∈ pre2, x &&& cfg.VZERO ≠ cfg.VZERO) (hr2 : r2 &&& cfg.VZERO = cfg.VZERO) :
    ∃ out, homing_switch cfg p { log := log, reads := pre1 ++ r1 :: (pre2 ++ r2 :: rest) }
      = some out := by
  unfold homing_switch
  simp only [HomingState.write, HomingState.event]
  rw [poll_vzero_ends cfg.VZERO p.axis_to_home true pre1 r1 _ _ h1 hr1]
  simp only [Option.some_bind]
  rw [poll_vzero_ends cfg.VZERO p.axis_to_home true pre2 r2 _ _ h2 hr2]
  simp only [Option.some_bind]
  exact ⟨_, rfl⟩

theorem homing_stall_returns (cfg : HomingConfig) (p : HomingParams) (log : List BusEvent)
    (pre1 pre2 rest : List Nat) (r1 r2 : Nat)
    (h1 : ∀ x ∈ pre1, x &&& cfg.VZERO ≠ cfg.VZERO) (hr1 : r1 &&& cfg.VZERO = cfg.VZERO)
    (h2 : ∀ x ∈ pre2, x &&& cfg.VZERO ≠ cfg.VZERO) (hr2 : r2 &&& cfg.VZERO = cfg.VZERO) :
    ∃ out, homing_stall cfg p { log := log, reads := pre1 ++ r1 :: (pre2 ++ r2 :: rest) }
      = some out := by
  unfold homing_stall
  simp only [HomingState.write, HomingState.event]
  rw [poll_vzero_ends cfg.VZERO p.axis_to_home false pre1 r1 _ _ h1 hr1]
  simp only [Option.some_bind]
  rw [poll_vzero_ends cfg.VZERO p.axis_to_home false pre2 r2 _ _ h2 hr2]
  simp only [Option.some_bind]
  exact ⟨_, rfl⟩

/-! ## C30: the homing speed -/

theorem writes_between_polls_shape (A ev1 M tail : List BusEvent) (address : Register)
    (axis : AxisEnum) (m : BusEvent)
    (hA : ∀ e ∈ A, e.isRead = false) (hev : ∀ e ∈ ev1, e.isPoll = true)
    (hm : m.isPoll = false) (hM : ∀ e ∈ m :: M, e.isRead = false) :
    writes_between_polls
        (A ++ (BusEvent.read address axis :: ev1 ++ (m :: M ++ BusEvent.read address axis :: tail)))
      = (m :: M).filterMap BusEvent.asWrite := by
  unfold writes_between_polls
  have h1 : (A ++ (BusEvent.read address axis :: ev1 ++
        (m :: M ++ BusEvent.read address axis :: tail))).dropWhile (fun e => !e.isRead)
      = BusEvent.read address axis :: ev1 ++ (m :: M ++ BusEvent.read address axis :: tail) := by
    rw [List.dropWhile_append_of_pos (by intro e he; simp [hA e he])]
    rw [List.cons_append, List.dropWhile_cons_of_neg (by simp [BusEvent.isRead])]
  have h2 : (BusEvent.read address axis :: ev1 ++
        (m :: M ++ BusEvent.read address axis :: tail)).dropWhile BusEvent.isPoll
      = m :: M ++ BusEvent.read address axis :: tail := by
    rw [List.dropWhile_append_of_pos]
    · rw [List.cons_append, List.dropWhile_cons_of_neg (by simp [hm])]
    · intro e he
      rw [List.mem_cons] at he
      rcases he with he | he
      · subst he; rfl
      · exact hev e he
  have h3 : (m :: M ++ BusEvent.read address axis :: tail).takeWhile (fun e => !e.isRead)
      = m :: M := by
    rw [List.takeWhile_append_of_pos (by intro e he; simp [hM e he])]
    rw [List.takeWhile_cons_of_neg (by simp [BusEvent.isRead])]
    simp
  rw [h1, h2, h3]

theorem homing_switch_between_polls (cfg : HomingConfig) (p : HomingParams)
    (reads : List Nat) (out : HomingState)
    (hret : homing_switch cfg p { log := [], reads := reads } = some out) :
    writes_between_polls out.log =
      [{ address := RAMPMODE, data := cfg.HOLD_MODE, axis := p.axis_to_home },
       { address := XACTUAL, data := 0, axis := p.axis_to_home },
       { address := XTARGET, data := 0, axis := p.axis_to_home },
       { address := SW_MODE, data := 0, axis := p.axis_to_home },
       { address := RAMPMODE, data := cfg.POSITIONING_MODE, axis := p.axis_to_home },
       { address := VMAX, data := toU32 p.homing_speed, axis := p.axis_to_home },
       { address := DMAX, data := 0xFFFF, axis := p.axis_to_home },
       { address := XTARGET, data := toU32 p.homing_retract, axis := p.axis_to_home }] := by
  unfold homing_switch at hret
  simp only [Option.bind_eq_some, Option.some.injEq] at hret
  obtain ⟨o1, hq1, o2, hq2, hout⟩ := hret
  obtain ⟨ev1, e1, p1⟩ := poll_vzero_events _ _ _ _ _ _ hq1
  obtain ⟨ev2, e2, _⟩ := poll_vzero_events _ _ _ _ _ _ hq2
  simp only [HomingState.write, HomingState.event, List.nil_append, List.append_assoc,
    List.cons_append] at e1 e2
  rw [← hout]
  simp only [HomingState.write, e2, e1, List.append_assoc, List.cons_append, List.nil_append]
  have := writes_between_polls_shape
    [BusEvent.enable p.axis_to_home,
     BusEvent.write { address := RAMPMODE, data := cfg.VELOCITY_MODE_NEG, axis := p.axis_to_home },
     BusEvent.write { address := VMAX, data := toU32 p.homing_speed, axis := p.axis_to_home },
     BusEvent.write { address := SW_MODE, data := p.sw_register, axis := p.axis_to_home }]
    ev1
    [BusEvent.write { address := XACTUAL, data := 0, axis := p.axis_to_home },
     BusEvent.write { address := XTARGET, data := 0, axis := p.axis_to_home },
     BusEvent.write { address := SW_MODE, data := 0, axis := p.axis_to_home },
     BusEvent.write { address := RAMPMODE, data := cfg.POSITIONING_MODE, axis := p.axis_to_home },
     BusEvent.write { address := VMAX, data := toU32 p.homing_speed, axis := p.axis_to_home },
     BusEvent.write { address := DMAX, data := 0xFFFF, axis := p.axis_to_home },
     BusEvent.write { address := XTARGET, data := toU32 p.homing_retract, axis := p.axis_to_home },
     BusEvent.delay 200]
    (ev2 ++
      [BusEvent.write { address := SW_MODE, data := p.sw_register, axis := p.axis_to_home },
       BusEvent.write { address := RAMPMODE, data := cfg.HOLD_MODE, axis := p.axis_to_home },
       BusEvent.write { address := XACTUAL, data := 0, axis := p.axis_to_home },
       BusEvent.write { address := XTARGET, data := 0, axis := p.axis_to_home },
       BusEvent.write
         { address := RAMPMODE, data := cfg.POSITIONING_MODE, axis := p.axis_to_home }])
    RAMP_STAT p.axis_to_home
    (BusEvent.write { address := RAMPMODE, data := cfg.HOLD_MODE, axis := p.axis_to_home })
    (by simp [BusEvent.isRead]) p1 rfl (by simp [BusEvent.isRead])
  simp only [List.append_assoc, List.cons_append, List.nil_append] at this
  rw [this]
  simp [BusEvent.asWrite]

theorem homing_stall_between_polls (cfg : HomingConfig) (p : HomingParams)
    (reads : List Nat) (out : HomingState)
    (hret : homing_stall cfg p { log := [], reads := reads } = some out) :
    writes_between_polls out.log =
      [{ address := RAMPMODE, data := cfg.HOLD_MODE, axis := p.axis_to_home },
       { address := XACTUAL, data := 0, axis := p.axis_to_home },
       { address := XTARGET, data := 0, axis := p.axis_to_home },
       { address := SW_MODE, data := 0, axis := p.axis_to_home },
       { address := RAMPMODE, data := cfg.POSITIONING_MODE, axis := p.axis_to_home },
       { address := VMAX, data := toU32 p.homing_speed, axis := p.axis_to_home },
       { address := DMAX, data := 0xFFFF, axis := p.axis_to_home },
       { address := XTARGET, data := toU32 p.homing_retract, axis := p.axis_to_home }] := by
  unfold homing_stall at hret
  simp only [Option.bind_eq_some, Option.some.injEq] at hret
  obtain ⟨o1, hq1, o2, hq2, hout⟩ := hret
  obtain ⟨ev1, e1, p1⟩ := poll_vzero_events _ _ _ _ _ _ hq1
  obtain ⟨ev2, e2, _⟩ := poll_vzero_events _ _ _ _ _ _ hq2
  simp only [HomingState.write, HomingState.event, List.nil_append, List.append_assoc,
    List.cons_append] at e1 e2
  rw [← hout]
  simp only [HomingState.write, HomingState.event, e2, e1, List.append_assoc, List.cons_append,
    List.nil_append]
  have := writes_between_polls_shape
    [BusEvent.write { address := SW_MODE, data := 0x00, axis := p.axis_to_home },
     BusEvent.write
       { address := GCONF, data := 0x1080 ||| p.motor_direction, axis := p.axis_to_home },
     BusEvent.write
       { address := COOLCONF,
         data := ((p.stallguardthreshold &&& 0x7F) <<< 16) % 2 ^ 32,
         axis := p.axis_to_home },
     BusEvent.write
       { address := TCOOLTHRS,
         data :=
           if p.homing_speed = 0 then cfg.stall_speed_zero_divisor % 2 ^ 32
           else toU32 (truncToLong
             (((toU32 (Int.tdiv 16777216 p.homing_speed) / 16 : Nat) : ℚ) * (11 / 10))),
         axis := p.axis_to_home },
     BusEvent.write { address := SW_MODE, data := 0x400, axis := p.axis_to_home },
     BusEvent.write { address := AMAX, data := 100, axis := p.axis_to_home },
     BusEvent.write { address := RAMPMODE, data := cfg.VELOCITY_MODE_NEG, axis := p.axis_to_home },
     BusEvent.write { address := VMAX, data := toU32 p.homing_speed, axis := p.axis_to_home },
     BusEvent.delay 20]
    ev1
    [BusEvent.write { address := XACTUAL, data := 0, axis := p.axis_to_home },
     BusEvent.write { address := XTARGET, data := 0, axis := p.axis_to_home },
     BusEvent.write { address := SW_MODE, data := 0, axis := p.axis_to_home },
     BusEvent.write { address := RAMPMODE, data := cfg.POSITIONING_MODE, axis := p.axis_to_home },
     BusEvent.write { address := VMAX, data := toU32 p.homing_speed, axis := p.axis_to_home },
     BusEvent.write { address := DMAX, data := 0xFFFF, axis := p.axis_to_home },
     BusEvent.write { address := XTARGET, data := toU32 p.homing_retract, axis := p.axis_to_home },
     BusEvent.delay 20]
    (ev2 ++
      [BusEvent.write { address := SW_MODE, data := 0x0, axis := p.axis_to_home },
       BusEvent.write { address := RAMPMODE, data := 0x3, axis := p.axis_to_home },
       BusEvent.write
         { address := GCONF, data := 0x1080 ||| p.motor_direction, axis := p.axis_to_home },
       BusEvent.write { address := XACTUAL, data := 0x0, axis := p.axis_to_home },
       BusEvent.write { address := XTARGET, data := 0x0, axis := p.axis_to_home },
       BusEvent.write { address := RAMPMODE, data := 0x0, axis := p.axis_to_home },
       BusEvent.delay 200])
    RAMP_STAT p.axis_to_home
    (BusEvent.write { address := RAMPMODE, data := cfg.HOLD_MODE, axis := p.axis_to_home })
    (by simp [BusEvent.isRead]) p1 rfl (by simp [BusEvent.isRead])
  simp only [List.append_assoc, List.cons_append, List.nil_append] at this
  rw [this]
  simp [BusEvent.asWrite]

/-- C22. For the same axis, homing speed and retract distance, and status
reads that end both poll loops of either run, switch-based and stall-based
homing both return, and the register writes between the first and the second
poll loop are in both the same eight writes: hold mode, `XACTUAL = 0`,
`XTARGET = 0`, `SW_MODE = 0`, positioning mode, `VMAX = homing_speed`,
`DMAX = 0xFFFF`, `XTARGET = homing_retract`. -/
theorem C22_retract_writes_agree (cfg : HomingConfig) (p1 p2 : HomingParams)
    (hax : p1.axis_to_home = p2.axis_to_home) (hsp : p1.homing_speed = p2.homing_speed)
    (hre : p1.homing_retract = p2.homing_retract)
    (pre1 pre2 rest : List Nat) (r1 r2 : Nat)
    (h1 : ∀ x ∈ pre1, x &&& cfg.VZERO ≠ cfg.VZERO) (hr1 : r1 &&& cfg.VZERO = cfg.VZERO)
    (h2 : ∀ x ∈ pre2, x &&& cfg.VZERO ≠ cfg.VZERO) (hr2 : r2 &&& cfg.VZERO = cfg.VZERO)
    (pre3 pre4 rest2 : List Nat) (r3 r4 : Nat)
    (h3 : ∀ x ∈ pre3, x &&& cfg.VZERO ≠ cfg.VZERO) (hr3 : r3 &&& cfg.VZERO = cfg.VZERO)
    (h4 : ∀ x ∈ pre4, x &&& cfg.VZERO ≠ cfg.VZERO) (hr4 : r4 &&& cfg.VZERO = cfg.VZERO) :
    ∃ o1 o2,
      homing_switch cfg p1 { log := [], reads := pre1 ++ r1 :: (pre2 ++ r2 :: rest) } = some o1 ∧
      homing_stall cfg p2 { log := [], reads := pre3 ++ r3 :: (pre4 ++ r4 :: rest2) } = some o2 ∧
      writes_between_polls o1.log =
        [{ address := RAMPMODE, data := cfg.HOLD_MODE, axis := p1.axis_to_home },
         { address := XACTUAL, data := 0, axis := p1.axis_to_home },
         { address := XTARGET, data := 0, axis := p1.axis_to_home },
         { address := SW_MODE, data := 0, axis := p1.axis_to_home },
         { address := RAMPMODE, data := cfg.POSITIONING_MODE, axis := p1.axis_to_home },
         { address := VMAX, data := toU32 p1.homing_speed, axis := p1.axis_to_home },
         { address := DMAX, data := 0xFFFF, axis := p1.axis_to_home },
         { address := XTARGET, data := toU32 p1.homing_retract, axis := p1.axis_to_home }] ∧
      writes_between_polls o2.log = writes_between_polls o1.log := by
  obtain ⟨o1, ho1⟩ := homing_switch_returns cfg p1 [] pre1 pre2 rest r1 r2 h1 hr1 h2 hr2
  obtain ⟨o2, ho2⟩ := homing_stall_returns cfg p2 [] pre3 pre4 rest2 r3 r4 h3 hr3 h4 hr4
  refine ⟨o1, o2, ho1, ho2, homing_switch_between_polls cfg p1 _ o1 ho1, ?_⟩
  rw [homing_switch_between_polls cfg p1 _ o1 ho1, homing_stall_between_polls cfg p2 _ o2 ho2,
    hax, hsp, hre]

/-- C22, instance: homing of X with speed 4000 and retract distance 400, on the
end switch with the status reads 0, 0x400, 0, 0, 0x400 and on the stall
detection with the status reads 0x400, 0x400. -/
theorem C22_retract_writes_agree_witness :
    ∃ o1 o2,
      homing_switch example_homing_config
        { axis_to_home := X_AXIS, homing_retract := 400, homing_speed := 4000,
          homing_bump_speed := 2000, sw_register := 45, sg_active := false,
          stallguardthreshold := 0, motor_direction := 0 }
        { log := [], reads := [0] ++ 0x400 :: ([0, 0] ++ 0x400 :: []) } = some o1 ∧
      homing_stall example_homing_config
        { axis_to_home := X_AXIS, homing_retract := 400, homing_speed := 4000,
          homing_bump_speed := 2000, sw_register := 45, sg_active := true,
          stallguardthreshold := 8, motor_direction := 0x10 }
        { log := [], reads := [] ++ 0x400 :: ([] ++ 0x400 :: []) } = some o2 ∧
      writes_between_polls o1.log =
        [{ address := RAMPMODE, data := 3, axis := X_AXIS },
         { address := XACTUAL, data := 0, axis := X_AXIS },
         { address := XTARGET, data := 0, axis := X_AXIS },
         { address := SW_MODE, data := 0, axis := X_AXIS },
         { address := RAMPMODE, data := 0, axis := X_AXIS },
         { address := VMAX, data := 4000, axis := X_AXIS },
         { address := DMAX, data := 0xFFFF, axis := X_AXIS },
         { address := XTARGET, data := 400, axis := X_AXIS }] ∧
      writes_between_polls o2.log = writes_between_polls o1.log :=
  C22_retract_writes_agree example_homing_config
    { axis_to_home := X_AXIS, homing_retract := 400, homing_speed := 4000,
      homing_bump_speed := 2000, sw_register := 45, sg_active := false,
      stallguardthreshold := 0, motor_direction := 0 }
    { axis_to_home := X_AXIS, homing_retract := 400, homing_speed := 4000,
      homing_bump_speed := 2000, sw_register := 45, sg_active := true,
      stallguardthreshold := 8, motor_direction := 0x10 }
    rfl rfl rfl [0] [0, 0] [] 0x400 0x400 (by decide) (by decide) (by decide) (by decide)
    [] [] [] 0x400 0x400 (by simp) (by decide) (by simp) (by decide)

/-! ## C31: the bump divisor -/

end Trams
